import Mathlib

/-! draytek_exporter: status reader and metric collector

A shallow embedding of `vigor_v5/status.go` (the DSL status reader) and
`collector.go` (the Prometheus collector), followed by theorems about them.

Conventions of the embedding:

* Go `int` is the 64-bit signed integer of the platforms the exporter is built
  for; values are `Int` and arithmetic that can overflow is wrapped explicitly.
* Go `float64` is the type `Float64` below: an IEEE-754 binary64 value given by
  sign, integer mantissa and binary exponent, with round-to-nearest-even.
* A Go function returning `(Status, error)` returns `Status × Option Error`.
* A Go `string` is a sequence of bytes. The functions of `strings` and
  `strconv` are given on the text of a string (`String`); where a value can
  hold bytes that are not valid UTF-8 it is a `GoString`.
* The router response is taken as a parsed JSON document (`Json`); `gjson`
  accessors are functions on `Option Json`, `none` being a non-existent result.
* A panic is the result `none`.
-/

namespace Draytek

/-! ## float64 -/

/-- Values of IEEE-754 binary64. `finite neg m e` is `(-1)^neg * m * 2^e` with
`0 < m < 2^53` and `-1074 ≤ e ≤ 971`. -/
inductive Float64 where
  | nan
  | inf (neg : Bool)
  | zero (neg : Bool)
  | finite (neg : Bool) (mant : Nat) (exp : Int)
deriving DecidableEq, Repr

/-- Numerator and denominator of `p / (q * 2^e)`. -/
def scaleBy (p q : Nat) (e : Int) : Nat × Nat :=
  if 0 ≤ e then (p, q <<< e.toNat) else (p <<< (-e).toNat, q)

/-- Integer nearest to `n / d`, ties to the even neighbour. -/
def divRoundEven (n d : Nat) : Nat :=
  let k := n / d
  let r := n % d
  if 2 * r < d then k
  else if d < 2 * r then k + 1
  else if k % 2 = 0 then k else k + 1

/-- Number of binary digits of `n`, by repeated halving (`fuel` bounds the
number of halvings; `n` itself is always enough). -/
def bitLength : Nat → Nat → Nat
  | 0, _ => 0
  | fuel + 1, n => if n = 0 then 0 else bitLength fuel (n / 2) + 1

/-- Position of the leading binary digit of `n > 0`: the floor of its binary
logarithm. -/
def log2Floor (n : Nat) : Nat :=
  bitLength n n - 1

/-- Binary exponent `e` with `2^52 ≤ p / (q * 2^e) < 2^53`, for `p, q > 0`. -/
def binaryExponent (p q : Nat) : Int :=
  let e0 : Int := (log2Floor p : Int) - (log2Floor q : Int) - 52
  let s := scaleBy p q e0
  if s.1 / s.2 < 2 ^ 52 then e0 - 1 else e0

/-- The binary64 nearest to `± p / q` (ties to even); `none` when the rounded
magnitude exceeds the largest finite binary64. -/
def Float64.round (neg : Bool) (p q : Nat) : Option Float64 :=
  if p = 0 then some (.zero neg)
  else
    let e := max (binaryExponent p q) (-1074)
    let s := scaleBy p q e
    let m := divRoundEven s.1 s.2
    if m = 0 then some (.zero neg)
    else if m = 2 ^ 53 then
      (if e + 1 > 971 then none else some (.finite neg (2 ^ 52) (e + 1)))
    else if e > 971 then none
    else some (.finite neg m e)

/-- The conversion `float64(x)` of a Go integer. -/
def Float64.ofInt (x : Int) : Float64 :=
  (Float64.round (decide (x < 0)) x.natAbs 1).getD (.inf (decide (x < 0)))

/-- The constant `1.0`. -/
def Float64.one : Float64 :=
  .finite false 4503599627370496 (-52)

/-- A binary64 is finite when it is neither NaN nor an infinity. -/
def Float64.isFinite : Float64 → Bool
  | .nan => false
  | .inf _ => false
  | _ => true

/-- The comparison `f == 0`: true of both zeros and of nothing else. -/
def Float64.eqZero : Float64 → Bool
  | .zero _ => true
  | _ => false

/-- The integer part of a binary64, rounded toward zero; `none` for NaN and
the infinities. -/
def Float64.truncate : Float64 → Option Int
  | .nan => none
  | .inf _ => none
  | .zero _ => some 0
  | .finite neg m e =>
    let mag : Nat := if 0 ≤ e then m <<< e.toNat else m >>> (-e).toNat
    some (if neg then -(mag : Int) else (mag : Int))

/-- The conversion `int64(f)`: the integer part when it is in range. Beyond
the range, and for NaN, Go leaves the result to the platform; it is the
smallest integer on amd64, which is what is taken here. -/
def Float64.toInt64 (f : Float64) : Int :=
  match f.truncate with
  | some z => if -(2 ^ 63) ≤ z ∧ z < 2 ^ 63 then z else -(2 ^ 63)
  | none => -(2 ^ 63)

/-! ## strings.Fields -/

/-- The predicate `unicode.IsSpace`: the code points with the White_Space
property. -/
def isSpace (c : Char) : Bool :=
  let n := c.toNat
  (9 ≤ n && n ≤ 13) || n == 0x20 || n == 0x85 || n == 0xA0 || n == 0x1680 ||
  (0x2000 ≤ n && n ≤ 0x200A) || n == 0x2028 || n == 0x2029 || n == 0x202F ||
  n == 0x205F || n == 0x3000

/-- The scan of `strings.Fields`: `cur` is the field being read. -/
def fieldsFrom : List Char → List Char → List (List Char)
  | [], cur => if cur = [] then [] else [cur]
  | c :: cs, cur =>
    if isSpace c then
      (if cur = [] then fieldsFrom cs [] else cur :: fieldsFrom cs [])
    else fieldsFrom cs (cur ++ [c])

/-- The function `strings.Fields`: the maximal runs of non-space characters. -/
def Fields (s : String) : List String :=
  (fieldsFrom s.toList []).map String.mk

/-! ## strconv.Atoi -/

/-- The error kinds of `strconv.NumError`. -/
inductive NumError where
  | ErrSyntax
  | ErrRange
deriving DecidableEq, Repr

/-- An ASCII decimal digit. -/
def isDecDigit (c : Char) : Bool :=
  48 ≤ c.toNat && c.toNat ≤ 57

/-- The digit loop of `strconv.ParseUint` in base 10 with 64 bits: a syntax
error at the first non-digit, a range error as soon as the value leaves the
unsigned 64-bit range. -/
def parseUintFrom : List Char → Nat → Except NumError Nat
  | [], n => .ok n
  | c :: cs, n =>
    if !isDecDigit c then .error .ErrSyntax
    else if n ≥ (2 ^ 64 - 1) / 10 + 1 then .error .ErrRange
    else if n * 10 + (c.toNat - 48) ≥ 2 ^ 64 then .error .ErrRange
    else parseUintFrom cs (n * 10 + (c.toNat - 48))

/-- Sign and magnitude digits of an integer literal. -/
def splitSign : List Char → Bool × List Char
  | [] => (false, [])
  | c :: cs =>
    if c = '+' then (false, cs)
    else if c = '-' then (true, cs)
    else (false, c :: cs)

/-- The function `strconv.Atoi` for the 64-bit `int`: an optional sign and one
or more decimal digits, within the signed 64-bit range. -/
def Atoi (s : String) : Except NumError Int :=
  let sd := splitSign s.toList
  if sd.2 = [] then .error .ErrSyntax
  else
    match parseUintFrom sd.2 0 with
    | .error .ErrSyntax => .error .ErrSyntax
    | .error .ErrRange => .error .ErrRange
    | .ok un =>
      if !sd.1 && un ≥ 2 ^ 63 then .error .ErrRange
      else if sd.1 && un > 2 ^ 63 then .error .ErrRange
      else .ok (if sd.1 then -(un : Int) else (un : Int))

/-- Two-complement wrap-around of a mathematical integer into the signed
64-bit range, as Go arithmetic on `int` does. -/
def wrapInt64 (z : Int) : Int :=
  (z + 2 ^ 63) % 2 ^ 64 - 2 ^ 63

/-! ## strconv.ParseFloat -/

/-- ASCII lower-casing of the letters `A` to `Z`. -/
def asciiLower (c : Char) : Char :=
  if 65 ≤ c.toNat ∧ c.toNat ≤ 90 then Char.ofNat (c.toNat + 32) else c

/-- Whether a string is `inf` or `infinity` in any letter case. -/
def isInfWord (r : List Char) : Bool :=
  decide (r.map asciiLower = ['i', 'n', 'f'] ∨
    r.map asciiLower = ['i', 'n', 'f', 'i', 'n', 'i', 't', 'y'])

/-- Whether a string is `nan` in any letter case. -/
def isNanWord (r : List Char) : Bool :=
  decide (r.map asciiLower = ['n', 'a', 'n'])

/-- The function `special` of `strconv`, on a whole string: an optionally
signed `inf` or `infinity`, or an unsigned `nan`, in any letter case. -/
def special (cs : List Char) : Option Float64 :=
  match cs with
  | [] => none
  | c :: r =>
    if c = '+' then (if isInfWord r then some (.inf false) else none)
    else if c = '-' then (if isInfWord r then some (.inf true) else none)
    else if isInfWord (c :: r) then some (.inf false)
    else if isNanWord (c :: r) then some .nan
    else none

/-- Value of a mantissa digit: decimal digits always, the letters `a` to `f`
in either case when the literal is hexadecimal. -/
def mantDigit (hex : Bool) (c : Char) : Option Nat :=
  if isDecDigit c then some (c.toNat - 48)
  else if hex && 97 ≤ (asciiLower c).toNat && (asciiLower c).toNat ≤ 102 then
    some ((asciiLower c).toNat - 87)
  else none

/-- What the mantissa loop of `readFloat` has read. -/
structure Mantissa where
  mant : Nat := 0
  frac : Nat := 0
  sawdot : Bool := false
  sawdigits : Bool := false
  underscores : Bool := false
deriving DecidableEq, Repr

/-- The mantissa loop of `readFloat`: digits, at most one point, underscores;
it returns what was read and the unread rest. The mantissa is kept exactly. -/
def readMantissa (hex : Bool) : List Char → Mantissa → Mantissa × List Char
  | [], st => (st, [])
  | c :: cs, st =>
    if c = '_' then readMantissa hex cs { st with underscores := true }
    else if c = '.' then
      (if st.sawdot then (st, c :: cs)
       else readMantissa hex cs { st with sawdot := true })
    else
      match mantDigit hex c with
      | some d =>
        readMantissa hex cs
          { st with
            sawdigits := true
            mant := st.mant * (if hex then 16 else 10) + d
            frac := if st.sawdot then st.frac + 1 else st.frac }
      | none => (st, c :: cs)

/-- The exponent digit loop of `readFloat`: digits and underscores; the
exponent stops growing once it has reached 10000. -/
def readExpDigits : List Char → Nat → Bool → Nat × Bool × List Char
  | [], e, u => (e, u, [])
  | c :: cs, e, u =>
    if c = '_' then readExpDigits cs e true
    else if isDecDigit c then
      readExpDigits cs (if e < 10000 then e * 10 + (c.toNat - 48) else e) u
    else (e, u, c :: cs)

/-- The scan of `underscoreOK` over the number proper; `saw` is the last
character class seen (`0` digit or base prefix, `_` underscore, `!` other,
`^` start). -/
def underscoreScan (hex : Bool) : List Char → Char → Bool
  | [], saw => saw != '_'
  | c :: cs, saw =>
    if isDecDigit c || (hex && 97 ≤ (asciiLower c).toNat && (asciiLower c).toNat ≤ 102) then
      underscoreScan hex cs '0'
    else if c = '_' then
      (if saw != '0' then false else underscoreScan hex cs '_')
    else if saw = '_' then false
    else underscoreScan hex cs '!'

/-- The function `underscoreOK` of `strconv`: underscores only between digits
or between a base prefix and a digit. -/
def underscoreOK (cs : List Char) : Bool :=
  let s := (splitSign cs).2
  match s with
  | z :: p :: rest =>
    if z = '0' ∧ (asciiLower p = 'b' ∨ asciiLower p = 'o' ∨ asciiLower p = 'x') then
      underscoreScan (asciiLower p = 'x') rest '0'
    else underscoreScan false s '^'
  | _ => underscoreScan false s '^'

/-- A parsed number literal: sign, exact mantissa, and the power of ten (or of
two, for a hexadecimal literal) it is scaled by. -/
structure FloatLit where
  neg : Bool
  hex : Bool
  mant : Nat
  exp : Int
deriving DecidableEq, Repr

/-- The base prefix test of `readFloat`: `0x` or `0X` followed by at least one
more character. -/
def hasHexPrefix : List Char → Bool
  | z :: x :: _ :: _ => z = '0' && asciiLower x = 'x'
  | _ => false

/-- The function `readFloat` of `strconv`, required to read the whole string. -/
def readFloat (cs : List Char) : Option FloatLit :=
  let sd := splitSign cs
  let hex : Bool := hasHexPrefix sd.2
  let body := if hex then sd.2.drop 2 else sd.2
  let mr := readMantissa hex body {}
  let st := mr.1
  if !st.sawdigits then none
  else
    let scale : Int := if hex then 4 * (st.frac : Int) else (st.frac : Int)
    match mr.2 with
    | [] =>
      if hex then none
      else if st.underscores && !underscoreOK cs then none
      else some { neg := sd.1, hex := hex, mant := st.mant, exp := -scale }
    | c :: rest =>
      if asciiLower c ≠ (if hex then 'p' else 'e') then none
      else
        let es := splitSign rest
        match es.2 with
        | [] => none
        | d :: _ =>
          if !isDecDigit d then none
          else
            let r := readExpDigits es.2 0 st.underscores
            if r.2.2 ≠ [] then none
            else if r.2.1 && !underscoreOK cs then none
            else
              some { neg := sd.1, hex := hex, mant := st.mant,
                     exp := (if es.1 then -(r.1 : Int) else (r.1 : Int)) - scale }

/-- The binary64 nearest to the literal; `none` when it is out of range. -/
def FloatLit.toFloat64 (l : FloatLit) : Option Float64 :=
  let pow (k : Nat) : Nat := if l.hex then 1 <<< k else 10 ^ k
  if 0 ≤ l.exp then Float64.round l.neg (l.mant * pow l.exp.toNat) 1
  else Float64.round l.neg l.mant (pow (-l.exp).toNat)

/-- The function `strconv.ParseFloat(s, 64)`: the special values, or the
decimal or hexadecimal literal rounded to the nearest binary64; a syntax error
when the string is not such a literal, a range error when the rounded value is
not finite. -/
def ParseFloat (s : String) : Except NumError Float64 :=
  match special s.toList with
  | some f => .ok f
  | none =>
    match readFloat s.toList with
    | none => .error .ErrSyntax
    | some l =>
      match l.toFloat64 with
      | some f => .ok f
      | none => .error .ErrRange

/-- The value `strconv.ParseFloat(s, 64)` returns next to its error: zero with
a syntax error and the infinity of the literal's sign with a range error. -/
def parseFloatValue (s : String) : Float64 :=
  match special s.toList with
  | some f => f
  | none =>
    match readFloat s.toList with
    | none => .zero false
    | some l =>
      match l.toFloat64 with
      | some f => f
      | none => .inf l.neg

/-! ## strconv.FormatFloat -/

/-- The search for the shortest decimal: `lower`, `d` and `upper` are the two
bounds and the exact value, as integers on a common decimal scale. From the
most significant decimal position down, the first position at which `d`
rounded down or rounded up stays within the bounds is taken; when both do,
`d` is rounded to the nearest of the two, a tie going to the even digit. -/
def shortestSearch (lower d upper : Nat) (inclusive : Bool) : Nat → Nat
  | 0 => d
  | k + 1 =>
    let p := 10 ^ (k + 1)
    let down := d / p * p
    let up := down + p
    let within (x : Nat) : Bool :=
      if inclusive then decide (lower ≤ x ∧ x ≤ upper) else decide (lower < x ∧ x < upper)
    if within down && within up then
      (if 2 * (d % p) < p then down
       else if p < 2 * (d % p) then up
       else if (d / p) % 2 = 0 then down else up)
    else if within down then down
    else if within up then up
    else shortestSearch lower d upper inclusive k

/-- The shortest decimal that reads back as `m * 2^e`: its numerator and its
number of fraction digits. The bounds are the midpoints between the value and
its two neighbours among the binary64 values; they are within the bounds when
the mantissa is even. -/
def shortestDecimal (m : Nat) (e : Int) : Nat × Nat :=
  let e2 := e - 2
  let s : Nat := if 0 ≤ e2 then 0 else (-e2).toNat
  let scaled (n : Nat) : Nat := if 0 ≤ e2 then n <<< e2.toNat else n * 5 ^ s
  let lower4 : Nat := if 2 ^ 52 < m ∨ e = -1074 then 4 * m - 2 else 4 * m - 1
  let upper := scaled (4 * m + 2)
  (shortestSearch (scaled lower4) (scaled (4 * m)) upper (m % 2 = 0) (Nat.repr upper).length, s)

/-- Fixed-point text of `x / 10^s`, without trailing zeros in the fraction. -/
def formatFixed (neg : Bool) (x s : Nat) : String :=
  let fp := Nat.repr (x % 10 ^ s)
  let padded := List.replicate (s - fp.length) '0' ++ fp.toList
  let frac := (padded.reverse.dropWhile (fun c => c = '0')).reverse
  (if neg then "-" else "") ++ Nat.repr (x / 10 ^ s) ++
    (if frac = [] then "" else "." ++ String.mk frac)

/-- The call `strconv.FormatFloat(f, 'f', -1, 64)`: fixed-point text with the
smallest number of digits that reads back as `f`. -/
def FormatFloat : Float64 → String
  | .nan => "NaN"
  | .inf false => "+Inf"
  | .inf true => "-Inf"
  | .zero false => "0"
  | .zero true => "-0"
  | .finite neg m e => formatFixed neg (shortestDecimal m e).1 (shortestDecimal m e).2

/-! ## Go strings -/

/-- A Go string, which is any sequence of bytes, as UTF-8 decoding splits it:
the text `head`, then for every byte that does not decode that byte and the
text that follows it. The string is valid UTF-8 when `rest` is empty. -/
structure GoString where
  head : String
  rest : List (Nat × String) := []
deriving DecidableEq, Repr

/-- A text as a Go string. -/
instance : Coe String GoString := ⟨fun s => { head := s }⟩

/-- The text of a Go string as `range`, `strings.Fields` and `strconv` read
it: every byte that does not decode counts as the character U+FFFD. -/
def GoString.text (g : GoString) : String :=
  g.rest.foldl (fun acc p => acc ++ "\uFFFD" ++ p.2) g.head

/-- The function `utf8.ValidString`. -/
def ValidString (g : GoString) : Bool :=
  g.rest.isEmpty

/-! ## vigor_v5/status.go: the unit helpers -/

/-- The function `parseKbps` of `status.go`. -/
def parseKbps (s : String) : Int :=
  let parts := Fields s
  if parts.length ≠ 2 then 0
  else
    match Atoi (parts.headD "") with
    | .error _ => 0
    | .ok x => wrapInt64 (x * 1000)

/-- The function `parsedB` of `status.go`. -/
def parsedB (s : String) : Float64 :=
  let parts := Fields s
  if parts.length ≠ 2 then .zero false
  else
    match ParseFloat (parts.headD "") with
    | .error _ => .zero false
    | .ok x => x

/-! ## vigor_v5/status.go: the Status record -/

/-- Errors seen by callers: the two package-level errors of `status.go` and
whatever the authenticated request reports. -/
inductive Error where
  | ErrUpdateFailed
  | ErrParseFailed
  | request (msg : String)
deriving DecidableEq, Repr

set_option linter.dupNamespace false in
/-- The record `Status` of `status.go`. -/
structure Status where
  Status : GoString := ""
  Mode : GoString := ""
  Profile : GoString := ""
  Annex : GoString := ""
  DSLVersion : GoString := ""
  ActualRateDownstream : Int := 0
  ActualRateUpstream : Int := 0
  AttainableRateDownstream : Int := 0
  AttainableRateUpstream : Int := 0
  SNRMarginDownstream : Float64 := .zero false
  SNRMarginUpstream : Float64 := .zero false
  LineAttenuationNearEnd : Float64 := .zero false
  LineAttenuationFarEnd : Float64 := .zero false
  CRCNearEnd : Int := 0
  CRCFarEnd : Int := 0
  UASNearEnd : Int := 0
  UASFarEnd : Int := 0
  HECErrorsNearEnd : Int := 0
  HECErrorsFarEnd : Int := 0
  ESNearEnd : Int := 0
  ESFarEnd : Int := 0
  SESNearEnd : Int := 0
  SESFarEnd : Int := 0
  LOSFailureNearEnd : Int := 0
  LOSFailureFarEnd : Int := 0
  LOFFailureNearEnd : Int := 0
  LOFFailureFarEnd : Int := 0
  LPRFailureNearEnd : Int := 0
  LPRFailureFarEnd : Int := 0
  LCDFailureNearEnd : Int := 0
  LCDFailureFarEnd : Int := 0
  RFECNearEnd : Int := 0
  RFECFarEnd : Int := 0

/-! ## gjson -/

/-- A JSON document as `gjson` sees it. Number literals keep their text;
arrays and objects keep the text they were read from (`raw`), which is what
`Result.String` returns for them. Object members are in document order, with
every member of a repeated key. -/
inductive Json where
  | null
  | bool (b : Bool)
  | num (raw : String)
  | str (s : GoString)
  | arr (raw : GoString) (elems : List Json)
  | obj (raw : GoString) (members : List (String × Json))

/-- What the accessors `Result.String` and `Result.Int` make of a number
literal, given its text. The conversions go through `float64` and differ
between releases of the library, so they are left open: every result below
holds for each choice. `plainNumbers` is the choice of the current releases. -/
structure NumberView where
  /-- Text returned by `Result.String`. -/
  text : String → String
  /-- Integer returned by `Result.Int`. -/
  int : String → Int

/-- Decimal array index denoted by a path component, if it is one. -/
def pathIndex (key : String) : Option Nat :=
  if key.toList = [] then none
  else
    match parseUintFrom key.toList 0 with
    | .ok n => some n
    | .error _ => none

/-- First member of an object with the given key. -/
def lookupMember (key : String) : List (String × Json) → Option Json
  | [] => none
  | (k, v) :: rest => if k = key then some v else lookupMember key rest

/-- The method `Result.Get` for a single plain path component: the first
member of that name in an object, the element at that index in an array, and
a non-existent result anywhere else. -/
def Result.Get (r : Option Json) (key : String) : Option Json :=
  match r with
  | some (.obj _ members) => lookupMember key members
  | some (.arr _ elems) =>
    match pathIndex key with
    | some i => elems.get? i
    | none => none
  | _ => none

/-- The method `Result.Exists`. -/
def Result.Exists (r : Option Json) : Bool :=
  r.isSome

/-- The method `Result.String`. -/
def Result.String (nv : NumberView) (r : Option Json) : GoString :=
  match r with
  | none => ""
  | some .null => ""
  | some (.bool true) => "true"
  | some (.bool false) => "false"
  | some (.num raw) => nv.text raw
  | some (.str s) => s
  | some (.arr raw _) => raw
  | some (.obj raw _) => raw

/-- The function `parseInt` of `gjson`: an optional minus sign and one or more
digits, accumulated in 64-bit arithmetic; zero for anything else. -/
def gjsonParseInt (cs : List Char) : Int :=
  let neg : Bool := cs.head? = some '-'
  let body := if neg then cs.drop 1 else cs
  if body = [] ∨ !body.all isDecDigit then 0
  else
    let n : Nat := body.foldl (fun acc c => acc * 10 + (c.toNat - 48)) 0
    if neg then wrapInt64 (-(n : Int)) else wrapInt64 (n : Int)

/-- The method `Result.Int`. -/
def Result.Int (nv : NumberView) (r : Option Json) : Int :=
  match r with
  | some (.bool true) => 1
  | some (.str s) => gjsonParseInt s.text.toList
  | some (.num raw) => nv.int raw
  | _ => 0

/-- The method `Result.Array`: the elements of an array, nothing for a null or
non-existent result, and the result itself as only element otherwise. -/
def Result.Array (r : Option Json) : List (Option Json) :=
  match r with
  | none => []
  | some .null => []
  | some (.arr _ elems) => elems.map some
  | some v => [some v]

/-- Whether an array element satisfies the query `#(Name=="Setting")`. The
element has to be an object, and the query looks at its first `Name` member:
a string matches when it is `Setting`; a number is compared as a `float64`
with what `strconv.ParseFloat` returns for `Setting`, which is zero, so it
matches when it is zero; nothing else matches. -/
def nameIsSetting (e : Json) : Bool :=
  match e with
  | .obj _ _ =>
    match Result.Get (some e) "Name" with
    | some (.str s) => s = "Setting"
    | some (.num raw) => (parseFloatValue raw).eqZero
    | _ => false
  | _ => false

/-- Every member of an object with the given key, in document order. -/
def membersNamed (key : String) : List (String × Json) → List Json
  | [] => []
  | (k, v) :: rest => if k = key then v :: membersNamed key rest else membersNamed key rest

/-- The values a plain path component that is not the last one leads to from
a value, in the order `gjson.Get` tries them: every member of that name of an
object (the search goes on to a later member of the same name when the rest
of the path finds nothing in an earlier one), the element at that index of an
array, and nothing anywhere else. -/
def pathStep (key : String) (j : Json) : List Json :=
  match j with
  | .obj _ members => membersNamed key members
  | .arr _ elems =>
    match pathIndex key with
    | some i => (elems.get? i).toList
    | none => []
  | _ => []

/-- The last component of the path, as written. -/
def settingQuery : String := "#(Name==\"Setting\")"

/-- The last component `#(Name=="Setting")` of the path inside a value: in an
array it is a query, answered by the first element that satisfies it; in an
object it is read as a member name like any other component; anywhere else
it finds nothing. -/
def queryStep (j : Json) : Option Json :=
  match j with
  | .arr _ elems => elems.find? nameIsSetting
  | .obj _ members => lookupMember settingQuery members
  | _ => none

/-- The call `gjson.Get(respJSON, path)` for the path
`ct.0.0MONITORING_DSL_GENERAL.#(Name=="Setting")`: the first hit of the last
component among the values the first three components lead to. The number
view plays no part in it. -/
def getSetting (_nv : NumberView) (respJSON : Json) : Option Json :=
  (((pathStep "ct" respJSON).flatMap (pathStep "0")).flatMap
    (pathStep "0MONITORING_DSL_GENERAL")).findSome? queryStep

/-- The function `parseInt` of `gjson` with its flag: `none` when the text is
not an optional minus sign and one or more digits. -/
def gjsonParseIntOk (cs : List Char) : Option Int :=
  let neg : Bool := cs.head? = some '-'
  let body := if neg then cs.drop 1 else cs
  if body = [] ∨ !body.all isDecDigit then none else some (gjsonParseInt cs)

/-- The function `safeInt` of `gjson`: the conversion `int64(f)` when `f` is
neither below `-(2^53 - 1)` nor above `2^53 - 1`. -/
def safeInt (f : Float64) : Option Int :=
  match f with
  | .nan => some f.toInt64
  | .inf _ => none
  | _ =>
    if -9007199254740991 ≤ f.toInt64 ∧ f.toInt64 ≤ 9007199254740991 then some f.toInt64
    else none

/-- The method `Result.Int` on a number literal in the current releases of
`gjson`: the float value converted when that is safe, else the literal read as
an integer, else the float value converted anyway. -/
def numberInt (raw : String) : Int :=
  match safeInt (parseFloatValue raw) with
  | some i => i
  | none =>
    match gjsonParseIntOk raw.toList with
    | some i => i
    | none => (parseFloatValue raw).toInt64

/-- The method `Result.String` on a number literal in the current releases of
`gjson`: the literal itself when it is an optional minus sign followed by
digits only, else its float value formatted anew. -/
def numberText (raw : String) : String :=
  if raw.toList ≠ [] ∧
      (if raw.toList.head? = some '-' then raw.toList.drop 1 else raw.toList).all isDecDigit
  then raw
  else FormatFloat (parseFloatValue raw)

/-! ## vigor_v5/status.go: the parser -/

/-- One iteration of the loop over `Stream_Table` in
`parseDSLStatusGeneralJSON`. -/
def streamStep (nv : NumberView) (status : Status) (v : Option Json) : Status :=
  let name := Result.String nv (Result.Get v "Name")
  if name = "Actual Rate" then
    { status with
      ActualRateDownstream := parseKbps (Result.String nv (Result.Get v "Downstream")).text
      ActualRateUpstream := parseKbps (Result.String nv (Result.Get v "Upstream")).text }
  else if name = "Attainable Rate" then
    { status with
      AttainableRateDownstream := parseKbps (Result.String nv (Result.Get v "Downstream")).text
      AttainableRateUpstream := parseKbps (Result.String nv (Result.Get v "Upstream")).text }
  else if name = "SNR Margin" then
    { status with
      SNRMarginDownstream := parsedB (Result.String nv (Result.Get v "Downstream")).text
      SNRMarginUpstream := parsedB (Result.String nv (Result.Get v "Upstream")).text }
  else status

/-- One iteration of the loop over `End_Table` in
`parseDSLStatusGeneralJSON`. -/
def endStep (nv : NumberView) (status : Status) (v : Option Json) : Status :=
  let name := Result.String nv (Result.Get v "Name")
  if name = "Attenuation" then
    { status with
      LineAttenuationNearEnd := parsedB (Result.String nv (Result.Get v "Near_End")).text
      LineAttenuationFarEnd := parsedB (Result.String nv (Result.Get v "Far_End")).text }
  else if name = "CRC" then
    { status with
      CRCNearEnd := Result.Int nv (Result.Get v "Near_End")
      CRCFarEnd := Result.Int nv (Result.Get v "Far_End") }
  else if name = "ES" then
    { status with
      ESNearEnd := Result.Int nv (Result.Get v "Near_End")
      ESFarEnd := Result.Int nv (Result.Get v "Far_End") }
  else if name = "SES" then
    { status with
      SESNearEnd := Result.Int nv (Result.Get v "Near_End")
      SESFarEnd := Result.Int nv (Result.Get v "Far_End") }
  else if name = "UAS" then
    { status with
      UASNearEnd := Result.Int nv (Result.Get v "Near_End")
      UASFarEnd := Result.Int nv (Result.Get v "Far_End") }
  else if name = "HEC Errors" then
    { status with
      HECErrorsNearEnd := Result.Int nv (Result.Get v "Near_End")
      HECErrorsFarEnd := Result.Int nv (Result.Get v "Far_End") }
  else if name = "LOS Failure" then
    { status with
      LOSFailureNearEnd := Result.Int nv (Result.Get v "Near_End")
      LOSFailureFarEnd := Result.Int nv (Result.Get v "Far_End") }
  else if name = "LOF Failure" then
    { status with
      LOFFailureNearEnd := Result.Int nv (Result.Get v "Near_End")
      LOFFailureFarEnd := Result.Int nv (Result.Get v "Far_End") }
  else if name = "LPR Failure" then
    { status with
      LPRFailureNearEnd := Result.Int nv (Result.Get v "Near_End")
      LPRFailureFarEnd := Result.Int nv (Result.Get v "Far_End") }
  else if name = "LCD Failure" then
    { status with
      LCDFailureNearEnd := Result.Int nv (Result.Get v "Near_End")
      LCDFailureFarEnd := Result.Int nv (Result.Get v "Far_End") }
  else if name = "RFEC" then
    { status with
      RFECNearEnd := Result.Int nv (Result.Get v "Near_End")
      RFECFarEnd := Result.Int nv (Result.Get v "Far_End") }
  else status

/-- The part of `parseDSLStatusGeneralJSON` after the settings element has
been found: the info fields, then the two table loops. -/
def statusOfSetting (nv : NumberView) (value : Option Json) : Status :=
  let status : Status :=
    { Status := Result.String nv (Result.Get value "Status")
      Mode := Result.String nv (Result.Get value "Mode")
      Profile := Result.String nv (Result.Get value "Profile")
      Annex := Result.String nv (Result.Get value "Annex")
      DSLVersion := Result.String nv (Result.Get value "DSL_Version") }
  let streamTable := Result.Array (Result.Get value "Stream_Table")
  let status := streamTable.foldl (streamStep nv) status
  let endTable := Result.Array (Result.Get value "End_Table")
  endTable.foldl (endStep nv) status

/-- The method `Vigor.parseDSLStatusGeneralJSON` (logging left out). -/
def parseDSLStatusGeneralJSON (nv : NumberView) (respJSON : Json) : Status × Option Error :=
  let value := getSetting nv respJSON
  if !Result.Exists value then ({}, some .ErrParseFailed)
  else (statusOfSetting nv value, none)

/-- The method `Vigor.FetchStatus`, given what the authenticated request
`postWithLogin` returned. -/
def FetchStatus (nv : NumberView) (post : Except Error Json) : Status × Option Error :=
  match post with
  | .error err => ({}, some err)
  | .ok resp => parseDSLStatusGeneralJSON nv resp

/-! ## collector.go -/

/-- The constant `namespace` of `collector.go`. -/
def namespaceName : String := "draytek"

/-- The function `prometheus.BuildFQName`: the non-empty parts joined by an
underscore, and the empty string when the name is empty. -/
def BuildFQName (ns subsystem name : String) : String :=
  if name = "" then ""
  else if ns ≠ "" ∧ subsystem ≠ "" then ns ++ "_" ++ subsystem ++ "_" ++ name
  else if ns ≠ "" then ns ++ "_" ++ name
  else if subsystem ≠ "" then subsystem ++ "_" ++ name
  else name

/-- A metric descriptor as built by `prometheus.NewDesc`: fully qualified name,
help text and variable label names (no constant labels are used). -/
structure Desc where
  fqName : String
  help : String
  variableLabels : List String
deriving DecidableEq, Repr

/-- The constructor `prometheus.NewDesc` with `nil` constant labels. -/
def NewDesc (fqName help : String) (variableLabels : List String) : Desc :=
  { fqName := fqName, help := help, variableLabels := variableLabels }

def draytekUpDesc : Desc :=
  NewDesc (BuildFQName namespaceName "" "up")
    "Was the draytek instance status successful?" []

def draytekInfoDesc : Desc :=
  NewDesc (BuildFQName namespaceName "" "info")
    "Info about the draytek router"
    ["dsl_version", "mode", "profile", "status", "annex"]

def actualRateDownDesc : Desc :=
  NewDesc (BuildFQName namespaceName "downstream" "actual_bps")
    "The actual downstream bits per second rate" []

def actualRateUpDesc : Desc :=
  NewDesc (BuildFQName namespaceName "upstream" "actual_bps")
    "The actual upstream bits per second rate" []

def attainableRateDownDesc : Desc :=
  NewDesc (BuildFQName namespaceName "downstream" "attainable_bps")
    "The attainable downstream bits per second rate" []

def attainableRateUpDesc : Desc :=
  NewDesc (BuildFQName namespaceName "upstream" "attainable_bps")
    "The attainable upstream bits per second rate" []

def snrMarginDownDesc : Desc :=
  NewDesc (BuildFQName namespaceName "downstream" "snr_margin_db")
    "The downstream SNR margin in dB" []

def snrMarginUpDesc : Desc :=
  NewDesc (BuildFQName namespaceName "upstream" "snr_margin_db")
    "The downstream SNR margin in dB" []

def lineAttenuationNearEndDesc : Desc :=
  NewDesc (BuildFQName namespaceName "near_end" "line_attenuation_db")
    "The near end line attenuation in dB" []

def lineAttenuationFarEndDesc : Desc :=
  NewDesc (BuildFQName namespaceName "far_end" "line_attenuation_db")
    "The far end line attenuation in dB" []

def crcNearEndDesc : Desc :=
  NewDesc (BuildFQName namespaceName "near_end" "crc_errors")
    "Number of CRC errors on near end" []

def crcFarEndDesc : Desc :=
  NewDesc (BuildFQName namespaceName "far_end" "crc_errors")
    "Number of CRC errors on far end" []

def uasNearEndDesc : Desc :=
  NewDesc (BuildFQName namespaceName "near_end" "unavailable_seconds")
    "Number of unavailable seconds on near end" []

def uasFarEndDesc : Desc :=
  NewDesc (BuildFQName namespaceName "far_end" "unavailable_seconds")
    "Number of unavailable seconds on far end" []

def hecErrorsNearEndDesc : Desc :=
  NewDesc (BuildFQName namespaceName "near_end" "hec_errors")
    "Number of HEC errors on near end" []

def hecErrorsFarEndDesc : Desc :=
  NewDesc (BuildFQName namespaceName "far_end" "hec_errors")
    "Number of HEC errors on far end" []

def esNearEndDesc : Desc :=
  NewDesc (BuildFQName namespaceName "near_end" "errored_seconds")
    "Number of errored seconds on near end" []

def esFarEndDesc : Desc :=
  NewDesc (BuildFQName namespaceName "far_end" "errored_seconds")
    "Number of errored seconds on far end" []

def sesNearEndDesc : Desc :=
  NewDesc (BuildFQName namespaceName "near_end" "severely_errored_seconds")
    "Number of severely errored seconds on near end" []

def sesFarEndDesc : Desc :=
  NewDesc (BuildFQName namespaceName "far_end" "severely_errored_seconds")
    "Number of severely errored seconds on far end" []

def LOSFailureNearEnd : Desc :=
  NewDesc (BuildFQName namespaceName "near_end" "los_failure")
    "Number of LOS failures on near end" []

def LOSFailureFarEnd : Desc :=
  NewDesc (BuildFQName namespaceName "far_end" "los_failure")
    "Number of LOS failures on far end" []

def LOFFailureNearEnd : Desc :=
  NewDesc (BuildFQName namespaceName "near_end" "lof_failure")
    "Number of LOF failures on near end" []

def LOFFailureFarEnd : Desc :=
  NewDesc (BuildFQName namespaceName "far_end" "lof_failure")
    "Number of LOF failures on far end" []

def LPRFailureNearEnd : Desc :=
  NewDesc (BuildFQName namespaceName "near_end" "lpr_failure")
    "Number of LPR failures on near end" []

def LPRFailureFarEnd : Desc :=
  NewDesc (BuildFQName namespaceName "far_end" "lpr_failure")
    "Number of LPR failures on far end" []

def LCDFailureNearEnd : Desc :=
  NewDesc (BuildFQName namespaceName "near_end" "lcd_failure")
    "Number of LCD failures on near end" []

def LCDFailureFarEnd : Desc :=
  NewDesc (BuildFQName namespaceName "far_end" "lcd_failure")
    "Number of LCD failures on far end" []

def RFECNearEnd : Desc :=
  NewDesc (BuildFQName namespaceName "near_end" "rfec")
    "Number of RFEC bytes on near end" []

def RFECFarEnd : Desc :=
  NewDesc (BuildFQName namespaceName "far_end" "rfec")
    "Number of RFEC bytes on far end" []

/-- The value types of `prometheus`. -/
inductive ValueType where
  | CounterValue
  | GaugeValue
  | UntypedValue
deriving DecidableEq, Repr

/-- A constant metric: what a scrape sees of one sample. -/
structure Metric where
  desc : Desc
  valType : ValueType
  value : Float64
  labelValues : List GoString
deriving DecidableEq, Repr

/-- The function `prometheus.MustNewConstMetric`: it builds the sample when the
number of label values equals the number of variable labels of the descriptor
and every label value is valid UTF-8, and panics (`none`) otherwise. -/
def MustNewConstMetric (desc : Desc) (valType : ValueType) (value : Float64)
    (labelValues : List GoString) : Option Metric :=
  if labelValues.length = desc.variableLabels.length ∧ labelValues.all ValidString then
    some { desc := desc, valType := valType, value := value, labelValues := labelValues }
  else none

/-- One channel send `ch <- m`: the sample is appended to what was sent so far;
a panic while building the sample, or an earlier one, leaves `none`. -/
def send {α : Type} (ch : Option (List α)) (m : Option α) : Option (List α) :=
  match ch, m with
  | some sent, some x => some (sent ++ [x])
  | _, _ => none

/-- The method `Exporter.Describe`: the descriptors sent on the channel, in
the order of the 32 send statements. -/
def Describe : List Desc :=
  [ draytekUpDesc, draytekInfoDesc,
    actualRateDownDesc, actualRateUpDesc,
    attainableRateDownDesc, attainableRateUpDesc,
    snrMarginDownDesc, snrMarginUpDesc,
    lineAttenuationNearEndDesc, lineAttenuationFarEndDesc,
    crcNearEndDesc, crcFarEndDesc,
    uasNearEndDesc, uasFarEndDesc,
    hecErrorsNearEndDesc, hecErrorsFarEndDesc,
    esNearEndDesc, esFarEndDesc,
    sesNearEndDesc, sesFarEndDesc,
    LOSFailureNearEnd, LOSFailureFarEnd,
    LOFFailureNearEnd, LOFFailureFarEnd,
    LPRFailureNearEnd, LPRFailureFarEnd,
    LCDFailureNearEnd, LCDFailureFarEnd,
    LCDFailureNearEnd, LCDFailureFarEnd,
    RFECNearEnd, RFECFarEnd ]

/-- What was sent on a channel when the sends of a list of samples end or the
first panic stops them. -/
def sentBeforePanic {α : Type} : List (Option α) → List α
  | [] => []
  | none :: _ => []
  | some x :: rest => x :: sentBeforePanic rest

/-- The samples the send statements of `Exporter.Collect` build, in the order
they are executed, given what `FetchStatus` returned. -/
def Collect.samples (fetched : Status × Option Error) : List (Option Metric) :=
  let status := fetched.1
  match fetched.2 with
  | some _ =>
    [ MustNewConstMetric draytekUpDesc .GaugeValue (.zero false) [] ]
  | none =>
    [ MustNewConstMetric draytekUpDesc .GaugeValue Float64.one [],
      MustNewConstMetric draytekInfoDesc .GaugeValue Float64.one
        [status.DSLVersion, status.Mode, status.Profile, status.Status, status.Annex],
      MustNewConstMetric actualRateDownDesc .GaugeValue
        (Float64.ofInt status.ActualRateDownstream) [],
      MustNewConstMetric actualRateUpDesc .GaugeValue
        (Float64.ofInt status.ActualRateUpstream) [],
      MustNewConstMetric attainableRateDownDesc .GaugeValue
        (Float64.ofInt status.AttainableRateDownstream) [],
      MustNewConstMetric attainableRateUpDesc .GaugeValue
        (Float64.ofInt status.AttainableRateUpstream) [],
      MustNewConstMetric snrMarginDownDesc .GaugeValue status.SNRMarginDownstream [],
      MustNewConstMetric snrMarginUpDesc .GaugeValue status.SNRMarginUpstream [],
      MustNewConstMetric lineAttenuationNearEndDesc .GaugeValue
        status.LineAttenuationNearEnd [],
      MustNewConstMetric lineAttenuationFarEndDesc .GaugeValue
        status.LineAttenuationFarEnd [],
      MustNewConstMetric crcNearEndDesc .GaugeValue (Float64.ofInt status.CRCNearEnd) [],
      MustNewConstMetric crcFarEndDesc .GaugeValue (Float64.ofInt status.CRCFarEnd) [],
      MustNewConstMetric uasNearEndDesc .GaugeValue (Float64.ofInt status.UASNearEnd) [],
      MustNewConstMetric uasFarEndDesc .GaugeValue (Float64.ofInt status.UASFarEnd) [],
      MustNewConstMetric hecErrorsNearEndDesc .GaugeValue
        (Float64.ofInt status.HECErrorsNearEnd) [],
      MustNewConstMetric hecErrorsFarEndDesc .GaugeValue
        (Float64.ofInt status.HECErrorsFarEnd) [],
      MustNewConstMetric esNearEndDesc .GaugeValue (Float64.ofInt status.ESNearEnd) [],
      MustNewConstMetric esFarEndDesc .GaugeValue (Float64.ofInt status.ESFarEnd) [],
      MustNewConstMetric sesNearEndDesc .GaugeValue (Float64.ofInt status.SESNearEnd) [],
      MustNewConstMetric sesFarEndDesc .GaugeValue (Float64.ofInt status.SESFarEnd) [],
      MustNewConstMetric LOSFailureNearEnd .GaugeValue
        (Float64.ofInt status.LOSFailureNearEnd) [],
      MustNewConstMetric LOSFailureFarEnd .GaugeValue
        (Float64.ofInt status.LOSFailureFarEnd) [],
      MustNewConstMetric LOFFailureNearEnd .GaugeValue
        (Float64.ofInt status.LOFFailureNearEnd) [],
      MustNewConstMetric LOFFailureFarEnd .GaugeValue
        (Float64.ofInt status.LOFFailureFarEnd) [],
      MustNewConstMetric LPRFailureNearEnd .GaugeValue
        (Float64.ofInt status.LPRFailureNearEnd) [],
      MustNewConstMetric LPRFailureFarEnd .GaugeValue
        (Float64.ofInt status.LPRFailureFarEnd) [],
      MustNewConstMetric LCDFailureNearEnd .GaugeValue
        (Float64.ofInt status.LCDFailureNearEnd) [],
      MustNewConstMetric LCDFailureFarEnd .GaugeValue
        (Float64.ofInt status.LCDFailureFarEnd) [],
      MustNewConstMetric RFECNearEnd .GaugeValue (Float64.ofInt status.RFECNearEnd) [],
      MustNewConstMetric RFECFarEnd .GaugeValue (Float64.ofInt status.RFECFarEnd) []
    ]

/-- The method `Exporter.Collect`, given what `FetchStatus` returned: the
samples sent on the channel, in order (`none` if building a sample panics). -/
def Collect (fetched : Status × Option Error) : Option (List Metric) :=
  (Collect.samples fetched).foldl send (some [])

/-- What `Exporter.Collect` has sent on the channel when it returns or
panics. -/
def Collect.sent (fetched : Status × Option Error) : List Metric :=
  sentBeforePanic (Collect.samples fetched)

/-! ## Sample documents -/

/-- The number view of the current releases of `gjson`. -/
def plainNumbers : NumberView :=
  { text := numberText
    int := numberInt }

/-- A row of `Stream_Table`. -/
def streamRowDoc (name down up : String) : Json :=
  .obj "" [("Name", .str name), ("Downstream", .str down), ("Upstream", .str up)]

/-- A row of `End_Table`. -/
def endRowDoc (name near far : String) : Json :=
  .obj "" [("Name", .str name), ("Near_End", .str near), ("Far_End", .str far)]

/-- A settings element with the given tables. -/
def settingDoc (streamRows endRows : List Json) : Json :=
  .obj ""
    [ ("Name", .str "Setting"), ("Status", .str "SHOWTIME"), ("Mode", .str "17A"),
      ("Profile", .str "17a"), ("Annex", .str "B"), ("DSL_Version", .str "VDSL2"),
      ("Stream_Table", .arr "" streamRows), ("End_Table", .arr "" endRows) ]

/-- A response whose general section holds the given elements. -/
def responseDoc (elems : List Json) : Json :=
  .obj "" [("ct", .arr "" [.obj "" [("0MONITORING_DSL_GENERAL", .arr "" elems)]])]

/-- A response as the router sends it for a line in showtime. -/
def sampleResponse : Json :=
  responseDoc
    [ settingDoc
        [ streamRowDoc "Actual Rate" "55000 Kbps" "10000 Kbps",
          streamRowDoc "Attainable Rate" "61000 Kbps" "12000 Kbps",
          streamRowDoc "SNR Margin" "5.3 dB" "6 dB" ]
        [ endRowDoc "Attenuation" "17.5 dB" "18 dB",
          endRowDoc "CRC" "12" "7" ] ]

/-- A response whose only element has the number 0 as its Name. -/
def zeroNameResponse : Json :=
  responseDoc [.obj "" [("Name", .num "0")]]

/-- A response whose general section is an object with a member named like
the query. -/
def queryNameResponse : Json :=
  .obj "" [("ct", .arr "" [.obj "" [("0MONITORING_DSL_GENERAL",
    .obj "" [(settingQuery, .str "x")])]])]

/-- A response with two members `ct`: the general section of the first is
empty, that of the second holds a settings element. -/
def repeatedKeyResponse : Json :=
  .obj ""
    [ ("ct", .arr "" [.obj "" [("0MONITORING_DSL_GENERAL", .arr "" [])]]),
      ("ct", .arr "" [.obj "" [("0MONITORING_DSL_GENERAL", .arr "" [settingDoc [] []])]]) ]

/-- The Go string `"SHOW\xffTIME"`: the byte `0xff` is not valid UTF-8. -/
def brokenText : GoString :=
  { head := "SHOW", rest := [(255, "TIME")] }

/-- A response whose settings element has a `Status` that is not valid
UTF-8. -/
def brokenResponse : Json :=
  responseDoc [.obj "" [("Name", .str "Setting"), ("Status", .str brokenText)]]

/-- The catalog: the package-level descriptor variables of `collector.go`, in
the order they are declared. -/
def catalog : List Desc :=
  [ draytekUpDesc, draytekInfoDesc,
    actualRateDownDesc, actualRateUpDesc,
    attainableRateDownDesc, attainableRateUpDesc,
    snrMarginDownDesc, snrMarginUpDesc,
    lineAttenuationNearEndDesc, lineAttenuationFarEndDesc,
    crcNearEndDesc, crcFarEndDesc,
    uasNearEndDesc, uasFarEndDesc,
    hecErrorsNearEndDesc, hecErrorsFarEndDesc,
    esNearEndDesc, esFarEndDesc,
    sesNearEndDesc, sesFarEndDesc,
    LOSFailureNearEnd, LOSFailureFarEnd,
    LOFFailureNearEnd, LOFFailureFarEnd,
    LPRFailureNearEnd, LPRFailureFarEnd,
    LCDFailureNearEnd, LCDFailureFarEnd,
    RFECNearEnd, RFECFarEnd ]

/-- The elements of the array `ct[0].0MONITORING_DSL_GENERAL` of a response,
each name being read as the first member of that name; none when this does
not lead to an array. -/
def generalElems (resp : Json) : List Json :=
  match Result.Get (Result.Get (Result.Get (some resp) "ct") "0") "0MONITORING_DSL_GENERAL" with
  | some (.arr _ elems) => elems
  | _ => []

/-- An element with Name equal to `Setting`: an object whose first `Name`
member is that string. -/
def HasNameSetting (e : Json) : Prop :=
  ∃ raw members, e = .obj raw members ∧ lookupMember "Name" members = some (.str "Setting")

/-- The value `child` is found in `parent` under the path component `key`: it
is a member of that name of the object `parent`, or the element of the array
`parent` at the index `key` denotes. -/
def IsChild (key : String) (parent child : Json) : Prop :=
  (∃ raw members, parent = .obj raw members ∧ (key, child) ∈ members) ∨
  (∃ raw elems i, parent = .arr raw elems ∧ pathIndex key = some i ∧
    elems.get? i = some child)

/-- A general section of a response: a value found by following `ct`, `0` and
`0MONITORING_DSL_GENERAL` from the response, through any member of these
names when a name is repeated. -/
def IsGeneralSection (resp sec : Json) : Prop :=
  ∃ a b, IsChild "ct" resp a ∧ IsChild "0" a b ∧ IsChild "0MONITORING_DSL_GENERAL" b sec

/-- An element the query accepts: an object whose first `Name` member is the
string `Setting` or a number literal whose value is zero. -/
def IsSettingElement (e : Json) : Prop :=
  ∃ raw members, e = .obj raw members ∧
    (lookupMember "Name" members = some (.str "Setting") ∨
      ∃ lit, lookupMember "Name" members = some (.num lit) ∧
        (parseFloatValue lit).eqZero = true)

/-- A general section in which the last path component finds something: an
array with an element the query accepts, or an object with a member whose
name is the text of the query. -/
def HoldsSetting (sec : Json) : Prop :=
  (∃ raw elems, sec = .arr raw elems ∧ ∃ e ∈ elems, IsSettingElement e) ∨
  (∃ raw members v, sec = .obj raw members ∧ (settingQuery, v) ∈ members)

/-- Value of a string of decimal digits read after the number `n`. -/
def digitsValue (cs : List Char) (n : Nat) : Nat :=
  cs.foldl (fun acc c => acc * 10 + (c.toNat - 48)) n

/-- The string `s` consists of exactly the two tokens `a` and `b`: runs of
non-space characters separated by at least one space, with any amount of
space around them. -/
def IsTwoTokens (s : String) (a b : List Char) : Prop :=
  ∃ ws0 ws1 ws2 : List Char,
    s = String.mk (ws0 ++ a ++ ws1 ++ b ++ ws2) ∧
    (∀ c ∈ ws0, isSpace c = true) ∧ (∀ c ∈ ws1, isSpace c = true) ∧
    (∀ c ∈ ws2, isSpace c = true) ∧ ws1 ≠ [] ∧ a ≠ [] ∧ b ≠ [] ∧
    (∀ c ∈ a, isSpace c = false) ∧ (∀ c ∈ b, isSpace c = false)

/-- A decimal integer literal: an optional sign followed by one or more
decimal digits. -/
def IsDecimalInteger (tok : String) : Prop :=
  ∃ sign digits : List Char,
    tok.toList = sign ++ digits ∧ (sign = [] ∨ sign = ['+'] ∨ sign = ['-']) ∧
    digits ≠ [] ∧ ∀ c ∈ digits, isDecDigit c = true

/-- The fraction part of a decimal number literal: nothing, or a point
followed by the fraction digits. -/
def fractionPart : Option (List Char) → List Char
  | none => []
  | some f => '.' :: f

/-- A decimal number literal: an optional sign, integer digits and, after an
optional point, fraction digits. -/
def decimalToken (sign ip : List Char) (fd : Option (List Char)) : List Char :=
  sign ++ ip ++ fractionPart fd

/-- The digits of a decimal number literal, without sign and point. -/
def decimalDigits (ip : List Char) (fd : Option (List Char)) : List Char :=
  ip ++ fd.getD []

/-- The literal is well formed: the sign is empty, `+` or `-`, every digit is a
decimal digit and there is at least one digit. -/
def IsDecimalNumber (sign ip : List Char) (fd : Option (List Char)) : Prop :=
  (sign = [] ∨ sign = ['+'] ∨ sign = ['-']) ∧
  (∀ c ∈ decimalDigits ip fd, isDecDigit c = true) ∧ decimalDigits ip fd ≠ []

/-- The binary64 nearest to the value of a decimal number literal, which is
its digits read as an integer divided by ten to the number of fraction
digits; `none` when that is beyond the binary64 range. -/
def decimalNearest (sign ip : List Char) (fd : Option (List Char)) : Option Float64 :=
  Float64.round (decide (sign = ['-'])) (digitsValue (decimalDigits ip fd) 0)
    (10 ^ (fd.getD []).length)

/-- The row names the loop over `Stream_Table` recognizes. -/
def streamNames : List String :=
  ["Actual Rate", "Attainable Rate", "SNR Margin"]

/-- The row names the loop over `End_Table` recognizes. -/
def endNames : List String :=
  ["Attenuation", "CRC", "ES", "SES", "UAS", "HEC Errors", "LOS Failure", "LOF Failure",
    "LPR Failure", "LCD Failure", "RFEC"]

/-- The text of a member of a table row, as the parser reads it. -/
def rowText (nv : NumberView) (row : Json) (key : String) : String :=
  (Result.String nv (Result.Get (some row) key)).text

/-- The integer reading of a member of a table row, as the parser reads it. -/
def rowInt (nv : NumberView) (row : Json) (key : String) : Int :=
  Result.Int nv (Result.Get (some row) key)

/-- The settings element `v'` is the settings element `v` with the array under
`table` replaced by `rows'`: the member `table` holds the arrays `rows` and
`rows'` respectively and every other member reads the same. -/
def TableReplaced (v v' : Json) (table : String) (rows rows' : List Json) : Prop :=
  (∃ raw, Result.Get (some v) table = some (.arr raw rows)) ∧
  (∃ raw', Result.Get (some v') table = some (.arr raw' rows')) ∧
  ∀ k, k ≠ table → Result.Get (some v') k = Result.Get (some v) k

/-- The Status before the table loops: the five info fields. -/
def infoStatus (nv : NumberView) (value : Option Json) : Status :=
  { Status := Result.String nv (Result.Get value "Status")
    Mode := Result.String nv (Result.Get value "Mode")
    Profile := Result.String nv (Result.Get value "Profile")
    Annex := Result.String nv (Result.Get value "Annex")
    DSLVersion := Result.String nv (Result.Get value "DSL_Version") }

/-! ## The designated source of each numeric field -/

/-- A numeric field value: an `int` or a `float64`. -/
inductive NumVal where
  | int (i : Int)
  | float (x : Float64)
deriving DecidableEq, Repr

/-- The three ways a row value is normalized: `parseKbps`, `parsedB`, or the
plain integer reading. -/
inductive Normalizer where
  | kbps
  | dB
  | integer
deriving DecidableEq, Repr

/-- The 28 numeric fields of `Status`. -/
inductive NumField where
  | ActualRateDownstream
  | ActualRateUpstream
  | AttainableRateDownstream
  | AttainableRateUpstream
  | SNRMarginDownstream
  | SNRMarginUpstream
  | LineAttenuationNearEnd
  | LineAttenuationFarEnd
  | CRCNearEnd
  | CRCFarEnd
  | UASNearEnd
  | UASFarEnd
  | HECErrorsNearEnd
  | HECErrorsFarEnd
  | ESNearEnd
  | ESFarEnd
  | SESNearEnd
  | SESFarEnd
  | LOSFailureNearEnd
  | LOSFailureFarEnd
  | LOFFailureNearEnd
  | LOFFailureFarEnd
  | LPRFailureNearEnd
  | LPRFailureFarEnd
  | LCDFailureNearEnd
  | LCDFailureFarEnd
  | RFECNearEnd
  | RFECFarEnd
deriving DecidableEq, Repr

/-- The value of a numeric field in a Status. -/
def NumField.value : NumField → Status → NumVal
  | .ActualRateDownstream, s => .int s.ActualRateDownstream
  | .ActualRateUpstream, s => .int s.ActualRateUpstream
  | .AttainableRateDownstream, s => .int s.AttainableRateDownstream
  | .AttainableRateUpstream, s => .int s.AttainableRateUpstream
  | .SNRMarginDownstream, s => .float s.SNRMarginDownstream
  | .SNRMarginUpstream, s => .float s.SNRMarginUpstream
  | .LineAttenuationNearEnd, s => .float s.LineAttenuationNearEnd
  | .LineAttenuationFarEnd, s => .float s.LineAttenuationFarEnd
  | .CRCNearEnd, s => .int s.CRCNearEnd
  | .CRCFarEnd, s => .int s.CRCFarEnd
  | .UASNearEnd, s => .int s.UASNearEnd
  | .UASFarEnd, s => .int s.UASFarEnd
  | .HECErrorsNearEnd, s => .int s.HECErrorsNearEnd
  | .HECErrorsFarEnd, s => .int s.HECErrorsFarEnd
  | .ESNearEnd, s => .int s.ESNearEnd
  | .ESFarEnd, s => .int s.ESFarEnd
  | .SESNearEnd, s => .int s.SESNearEnd
  | .SESFarEnd, s => .int s.SESFarEnd
  | .LOSFailureNearEnd, s => .int s.LOSFailureNearEnd
  | .LOSFailureFarEnd, s => .int s.LOSFailureFarEnd
  | .LOFFailureNearEnd, s => .int s.LOFFailureNearEnd
  | .LOFFailureFarEnd, s => .int s.LOFFailureFarEnd
  | .LPRFailureNearEnd, s => .int s.LPRFailureNearEnd
  | .LPRFailureFarEnd, s => .int s.LPRFailureFarEnd
  | .LCDFailureNearEnd, s => .int s.LCDFailureNearEnd
  | .LCDFailureFarEnd, s => .int s.LCDFailureFarEnd
  | .RFECNearEnd, s => .int s.RFECNearEnd
  | .RFECFarEnd, s => .int s.RFECFarEnd

/-- The table a numeric field is read from. -/
def NumField.table : NumField → String
  | .ActualRateDownstream => "Stream_Table"
  | .ActualRateUpstream => "Stream_Table"
  | .AttainableRateDownstream => "Stream_Table"
  | .AttainableRateUpstream => "Stream_Table"
  | .SNRMarginDownstream => "Stream_Table"
  | .SNRMarginUpstream => "Stream_Table"
  | .LineAttenuationNearEnd => "End_Table"
  | .LineAttenuationFarEnd => "End_Table"
  | .CRCNearEnd => "End_Table"
  | .CRCFarEnd => "End_Table"
  | .UASNearEnd => "End_Table"
  | .UASFarEnd => "End_Table"
  | .HECErrorsNearEnd => "End_Table"
  | .HECErrorsFarEnd => "End_Table"
  | .ESNearEnd => "End_Table"
  | .ESFarEnd => "End_Table"
  | .SESNearEnd => "End_Table"
  | .SESFarEnd => "End_Table"
  | .LOSFailureNearEnd => "End_Table"
  | .LOSFailureFarEnd => "End_Table"
  | .LOFFailureNearEnd => "End_Table"
  | .LOFFailureFarEnd => "End_Table"
  | .LPRFailureNearEnd => "End_Table"
  | .LPRFailureFarEnd => "End_Table"
  | .LCDFailureNearEnd => "End_Table"
  | .LCDFailureFarEnd => "End_Table"
  | .RFECNearEnd => "End_Table"
  | .RFECFarEnd => "End_Table"

/-- The row Name a numeric field is read from. -/
def NumField.name : NumField → String
  | .ActualRateDownstream => "Actual Rate"
  | .ActualRateUpstream => "Actual Rate"
  | .AttainableRateDownstream => "Attainable Rate"
  | .AttainableRateUpstream => "Attainable Rate"
  | .SNRMarginDownstream => "SNR Margin"
  | .SNRMarginUpstream => "SNR Margin"
  | .LineAttenuationNearEnd => "Attenuation"
  | .LineAttenuationFarEnd => "Attenuation"
  | .CRCNearEnd => "CRC"
  | .CRCFarEnd => "CRC"
  | .UASNearEnd => "UAS"
  | .UASFarEnd => "UAS"
  | .HECErrorsNearEnd => "HEC Errors"
  | .HECErrorsFarEnd => "HEC Errors"
  | .ESNearEnd => "ES"
  | .ESFarEnd => "ES"
  | .SESNearEnd => "SES"
  | .SESFarEnd => "SES"
  | .LOSFailureNearEnd => "LOS Failure"
  | .LOSFailureFarEnd => "LOS Failure"
  | .LOFFailureNearEnd => "LOF Failure"
  | .LOFFailureFarEnd => "LOF Failure"
  | .LPRFailureNearEnd => "LPR Failure"
  | .LPRFailureFarEnd => "LPR Failure"
  | .LCDFailureNearEnd => "LCD Failure"
  | .LCDFailureFarEnd => "LCD Failure"
  | .RFECNearEnd => "RFEC"
  | .RFECFarEnd => "RFEC"

/-- The row member a numeric field is read from. -/
def NumField.key : NumField → String
  | .ActualRateDownstream => "Downstream"
  | .ActualRateUpstream => "Upstream"
  | .AttainableRateDownstream => "Downstream"
  | .AttainableRateUpstream => "Upstream"
  | .SNRMarginDownstream => "Downstream"
  | .SNRMarginUpstream => "Upstream"
  | .LineAttenuationNearEnd => "Near_End"
  | .LineAttenuationFarEnd => "Far_End"
  | .CRCNearEnd => "Near_End"
  | .CRCFarEnd => "Far_End"
  | .UASNearEnd => "Near_End"
  | .UASFarEnd => "Far_End"
  | .HECErrorsNearEnd => "Near_End"
  | .HECErrorsFarEnd => "Far_End"
  | .ESNearEnd => "Near_End"
  | .ESFarEnd => "Far_End"
  | .SESNearEnd => "Near_End"
  | .SESFarEnd => "Far_End"
  | .LOSFailureNearEnd => "Near_End"
  | .LOSFailureFarEnd => "Far_End"
  | .LOFFailureNearEnd => "Near_End"
  | .LOFFailureFarEnd => "Far_End"
  | .LPRFailureNearEnd => "Near_End"
  | .LPRFailureFarEnd => "Far_End"
  | .LCDFailureNearEnd => "Near_End"
  | .LCDFailureFarEnd => "Far_End"
  | .RFECNearEnd => "Near_End"
  | .RFECFarEnd => "Far_End"

/-- The normalizer a numeric field goes through. -/
def NumField.normalizer : NumField → Normalizer
  | .ActualRateDownstream => .kbps
  | .ActualRateUpstream => .kbps
  | .AttainableRateDownstream => .kbps
  | .AttainableRateUpstream => .kbps
  | .SNRMarginDownstream => .dB
  | .SNRMarginUpstream => .dB
  | .LineAttenuationNearEnd => .dB
  | .LineAttenuationFarEnd => .dB
  | .CRCNearEnd => .integer
  | .CRCFarEnd => .integer
  | .UASNearEnd => .integer
  | .UASFarEnd => .integer
  | .HECErrorsNearEnd => .integer
  | .HECErrorsFarEnd => .integer
  | .ESNearEnd => .integer
  | .ESFarEnd => .integer
  | .SESNearEnd => .integer
  | .SESFarEnd => .integer
  | .LOSFailureNearEnd => .integer
  | .LOSFailureFarEnd => .integer
  | .LOFFailureNearEnd => .integer
  | .LOFFailureFarEnd => .integer
  | .LPRFailureNearEnd => .integer
  | .LPRFailureFarEnd => .integer
  | .LCDFailureNearEnd => .integer
  | .LCDFailureFarEnd => .integer
  | .RFECNearEnd => .integer
  | .RFECFarEnd => .integer

/-- The normalized reading of a numeric field from a table row. -/
def NumField.read (nv : NumberView) (f : NumField) (row : Option Json) : NumVal :=
  match f.normalizer with
  | .kbps => .int (parseKbps (Result.String nv (Result.Get row f.key)).text)
  | .dB => .float (parsedB (Result.String nv (Result.Get row f.key)).text)
  | .integer => .int (Result.Int nv (Result.Get row f.key))

/-- The zero value of a numeric field. -/
def NumField.zero (f : NumField) : NumVal :=
  match f.normalizer with
  | .dB => .float (.zero false)
  | _ => .int 0

/-- The Name of a table row, as the parser reads it. -/
def nameOf (nv : NumberView) (row : Option Json) : String :=
  (Result.String nv (Result.Get row "Name")).text

/-- Whether a table row bears the Name a numeric field is read from. -/
def NumField.isRow (nv : NumberView) (f : NumField) (row : Option Json) : Bool :=
  decide (nameOf nv row = f.name)

/-- The five info fields of a Status. -/
def infoOf (s : Status) : GoString × GoString × GoString × GoString × GoString :=
  (s.Status, s.Mode, s.Profile, s.Annex, s.DSLVersion)

/-- The last element of a list that satisfies `p`. -/
def lastWith {α : Type} (p : α → Bool) : List α → Option α
  | [] => none
  | r :: rest =>
    match lastWith p rest with
    | some x => some x
    | none => if p r then some r else none

/-- The rows of a table with, for each of the given names, every row of that
Name except the last removed. -/
def keepLast (nv : NumberView) (names : List String) :
    List (Option Json) → List (Option Json)
  | [] => []
  | r :: rest =>
    if nameOf nv r ∈ names ∧ rest.any (fun x => decide (nameOf nv x = nameOf nv r)) then
      keepLast nv names rest
    else r :: keepLast nv names rest

/-- A binary64 is one of the special values NaN, +Inf, -Inf. -/
def Float64.isSpecial (x : Float64) : Bool :=
  !x.isFinite

/-! ## The collector as a step on the outside world -/

/-- The method `Exporter.Collect` as a step on the state `σ` of everything
outside the collector (router, session, network): the authenticated request
`postWithLogin` reads and changes that state, and the samples are those of
`Collect` on what `FetchStatus` makes of the response. -/
def Exporter.Collect {σ : Type} (nv : NumberView)
    (postWithLogin : σ → Except Error Json × σ) (w : σ) : Option (List Metric) × σ :=
  let r := postWithLogin w
  (Draytek.Collect (FetchStatus nv r.1), r.2)

/-- The method `Exporter.Describe` as a step on the outside world: it sends
the descriptors of `Describe` and touches nothing. -/
def Exporter.Describe {σ : Type} (w : σ) : List Desc × σ :=
  (Draytek.Describe, w)

/-- Whether the five info strings of a Status are valid UTF-8. -/
def infoValid (s : Status) : Bool :=
  [s.DSLVersion, s.Mode, s.Profile, s.Status, s.Annex].all ValidString

/-- The 30 samples of a scrape that succeeds, for a Status `s`: one for each
descriptor of the catalog, in catalog order. -/
def successSamples (s : Status) : List Metric :=
  [
    { desc := draytekUpDesc, valType := .GaugeValue, value := Float64.one,
      labelValues := [] },
    { desc := draytekInfoDesc, valType := .GaugeValue, value := Float64.one,
      labelValues := [s.DSLVersion, s.Mode, s.Profile, s.Status, s.Annex] },
    { desc := actualRateDownDesc, valType := .GaugeValue, value := Float64.ofInt s.ActualRateDownstream,
      labelValues := [] },
    { desc := actualRateUpDesc, valType := .GaugeValue, value := Float64.ofInt s.ActualRateUpstream,
      labelValues := [] },
    { desc := attainableRateDownDesc, valType := .GaugeValue, value := Float64.ofInt s.AttainableRateDownstream,
      labelValues := [] },
    { desc := attainableRateUpDesc, valType := .GaugeValue, value := Float64.ofInt s.AttainableRateUpstream,
      labelValues := [] },
    { desc := snrMarginDownDesc, valType := .GaugeValue, value := s.SNRMarginDownstream,
      labelValues := [] },
    { desc := snrMarginUpDesc, valType := .GaugeValue, value := s.SNRMarginUpstream,
      labelValues := [] },
    { desc := lineAttenuationNearEndDesc, valType := .GaugeValue, value := s.LineAttenuationNearEnd,
      labelValues := [] },
    { desc := lineAttenuationFarEndDesc, valType := .GaugeValue, value := s.LineAttenuationFarEnd,
      labelValues := [] },
    { desc := crcNearEndDesc, valType := .GaugeValue, value := Float64.ofInt s.CRCNearEnd,
      labelValues := [] },
    { desc := crcFarEndDesc, valType := .GaugeValue, value := Float64.ofInt s.CRCFarEnd,
      labelValues := [] },
    { desc := uasNearEndDesc, valType := .GaugeValue, value := Float64.ofInt s.UASNearEnd,
      labelValues := [] },
    { desc := uasFarEndDesc, valType := .GaugeValue, value := Float64.ofInt s.UASFarEnd,
      labelValues := [] },
    { desc := hecErrorsNearEndDesc, valType := .GaugeValue, value := Float64.ofInt s.HECErrorsNearEnd,
      labelValues := [] },
    { desc := hecErrorsFarEndDesc, valType := .GaugeValue, value := Float64.ofInt s.HECErrorsFarEnd,
      labelValues := [] },
    { desc := esNearEndDesc, valType := .GaugeValue, value := Float64.ofInt s.ESNearEnd,
      labelValues := [] },
    { desc := esFarEndDesc, valType := .GaugeValue, value := Float64.ofInt s.ESFarEnd,
      labelValues := [] },
    { desc := sesNearEndDesc, valType := .GaugeValue, value := Float64.ofInt s.SESNearEnd,
      labelValues := [] },
    { desc := sesFarEndDesc, valType := .GaugeValue, value := Float64.ofInt s.SESFarEnd,
      labelValues := [] },
    { desc := LOSFailureNearEnd, valType := .GaugeValue, value := Float64.ofInt s.LOSFailureNearEnd,
      labelValues := [] },
    { desc := LOSFailureFarEnd, valType := .GaugeValue, value := Float64.ofInt s.LOSFailureFarEnd,
      labelValues := [] },
    { desc := LOFFailureNearEnd, valType := .GaugeValue, value := Float64.ofInt s.LOFFailureNearEnd,
      labelValues := [] },
    { desc := LOFFailureFarEnd, valType := .GaugeValue, value := Float64.ofInt s.LOFFailureFarEnd,
      labelValues := [] },
    { desc := LPRFailureNearEnd, valType := .GaugeValue, value := Float64.ofInt s.LPRFailureNearEnd,
      labelValues := [] },
    { desc := LPRFailureFarEnd, valType := .GaugeValue, value := Float64.ofInt s.LPRFailureFarEnd,
      labelValues := [] },
    { desc := LCDFailureNearEnd, valType := .GaugeValue, value := Float64.ofInt s.LCDFailureNearEnd,
      labelValues := [] },
    { desc := LCDFailureFarEnd, valType := .GaugeValue, value := Float64.ofInt s.LCDFailureFarEnd,
      labelValues := [] },
    { desc := RFECNearEnd, valType := .GaugeValue, value := Float64.ofInt s.RFECNearEnd,
      labelValues := [] },
    { desc := RFECFarEnd, valType := .GaugeValue, value := Float64.ofInt s.RFECFarEnd,
      labelValues := [] } ]

/-- The sample `draytek_up` with the given value. -/
def upSample (value : Float64) : Metric :=
  { desc := draytekUpDesc, valType := .GaugeValue, value := value, labelValues := [] }

/-- The integer a binary64 is equal to, when it is equal to one. -/
def Float64.exactInt : Float64 → Option Int
  | .nan => none
  | .inf _ => none
  | .zero _ => some 0
  | .finite neg m e =>
    if 0 ≤ e then some (if neg then -((m <<< e.toNat : Nat) : Int) else ((m <<< e.toNat : Nat) : Int))
    else if m % 2 ^ (-e).toNat = 0 then
      some (if neg then -((m >>> (-e).toNat : Nat) : Int) else ((m >>> (-e).toNat : Nat) : Int))
    else none

/-- Two results of the authenticated request count as the same for a scrape:
the same body, or an error on both sides. -/
def SameResult (r₁ r₂ : Except Error Json) : Prop :=
  (∃ body, r₁ = .ok body ∧ r₂ = .ok body) ∨ ((∃ e, r₁ = .error e) ∧ (∃ e, r₂ = .error e))

/-! ## Lemmas: descriptors -/

theorem draytekUpDesc_labels : draytekUpDesc.variableLabels = [] := rfl

theorem draytekInfoDesc_labels : draytekInfoDesc.variableLabels = ["dsl_version", "mode", "profile", "status", "annex"] := rfl

theorem actualRateDownDesc_labels : actualRateDownDesc.variableLabels = [] := rfl

theorem actualRateUpDesc_labels : actualRateUpDesc.variableLabels = [] := rfl

theorem attainableRateDownDesc_labels : attainableRateDownDesc.variableLabels = [] := rfl

theorem attainableRateUpDesc_labels : attainableRateUpDesc.variableLabels = [] := rfl

theorem snrMarginDownDesc_labels : snrMarginDownDesc.variableLabels = [] := rfl

theorem snrMarginUpDesc_labels : snrMarginUpDesc.variableLabels = [] := rfl

theorem lineAttenuationNearEndDesc_labels : lineAttenuationNearEndDesc.variableLabels = [] := rfl

theorem lineAttenuationFarEndDesc_labels : lineAttenuationFarEndDesc.variableLabels = [] := rfl

theorem crcNearEndDesc_labels : crcNearEndDesc.variableLabels = [] := rfl

theorem crcFarEndDesc_labels : crcFarEndDesc.variableLabels = [] := rfl

theorem uasNearEndDesc_labels : uasNearEndDesc.variableLabels = [] := rfl

theorem uasFarEndDesc_labels : uasFarEndDesc.variableLabels = [] := rfl

theorem hecErrorsNearEndDesc_labels : hecErrorsNearEndDesc.variableLabels = [] := rfl

theorem hecErrorsFarEndDesc_labels : hecErrorsFarEndDesc.variableLabels = [] := rfl

theorem esNearEndDesc_labels : esNearEndDesc.variableLabels = [] := rfl

theorem esFarEndDesc_labels : esFarEndDesc.variableLabels = [] := rfl

theorem sesNearEndDesc_labels : sesNearEndDesc.variableLabels = [] := rfl

theorem sesFarEndDesc_labels : sesFarEndDesc.variableLabels = [] := rfl

theorem LOSFailureNearEnd_labels : LOSFailureNearEnd.variableLabels = [] := rfl

theorem LOSFailureFarEnd_labels : LOSFailureFarEnd.variableLabels = [] := rfl

theorem LOFFailureNearEnd_labels : LOFFailureNearEnd.variableLabels = [] := rfl

theorem LOFFailureFarEnd_labels : LOFFailureFarEnd.variableLabels = [] := rfl

theorem LPRFailureNearEnd_labels : LPRFailureNearEnd.variableLabels = [] := rfl

theorem LPRFailureFarEnd_labels : LPRFailureFarEnd.variableLabels = [] := rfl

theorem LCDFailureNearEnd_labels : LCDFailureNearEnd.variableLabels = [] := rfl

theorem LCDFailureFarEnd_labels : LCDFailureFarEnd.variableLabels = [] := rfl

theorem RFECNearEnd_labels : RFECNearEnd.variableLabels = [] := rfl

theorem RFECFarEnd_labels : RFECFarEnd.variableLabels = [] := rfl

theorem draytekUpDesc_fqName : draytekUpDesc.fqName = "draytek_up" := by decide

theorem draytekInfoDesc_fqName : draytekInfoDesc.fqName = "draytek_info" := by decide

theorem actualRateDownDesc_fqName : actualRateDownDesc.fqName = "draytek_downstream_actual_bps" := by decide

theorem actualRateUpDesc_fqName : actualRateUpDesc.fqName = "draytek_upstream_actual_bps" := by decide

theorem attainableRateDownDesc_fqName : attainableRateDownDesc.fqName = "draytek_downstream_attainable_bps" := by decide

theorem attainableRateUpDesc_fqName : attainableRateUpDesc.fqName = "draytek_upstream_attainable_bps" := by decide

theorem snrMarginDownDesc_fqName : snrMarginDownDesc.fqName = "draytek_downstream_snr_margin_db" := by decide

theorem snrMarginUpDesc_fqName : snrMarginUpDesc.fqName = "draytek_upstream_snr_margin_db" := by decide

theorem lineAttenuationNearEndDesc_fqName : lineAttenuationNearEndDesc.fqName = "draytek_near_end_line_attenuation_db" := by decide

theorem lineAttenuationFarEndDesc_fqName : lineAttenuationFarEndDesc.fqName = "draytek_far_end_line_attenuation_db" := by decide

theorem crcNearEndDesc_fqName : crcNearEndDesc.fqName = "draytek_near_end_crc_errors" := by decide

theorem crcFarEndDesc_fqName : crcFarEndDesc.fqName = "draytek_far_end_crc_errors" := by decide

theorem uasNearEndDesc_fqName : uasNearEndDesc.fqName = "draytek_near_end_unavailable_seconds" := by decide

theorem uasFarEndDesc_fqName : uasFarEndDesc.fqName = "draytek_far_end_unavailable_seconds" := by decide

theorem hecErrorsNearEndDesc_fqName : hecErrorsNearEndDesc.fqName = "draytek_near_end_hec_errors" := by decide

theorem hecErrorsFarEndDesc_fqName : hecErrorsFarEndDesc.fqName = "draytek_far_end_hec_errors" := by decide

theorem esNearEndDesc_fqName : esNearEndDesc.fqName = "draytek_near_end_errored_seconds" := by decide

theorem esFarEndDesc_fqName : esFarEndDesc.fqName = "draytek_far_end_errored_seconds" := by decide

theorem sesNearEndDesc_fqName : sesNearEndDesc.fqName = "draytek_near_end_severely_errored_seconds" := by decide

theorem sesFarEndDesc_fqName : sesFarEndDesc.fqName = "draytek_far_end_severely_errored_seconds" := by decide

theorem LOSFailureNearEnd_fqName : LOSFailureNearEnd.fqName = "draytek_near_end_los_failure" := by decide

theorem LOSFailureFarEnd_fqName : LOSFailureFarEnd.fqName = "draytek_far_end_los_failure" := by decide

theorem LOFFailureNearEnd_fqName : LOFFailureNearEnd.fqName = "draytek_near_end_lof_failure" := by decide

theorem LOFFailureFarEnd_fqName : LOFFailureFarEnd.fqName = "draytek_far_end_lof_failure" := by decide

theorem LPRFailureNearEnd_fqName : LPRFailureNearEnd.fqName = "draytek_near_end_lpr_failure" := by decide

theorem LPRFailureFarEnd_fqName : LPRFailureFarEnd.fqName = "draytek_far_end_lpr_failure" := by decide

theorem LCDFailureNearEnd_fqName : LCDFailureNearEnd.fqName = "draytek_near_end_lcd_failure" := by decide

theorem LCDFailureFarEnd_fqName : LCDFailureFarEnd.fqName = "draytek_far_end_lcd_failure" := by decide

theorem RFECNearEnd_fqName : RFECNearEnd.fqName = "draytek_near_end_rfec" := by decide

theorem RFECFarEnd_fqName : RFECFarEnd.fqName = "draytek_far_end_rfec" := by decide

/-! ## Lemmas: the conversion of integers to float64 -/

theorem bitLength_zero (fuel : Nat) : bitLength fuel 0 = 0 := by
  cases fuel <;> simp [bitLength]

theorem bitLength_spec : ∀ (fuel n : Nat), n ≤ fuel → n ≠ 0 →
    2 ^ (bitLength fuel n - 1) ≤ n ∧ n < 2 ^ (bitLength fuel n) ∧ 1 ≤ bitLength fuel n := by
  intro fuel
  induction fuel with
  | zero => intro n h h0; omega
  | succ f ih =>
    intro n h h0
    unfold bitLength
    rw [if_neg h0]
    by_cases h2 : n / 2 = 0
    · rw [h2, bitLength_zero]
      have : n = 1 := by omega
      subst this
      decide
    · obtain ⟨i1, i2, i3⟩ := ih (n / 2) (by omega) h2
      obtain ⟨c, hc⟩ : ∃ c, bitLength f (n / 2) = c + 1 := ⟨bitLength f (n / 2) - 1, by omega⟩
      rw [hc] at i1 i2 ⊢
      simp only [Nat.add_sub_cancel] at i1 ⊢
      rw [pow_succ] at i2 ⊢
      rw [pow_succ]
      refine ⟨by omega, by omega, by omega⟩

theorem log2Floor_spec (p : Nat) (hp : p ≠ 0) :
    2 ^ log2Floor p ≤ p ∧ p < 2 ^ (log2Floor p + 1) := by
  obtain ⟨h1, h2, h3⟩ := bitLength_spec p p (le_refl p) hp
  unfold log2Floor
  rw [Nat.sub_add_cancel h3]
  exact ⟨h1, h2⟩

theorem scaleBy_neg (p q k : Nat) : scaleBy p q (-(k : Int)) = (p * 2 ^ k, q) := by
  unfold scaleBy
  by_cases hk : k = 0
  · subst hk
    simp
  · have : ¬ (0 : Int) ≤ -(k : Int) := by omega
    rw [if_neg this]
    simp [Nat.shiftLeft_eq]

theorem divRoundEven_one (n : Nat) : divRoundEven n 1 = n := by
  simp [divRoundEven, Nat.mod_one]

theorem pow_le_of_lt_pow (L : Nat) (p : Nat) (h1 : 2 ^ L ≤ p) (h2 : p < 2 ^ 53) : L ≤ 52 := by
  by_contra h
  have : 2 ^ 53 ≤ 2 ^ L := Nat.pow_le_pow_right (by decide) (by omega)
  omega

theorem Float64.round_nat_exact (neg : Bool) (p : Nat) (hp : p ≠ 0) (h : p < 2 ^ 53) :
    ∃ k : Nat, k ≤ 52 ∧ Float64.round neg p 1 = some (.finite neg (p * 2 ^ k) (-(k : Int))) := by
  obtain ⟨h1, h2⟩ := log2Floor_spec p hp
  have hL : log2Floor p ≤ 52 := pow_le_of_lt_pow _ p h1 h
  refine ⟨52 - log2Floor p, by omega, ?_⟩
  have hL1 : log2Floor 1 = 0 := by decide
  have he0 : (log2Floor p : Int) - (log2Floor 1 : Int) - 52 = -((52 - log2Floor p : Nat) : Int) := by
    rw [hL1]; omega
  have hpow : 2 ^ 52 ≤ p * 2 ^ (52 - log2Floor p) := by
    calc 2 ^ 52 = 2 ^ (log2Floor p + (52 - log2Floor p)) := by congr 1; omega
      _ = 2 ^ log2Floor p * 2 ^ (52 - log2Floor p) := pow_add _ _ _
      _ ≤ p * 2 ^ (52 - log2Floor p) := Nat.mul_le_mul_right _ h1
  have hpow2 : p * 2 ^ (52 - log2Floor p) < 2 ^ 53 := by
    calc p * 2 ^ (52 - log2Floor p) < 2 ^ (log2Floor p + 1) * 2 ^ (52 - log2Floor p) :=
          Nat.mul_lt_mul_of_pos_right h2 (by positivity)
      _ = 2 ^ (log2Floor p + 1 + (52 - log2Floor p)) := (pow_add _ _ _).symm
      _ = 2 ^ 53 := by congr 1; omega
  have hbe : binaryExponent p 1 = -((52 - log2Floor p : Nat) : Int) := by
    unfold binaryExponent
    simp only [he0, scaleBy_neg, Nat.div_one]
    rw [if_neg (by omega)]
  unfold Float64.round
  rw [if_neg hp]
  simp only [hbe]
  have hmax : max (-((52 - log2Floor p : Nat) : Int)) (-1074) = -((52 - log2Floor p : Nat) : Int) := by
    apply max_eq_left; omega
  simp only [hmax, scaleBy_neg, divRoundEven_one]
  rw [if_neg (by omega), if_neg (by omega), if_neg (by omega)]

theorem Float64.ofInt_exact (n : Int) (h : n.natAbs < 2 ^ 53) :
    (Float64.ofInt n).exactInt = some n := by
  unfold Float64.ofInt
  by_cases h0 : n.natAbs = 0
  · have : n = 0 := Int.natAbs_eq_zero.mp h0
    subst this
    rfl
  · obtain ⟨k, hk, hr⟩ := Float64.round_nat_exact (decide (n < 0)) n.natAbs h0 h
    rw [hr]
    simp only [Option.getD_some, Float64.exactInt]
    by_cases hk0 : k = 0
    · subst hk0
      simp only [Nat.cast_zero, neg_zero, le_refl, if_true, Int.toNat_zero, Nat.shiftLeft_zero,
        pow_zero, mul_one]
      by_cases hn : n < 0
      · simp only [hn, decide_True, if_true, Option.some.injEq]; omega
      · simp only [hn, decide_False, Bool.false_eq_true, if_false, Option.some.injEq]; omega
    · have hneg : ¬ (0 : Int) ≤ -(k : Int) := by omega
      rw [if_neg hneg]
      have ht : (-(-(k : Int))).toNat = k := by simp
      rw [ht, Nat.mul_mod_left, if_pos rfl, Nat.shiftRight_eq_div_pow,
        Nat.mul_div_cancel _ (by positivity)]
      by_cases hn : n < 0
      · simp only [hn, decide_True, if_true, Option.some.injEq]; omega
      · simp only [hn, decide_False, Bool.false_eq_true, if_false, Option.some.injEq]; omega

/-! ## Lemmas: the channel -/

theorem foldl_send_none {α : Type} (l : List (Option α)) : l.foldl send none = none := by
  induction l with
  | nil => rfl
  | cons x rest ih => simp only [List.foldl_cons, send, ih]

theorem foldl_send_somes {α : Type} (l acc : List α) :
    (l.map some).foldl send (some acc) = some (acc ++ l) := by
  induction l generalizing acc with
  | nil => simp only [List.map_nil, List.foldl_nil, List.append_nil]
  | cons x rest ih =>
    simp only [List.map_cons, List.foldl_cons, send, ih, List.append_assoc,
      List.singleton_append]

theorem sentBeforePanic_somes {α : Type} (l : List α) : sentBeforePanic (l.map some) = l := by
  induction l with
  | nil => rfl
  | cons x rest ih => simp only [List.map_cons, sentBeforePanic, ih]

theorem infoValid_iff (s : Status) :
    infoValid s = true ↔
      ValidString s.DSLVersion = true ∧ ValidString s.Mode = true ∧
      ValidString s.Profile = true ∧ ValidString s.Status = true ∧
      ValidString s.Annex = true := by
  simp only [infoValid, List.all_cons, List.all_nil, Bool.and_true, Bool.and_eq_true]

theorem Collect_samples_ok (fetched : Status × Option Error) (hok : fetched.2 = none)
    (hv : infoValid fetched.1 = true) :
    Collect.samples fetched = (successSamples fetched.1).map some := by
  obtain ⟨h1, h2, h3, h4, h5⟩ := (infoValid_iff fetched.1).mp hv
  simp only [Collect.samples, hok, successSamples, List.map, MustNewConstMetric,
    draytekUpDesc_labels,
    draytekInfoDesc_labels,
    actualRateDownDesc_labels,
    actualRateUpDesc_labels,
    attainableRateDownDesc_labels,
    attainableRateUpDesc_labels,
    snrMarginDownDesc_labels,
    snrMarginUpDesc_labels,
    lineAttenuationNearEndDesc_labels,
    lineAttenuationFarEndDesc_labels,
    crcNearEndDesc_labels,
    crcFarEndDesc_labels,
    uasNearEndDesc_labels,
    uasFarEndDesc_labels,
    hecErrorsNearEndDesc_labels,
    hecErrorsFarEndDesc_labels,
    esNearEndDesc_labels,
    esFarEndDesc_labels,
    sesNearEndDesc_labels,
    sesFarEndDesc_labels,
    LOSFailureNearEnd_labels,
    LOSFailureFarEnd_labels,
    LOFFailureNearEnd_labels,
    LOFFailureFarEnd_labels,
    LPRFailureNearEnd_labels,
    LPRFailureFarEnd_labels,
    LCDFailureNearEnd_labels,
    LCDFailureFarEnd_labels,
    RFECNearEnd_labels,
    RFECFarEnd_labels,
    List.length_nil, List.length_cons, List.all_nil, List.all_cons, h1, h2, h3, h4, h5,
    Bool.and_self, and_self, if_true]

theorem Collect_ok (fetched : Status × Option Error) (hok : fetched.2 = none)
    (hv : infoValid fetched.1 = true) :
    Collect fetched = some (successSamples fetched.1) ∧
    Collect.sent fetched = successSamples fetched.1 := by
  unfold Collect Collect.sent
  rw [Collect_samples_ok fetched hok hv, foldl_send_somes, sentBeforePanic_somes]
  exact ⟨rfl, rfl⟩

theorem Collect_invalid (fetched : Status × Option Error) (hok : fetched.2 = none)
    (hv : infoValid fetched.1 = false) :
    Collect fetched = none ∧ Collect.sent fetched = [upSample Float64.one] := by
  have hinfo : MustNewConstMetric draytekInfoDesc .GaugeValue Float64.one
      [fetched.1.DSLVersion, fetched.1.Mode, fetched.1.Profile, fetched.1.Status,
        fetched.1.Annex] = none := by
    unfold MustNewConstMetric
    rw [if_neg]
    rintro ⟨_, h⟩
    have hv' : infoValid fetched.1 = true := h
    rw [hv] at hv'
    exact Bool.noConfusion hv'
  have hup : MustNewConstMetric draytekUpDesc .GaugeValue Float64.one [] =
      some (upSample Float64.one) := rfl
  constructor
  · simp only [Collect, Collect.samples, hok, List.foldl_cons, hinfo, hup, send,
      foldl_send_none]
  · simp only [Collect.sent, Collect.samples, hok, hinfo, hup, sentBeforePanic]

theorem Collect_failed (fetched : Status × Option Error) (hfail : fetched.2 ≠ none) :
    Collect fetched = some [upSample (.zero false)] ∧
    Collect.sent fetched = [upSample (.zero false)] := by
  cases h2 : fetched.2 with
  | none => exact absurd h2 hfail
  | some e =>
    have hup : MustNewConstMetric draytekUpDesc .GaugeValue (.zero false) [] =
        some (upSample (.zero false)) := rfl
    constructor
    · simp only [Collect, Collect.samples, h2, hup, List.foldl_cons, List.foldl_nil, send,
        List.nil_append]
    · simp only [Collect.sent, Collect.samples, h2, hup, sentBeforePanic]

theorem successSamples_descs (s : Status) :
    (successSamples s).map (fun m => m.desc) = catalog := rfl

theorem successSamples_values (s : Status) :
    (successSamples s).map (fun m => (m.desc.fqName, m.value)) =
        [
          ("draytek_up", Float64.one),
          ("draytek_info", Float64.one),
          ("draytek_downstream_actual_bps", Float64.ofInt s.ActualRateDownstream),
          ("draytek_upstream_actual_bps", Float64.ofInt s.ActualRateUpstream),
          ("draytek_downstream_attainable_bps", Float64.ofInt s.AttainableRateDownstream),
          ("draytek_upstream_attainable_bps", Float64.ofInt s.AttainableRateUpstream),
          ("draytek_downstream_snr_margin_db", s.SNRMarginDownstream),
          ("draytek_upstream_snr_margin_db", s.SNRMarginUpstream),
          ("draytek_near_end_line_attenuation_db", s.LineAttenuationNearEnd),
          ("draytek_far_end_line_attenuation_db", s.LineAttenuationFarEnd),
          ("draytek_near_end_crc_errors", Float64.ofInt s.CRCNearEnd),
          ("draytek_far_end_crc_errors", Float64.ofInt s.CRCFarEnd),
          ("draytek_near_end_unavailable_seconds", Float64.ofInt s.UASNearEnd),
          ("draytek_far_end_unavailable_seconds", Float64.ofInt s.UASFarEnd),
          ("draytek_near_end_hec_errors", Float64.ofInt s.HECErrorsNearEnd),
          ("draytek_far_end_hec_errors", Float64.ofInt s.HECErrorsFarEnd),
          ("draytek_near_end_errored_seconds", Float64.ofInt s.ESNearEnd),
          ("draytek_far_end_errored_seconds", Float64.ofInt s.ESFarEnd),
          ("draytek_near_end_severely_errored_seconds", Float64.ofInt s.SESNearEnd),
          ("draytek_far_end_severely_errored_seconds", Float64.ofInt s.SESFarEnd),
          ("draytek_near_end_los_failure", Float64.ofInt s.LOSFailureNearEnd),
          ("draytek_far_end_los_failure", Float64.ofInt s.LOSFailureFarEnd),
          ("draytek_near_end_lof_failure", Float64.ofInt s.LOFFailureNearEnd),
          ("draytek_far_end_lof_failure", Float64.ofInt s.LOFFailureFarEnd),
          ("draytek_near_end_lpr_failure", Float64.ofInt s.LPRFailureNearEnd),
          ("draytek_far_end_lpr_failure", Float64.ofInt s.LPRFailureFarEnd),
          ("draytek_near_end_lcd_failure", Float64.ofInt s.LCDFailureNearEnd),
          ("draytek_far_end_lcd_failure", Float64.ofInt s.LCDFailureFarEnd),
          ("draytek_near_end_rfec", Float64.ofInt s.RFECNearEnd),
          ("draytek_far_end_rfec", Float64.ofInt s.RFECFarEnd) ] := by
  simp only [successSamples, List.map,
    draytekUpDesc_fqName,
    draytekInfoDesc_fqName,
    actualRateDownDesc_fqName,
    actualRateUpDesc_fqName,
    attainableRateDownDesc_fqName,
    attainableRateUpDesc_fqName,
    snrMarginDownDesc_fqName,
    snrMarginUpDesc_fqName,
    lineAttenuationNearEndDesc_fqName,
    lineAttenuationFarEndDesc_fqName,
    crcNearEndDesc_fqName,
    crcFarEndDesc_fqName,
    uasNearEndDesc_fqName,
    uasFarEndDesc_fqName,
    hecErrorsNearEndDesc_fqName,
    hecErrorsFarEndDesc_fqName,
    esNearEndDesc_fqName,
    esFarEndDesc_fqName,
    sesNearEndDesc_fqName,
    sesFarEndDesc_fqName,
    LOSFailureNearEnd_fqName,
    LOSFailureFarEnd_fqName,
    LOFFailureNearEnd_fqName,
    LOFFailureFarEnd_fqName,
    LPRFailureNearEnd_fqName,
    LPRFailureFarEnd_fqName,
    LCDFailureNearEnd_fqName,
    LCDFailureFarEnd_fqName,
    RFECNearEnd_fqName,
    RFECFarEnd_fqName]

theorem brokenResponse_fetch :
    (FetchStatus plainNumbers (.ok brokenResponse)).2 = none ∧
    (FetchStatus plainNumbers (.ok brokenResponse)).1.Status = brokenText ∧
    ValidString brokenText = false ∧
    infoValid (FetchStatus plainNumbers (.ok brokenResponse)).1 = false := by
  refine ⟨by decide, by decide, by decide, by decide⟩

/-- The help text of `snrMarginUpDesc` in `collector.go` is that of
`snrMarginDownDesc`: it reads "downstream" for the upstream margin. -/
theorem snrMarginUpDesc_help :
    snrMarginUpDesc.help = "The downstream SNR margin in dB" ∧
    snrMarginUpDesc.help = snrMarginDownDesc.help ∧
    snrMarginUpDesc.fqName = "draytek_upstream_snr_margin_db" := by
  decide

theorem plainNumbers_examples :
    plainNumbers.int "1.5" = 1 ∧ plainNumbers.int "1e3" = 1000 ∧ plainNumbers.int "-2.9" = -2 ∧
    plainNumbers.int "9007199254740993" = 9007199254740993 ∧
    plainNumbers.text "12" = "12" ∧ plainNumbers.text "1.50" = "1.5" ∧
    plainNumbers.text "1e3" = "1000" ∧ plainNumbers.text "0.1" = "0.1" := by
  decide

/-! ## Theorems: the collector -/

/-- C1: whenever `FetchStatus` fails, which happens only when the authenticated
request returned an error or the response has no `Setting` element, `Collect`
emits exactly one sample: the gauge `draytek_up` with value 0 and no labels. -/
theorem C1_collect_failure_emits_only_up_zero (nv : NumberView) (post : Except Error Json)
    (hfail : (FetchStatus nv post).2 ≠ none) :
    ((∃ e, post = .error e) ∨ (∃ r, post = .ok r ∧ getSetting nv r = none)) ∧
    Collect (FetchStatus nv post) =
      some [{ desc := draytekUpDesc, valType := .GaugeValue, value := .zero false,
              labelValues := [] }] ∧
    draytekUpDesc.fqName = "draytek_up" ∧ draytekUpDesc.variableLabels = [] := by
  refine ⟨?_, ?_, draytekUpDesc_fqName, rfl⟩
  · cases post with
    | error e => exact Or.inl ⟨e, rfl⟩
    | ok r =>
      refine Or.inr ⟨r, rfl, ?_⟩
      cases hs : getSetting nv r with
      | none => rfl
      | some v =>
        exfalso
        apply hfail
        simp [FetchStatus, parseDSLStatusGeneralJSON, hs, Result.Exists]
  · exact (Collect_failed _ hfail).1

/-- Witness for C1: a response without any element in its general section. -/
theorem C1_collect_failure_witness :
    (FetchStatus plainNumbers (.ok (responseDoc []))).2 ≠ none ∧
    Collect (FetchStatus plainNumbers (.ok (responseDoc []))) =
      some [{ desc := draytekUpDesc, valType := .GaugeValue, value := .zero false,
              labelValues := [] }] :=
  ⟨by decide,
   (C1_collect_failure_emits_only_up_zero plainNumbers (.ok (responseDoc [])) (by decide)).2.1⟩

/-- Counterexample for C2: a successful fetch of the sample response does not
yield 31 samples, and a successful fetch of a response whose `Status` string
is not valid UTF-8 does not yield 30 samples either: `Collect` sends
`draytek_up` with value 1 and panics while it builds the info sample. -/
theorem C2_counterexample_not_31_samples :
    ((FetchStatus plainNumbers (.ok sampleResponse)).2 = none ∧
      ¬ ∃ ms, Collect (FetchStatus plainNumbers (.ok sampleResponse)) = some ms ∧
          ms.length = 31) ∧
    ((FetchStatus plainNumbers (.ok brokenResponse)).2 = none ∧
      (FetchStatus plainNumbers (.ok brokenResponse)).1.Status = brokenText ∧
      ValidString brokenText = false ∧
      Collect (FetchStatus plainNumbers (.ok brokenResponse)) = none ∧
      Collect.sent (FetchStatus plainNumbers (.ok brokenResponse)) =
        [upSample Float64.one]) := by
  refine ⟨⟨by decide, ?_⟩, brokenResponse_fetch.1, brokenResponse_fetch.2.1,
    brokenResponse_fetch.2.2.1,
    Collect_invalid _ brokenResponse_fetch.1 brokenResponse_fetch.2.2.2⟩
  rintro ⟨ms, hms, hlen⟩
  rw [(Collect_ok _ (by decide) (by decide)).1] at hms
  simp only [Option.some.injEq] at hms
  rw [← hms] at hlen
  exact absurd hlen (by decide)

/-- C2 (amended): after a successful fetch of a Status whose five info strings
are valid UTF-8, `Collect` emits exactly 30 samples, one for each descriptor
of the catalog in catalog order: first `draytek_up` with value 1, second the
info sample, then the 28 remaining descriptors. The 30 descriptors are
pairwise distinct, also by name, and the order does not depend on the Status.
When an info string is not valid UTF-8, `Collect` panics after it has sent
`draytek_up` with value 1. -/
theorem C2_collect_success_emits_catalog (fetched : Status × Option Error)
    (hok : fetched.2 = none) :
    (infoValid fetched.1 = true →
      ∃ ms, Collect fetched = some ms ∧ Collect.sent fetched = ms ∧ ms.length = 30 ∧
        ms.map (fun m => m.desc) = catalog ∧
        ms.get? 0 = some { desc := draytekUpDesc, valType := .GaugeValue,
                           value := Float64.one, labelValues := [] } ∧
        (ms.get? 1).map (fun m => m.desc) = some draytekInfoDesc ∧
        catalog.length = 30 ∧ catalog.Nodup ∧ (catalog.map (fun d => d.fqName)).Nodup) ∧
    (infoValid fetched.1 = false →
      Collect fetched = none ∧
      Collect.sent fetched =
        [{ desc := draytekUpDesc, valType := .GaugeValue, value := Float64.one,
           labelValues := [] }]) := by
  refine ⟨fun hv => ⟨successSamples fetched.1, (Collect_ok fetched hok hv).1,
    (Collect_ok fetched hok hv).2, rfl, rfl, rfl, rfl, rfl, by decide, by decide⟩,
    fun hv => Collect_invalid fetched hok hv⟩

/-- Witness for C2: the sample response. -/
theorem C2_collect_success_witness :
    (FetchStatus plainNumbers (.ok sampleResponse)).2 = none ∧
    infoValid (FetchStatus plainNumbers (.ok sampleResponse)).1 = true ∧
    ∃ ms, Collect (FetchStatus plainNumbers (.ok sampleResponse)) = some ms ∧
      ms.length = 30 ∧ ms.map (fun m => m.desc) = catalog := by
  refine ⟨by decide, by decide, ?_⟩
  obtain ⟨ms, h1, _, h2, h3, _⟩ :=
    (C2_collect_success_emits_catalog (FetchStatus plainNumbers (.ok sampleResponse))
      (by decide)).1 (by decide)
  exact ⟨ms, h1, h2, h3⟩

/-- Counterexample for C3: after a successful fetch of a response whose
`Status` string is not valid UTF-8, `Collect` panics while it builds the info
sample: `draytek_up` is all it has sent, and no numeric sample is emitted. -/
theorem C3_counterexample_no_numeric_sample :
    (FetchStatus plainNumbers (.ok brokenResponse)).2 = none ∧
    (Collect (FetchStatus plainNumbers (.ok brokenResponse))).map
        (List.map (fun m => (m.desc.fqName, m.value))) = none ∧
    (Collect.sent (FetchStatus plainNumbers (.ok brokenResponse))).map
        (fun m => (m.desc.fqName, m.value)) = [("draytek_up", Float64.one)] := by
  have h := Collect_invalid _ brokenResponse_fetch.1 brokenResponse_fetch.2.2.2
  refine ⟨brokenResponse_fetch.1, ?_, ?_⟩
  · rw [h.1]
    rfl
  · rw [h.2]
    decide

/-- C3 (amended): after a successful fetch of a Status whose five info strings
are valid UTF-8, every numeric sample carries the Status field its descriptor
names: the samples, as pairs of metric name and value, are the list below,
integer fields being converted by `float64`. That conversion is exact for
every integer of magnitude below `2^53`, and beyond it rounds to the nearest
binary64, ties to the even mantissa: `2^53 + 1` gives `2^53`, `2^53 + 3` gives
`2^53 + 4`, and the largest and the smallest `int` give `2^63` and `-2^63`. -/
theorem C3_collect_values_match_fields (fetched : Status × Option Error)
    (hok : fetched.2 = none) (hvalid : infoValid fetched.1 = true) :
    (Collect fetched).map (List.map (fun m => (m.desc.fqName, m.value))) =
      some
        [
          ("draytek_up", Float64.one),
          ("draytek_info", Float64.one),
          ("draytek_downstream_actual_bps", Float64.ofInt fetched.1.ActualRateDownstream),
          ("draytek_upstream_actual_bps", Float64.ofInt fetched.1.ActualRateUpstream),
          ("draytek_downstream_attainable_bps", Float64.ofInt fetched.1.AttainableRateDownstream),
          ("draytek_upstream_attainable_bps", Float64.ofInt fetched.1.AttainableRateUpstream),
          ("draytek_downstream_snr_margin_db", fetched.1.SNRMarginDownstream),
          ("draytek_upstream_snr_margin_db", fetched.1.SNRMarginUpstream),
          ("draytek_near_end_line_attenuation_db", fetched.1.LineAttenuationNearEnd),
          ("draytek_far_end_line_attenuation_db", fetched.1.LineAttenuationFarEnd),
          ("draytek_near_end_crc_errors", Float64.ofInt fetched.1.CRCNearEnd),
          ("draytek_far_end_crc_errors", Float64.ofInt fetched.1.CRCFarEnd),
          ("draytek_near_end_unavailable_seconds", Float64.ofInt fetched.1.UASNearEnd),
          ("draytek_far_end_unavailable_seconds", Float64.ofInt fetched.1.UASFarEnd),
          ("draytek_near_end_hec_errors", Float64.ofInt fetched.1.HECErrorsNearEnd),
          ("draytek_far_end_hec_errors", Float64.ofInt fetched.1.HECErrorsFarEnd),
          ("draytek_near_end_errored_seconds", Float64.ofInt fetched.1.ESNearEnd),
          ("draytek_far_end_errored_seconds", Float64.ofInt fetched.1.ESFarEnd),
          ("draytek_near_end_severely_errored_seconds", Float64.ofInt fetched.1.SESNearEnd),
          ("draytek_far_end_severely_errored_seconds", Float64.ofInt fetched.1.SESFarEnd),
          ("draytek_near_end_los_failure", Float64.ofInt fetched.1.LOSFailureNearEnd),
          ("draytek_far_end_los_failure", Float64.ofInt fetched.1.LOSFailureFarEnd),
          ("draytek_near_end_lof_failure", Float64.ofInt fetched.1.LOFFailureNearEnd),
          ("draytek_far_end_lof_failure", Float64.ofInt fetched.1.LOFFailureFarEnd),
          ("draytek_near_end_lpr_failure", Float64.ofInt fetched.1.LPRFailureNearEnd),
          ("draytek_far_end_lpr_failure", Float64.ofInt fetched.1.LPRFailureFarEnd),
          ("draytek_near_end_lcd_failure", Float64.ofInt fetched.1.LCDFailureNearEnd),
          ("draytek_far_end_lcd_failure", Float64.ofInt fetched.1.LCDFailureFarEnd),
          ("draytek_near_end_rfec", Float64.ofInt fetched.1.RFECNearEnd),
          ("draytek_far_end_rfec", Float64.ofInt fetched.1.RFECFarEnd) ] ∧
    (∀ n : Int, n.natAbs < 2 ^ 53 → (Float64.ofInt n).exactInt = some n) ∧
    (Float64.ofInt 9007199254740993).exactInt = some 9007199254740992 ∧
    (Float64.ofInt 9007199254740995).exactInt = some 9007199254740996 ∧
    (Float64.ofInt 9223372036854775807).exactInt = some 9223372036854775808 ∧
    (Float64.ofInt (-9223372036854775808)).exactInt = some (-9223372036854775808) := by
  refine ⟨?_, Float64.ofInt_exact, by decide, by decide, by decide, by decide⟩
  rw [(Collect_ok fetched hok hvalid).1]
  simp only [Option.map, successSamples_values]

/-- Witness for C3: the sample response. The rates are 55000000, 10000000,
61000000 and 12000000, the SNR margins the binary64 values nearest to 5.3 and
6, the attenuations 17.5 and 18, the CRC counts 12 and 7, and every other
sample is zero. -/
theorem C3_collect_values_witness :
    (FetchStatus plainNumbers (.ok sampleResponse)).2 = none ∧
    infoValid (FetchStatus plainNumbers (.ok sampleResponse)).1 = true ∧
    (Collect (FetchStatus plainNumbers (.ok sampleResponse))).map
        (List.map (fun m => (m.desc.fqName, m.value))) =
      some
        [
          ("draytek_up", Float64.one),
          ("draytek_info", Float64.one),
          ("draytek_downstream_actual_bps", Float64.finite false 7381975040000000 (-27)),
          ("draytek_upstream_actual_bps", Float64.finite false 5368709120000000 (-29)),
          ("draytek_downstream_attainable_bps", Float64.finite false 8187281408000000 (-27)),
          ("draytek_upstream_attainable_bps", Float64.finite false 6442450944000000 (-29)),
          ("draytek_downstream_snr_margin_db", Float64.finite false 5967269506265907 (-50)),
          ("draytek_upstream_snr_margin_db", Float64.finite false 6755399441055744 (-50)),
          ("draytek_near_end_line_attenuation_db", Float64.finite false 4925812092436480 (-48)),
          ("draytek_far_end_line_attenuation_db", Float64.finite false 5066549580791808 (-48)),
          ("draytek_near_end_crc_errors", Float64.finite false 6755399441055744 (-49)),
          ("draytek_far_end_crc_errors", Float64.finite false 7881299347898368 (-50)),
          ("draytek_near_end_unavailable_seconds", Float64.zero false),
          ("draytek_far_end_unavailable_seconds", Float64.zero false),
          ("draytek_near_end_hec_errors", Float64.zero false),
          ("draytek_far_end_hec_errors", Float64.zero false),
          ("draytek_near_end_errored_seconds", Float64.zero false),
          ("draytek_far_end_errored_seconds", Float64.zero false),
          ("draytek_near_end_severely_errored_seconds", Float64.zero false),
          ("draytek_far_end_severely_errored_seconds", Float64.zero false),
          ("draytek_near_end_los_failure", Float64.zero false),
          ("draytek_far_end_los_failure", Float64.zero false),
          ("draytek_near_end_lof_failure", Float64.zero false),
          ("draytek_far_end_lof_failure", Float64.zero false),
          ("draytek_near_end_lpr_failure", Float64.zero false),
          ("draytek_far_end_lpr_failure", Float64.zero false),
          ("draytek_near_end_lcd_failure", Float64.zero false),
          ("draytek_far_end_lcd_failure", Float64.zero false),
          ("draytek_near_end_rfec", Float64.zero false),
          ("draytek_far_end_rfec", Float64.zero false) ] ∧
    (Float64.finite false 7381975040000000 (-27)).exactInt = some 55000000 ∧
    (Float64.finite false 6755399441055744 (-49)).exactInt = some 12 := by
  refine ⟨by decide, by decide, ?_, by decide, by decide⟩
  rw [(C3_collect_values_match_fields (FetchStatus plainNumbers (.ok sampleResponse))
    (by decide) (by decide)).1]
  decide

/-- Counterexample for C4: after a successful fetch of a response whose
`Status` string is not valid UTF-8, `Collect` emits no info sample: it panics
while it builds that sample, having sent `draytek_up` only. -/
theorem C4_counterexample_no_info_sample :
    (FetchStatus plainNumbers (.ok brokenResponse)).2 = none ∧
    (FetchStatus plainNumbers (.ok brokenResponse)).1.Status = brokenText ∧
    ValidString brokenText = false ∧
    (¬ ∃ ms info, Collect (FetchStatus plainNumbers (.ok brokenResponse)) = some ms ∧
        ms.get? 1 = some info) ∧
    (∀ m ∈ Collect.sent (FetchStatus plainNumbers (.ok brokenResponse)),
        m.desc ≠ draytekInfoDesc) := by
  have h := Collect_invalid _ brokenResponse_fetch.1 brokenResponse_fetch.2.2.2
  refine ⟨brokenResponse_fetch.1, brokenResponse_fetch.2.1, brokenResponse_fetch.2.2.1,
    ?_, ?_⟩
  · rintro ⟨ms, info, hms, _⟩
    rw [h.1] at hms
    cases hms
  · rw [h.2]
    decide

/-- C4 (amended): after a successful fetch of a Status whose five info strings
are valid UTF-8, the info sample (the second one, and the only one with the
info descriptor) has value 1 and five label values which, paired with the
label names of the descriptor, give `dsl_version`, `mode`, `profile`, `status`
and `annex` the Status fields of the same meaning. When an info string is not
valid UTF-8, `Collect` panics and no info sample has been sent. -/
theorem C4_collect_info_labels (fetched : Status × Option Error)
    (hok : fetched.2 = none) :
    (infoValid fetched.1 = true →
      ∃ ms info, Collect fetched = some ms ∧ ms.get? 1 = some info ∧
        info.desc = draytekInfoDesc ∧
        (ms.map (fun m => m.desc)).count draytekInfoDesc = 1 ∧
        info.value = Float64.one ∧ info.labelValues.length = 5 ∧
        info.desc.variableLabels.zip info.labelValues =
          [ ("dsl_version", fetched.1.DSLVersion), ("mode", fetched.1.Mode),
            ("profile", fetched.1.Profile), ("status", fetched.1.Status),
            ("annex", fetched.1.Annex) ]) ∧
    (infoValid fetched.1 = false →
      Collect fetched = none ∧ ∀ m ∈ Collect.sent fetched, m.desc ≠ draytekInfoDesc) := by
  constructor
  · intro hv
    refine ⟨successSamples fetched.1,
      { desc := draytekInfoDesc, valType := .GaugeValue, value := Float64.one,
        labelValues := [fetched.1.DSLVersion, fetched.1.Mode, fetched.1.Profile,
          fetched.1.Status, fetched.1.Annex] }, (Collect_ok fetched hok hv).1, rfl, rfl, ?_,
      rfl, rfl, rfl⟩
    rw [successSamples_descs]
    decide
  · intro hv
    have h := Collect_invalid fetched hok hv
    refine ⟨h.1, ?_⟩
    rw [h.2]
    decide

/-- Witness for C4: the sample response. -/
theorem C4_collect_info_witness :
    (FetchStatus plainNumbers (.ok sampleResponse)).2 = none ∧
    infoValid (FetchStatus plainNumbers (.ok sampleResponse)).1 = true ∧
    ∃ ms info, Collect (FetchStatus plainNumbers (.ok sampleResponse)) = some ms ∧
      ms.get? 1 = some info ∧
      info.desc.variableLabels.zip info.labelValues =
        ([ ("dsl_version", "VDSL2"), ("mode", "17A"), ("profile", "17a"),
           ("status", "SHOWTIME"), ("annex", "B") ] : List (String × GoString)) := by
  refine ⟨by decide, by decide, ?_⟩
  obtain ⟨ms, info, h1, h2, _, _, _, _, h7⟩ :=
    (C4_collect_info_labels (FetchStatus plainNumbers (.ok sampleResponse)) (by decide)).1
      (by decide)
  refine ⟨ms, info, h1, h2, ?_⟩
  rw [h7]
  decide

/-! ## Lemmas: the path to the settings element -/

theorem findSome_eq_none {α β : Type} (f : α → Option β) (l : List α) :
    l.findSome? f = none ↔ ∀ x ∈ l, f x = none := by
  induction l with
  | nil => simp [List.findSome?]
  | cons x rest ih =>
    simp only [List.findSome?, List.mem_cons, forall_eq_or_imp]
    cases hx : f x with
    | none => simp [ih]
    | some y => simp

theorem mem_membersNamed (key : String) (c : Json) (members : List (String × Json)) :
    c ∈ membersNamed key members ↔ (key, c) ∈ members := by
  induction members with
  | nil => simp [membersNamed]
  | cons m rest ih =>
    obtain ⟨k, v⟩ := m
    unfold membersNamed
    by_cases hk : k = key
    · subst hk
      simp [ih]
    · have hk' : ¬ (key = k) := fun h => hk h.symm
      simp [hk, hk', ih]

theorem mem_pathStep (key : String) (j c : Json) : c ∈ pathStep key j ↔ IsChild key j c := by
  unfold IsChild
  cases j with
  | obj raw members =>
    simp only [pathStep, mem_membersNamed]
    constructor
    · intro h
      exact Or.inl ⟨raw, members, rfl, h⟩
    · rintro (⟨_, _, he, h⟩ | ⟨_, _, _, he, _⟩)
      · cases he
        exact h
      · cases he
  | arr raw elems =>
    simp only [pathStep]
    constructor
    · intro h
      cases hi : pathIndex key with
      | none => simp only [hi, List.not_mem_nil] at h
      | some i =>
        simp only [hi] at h
        refine Or.inr ⟨raw, elems, i, rfl, rfl, ?_⟩
        cases hg : elems.get? i with
        | none => simp only [hg, Option.toList, List.not_mem_nil] at h
        | some x =>
          simp only [hg, Option.toList, List.mem_singleton] at h
          rw [h]
    · rintro (⟨_, _, he, _⟩ | ⟨_, _, i, he, hi, hg⟩)
      · cases he
      · cases he
        simp only [hi, hg, Option.toList, List.mem_singleton]
  | null =>
    simp only [pathStep, List.not_mem_nil, false_iff]
    rintro (⟨_, _, he, _⟩ | ⟨_, _, _, he, _⟩) <;> cases he
  | bool b =>
    simp only [pathStep, List.not_mem_nil, false_iff]
    rintro (⟨_, _, he, _⟩ | ⟨_, _, _, he, _⟩) <;> cases he
  | num r =>
    simp only [pathStep, List.not_mem_nil, false_iff]
    rintro (⟨_, _, he, _⟩ | ⟨_, _, _, he, _⟩) <;> cases he
  | str r =>
    simp only [pathStep, List.not_mem_nil, false_iff]
    rintro (⟨_, _, he, _⟩ | ⟨_, _, _, he, _⟩) <;> cases he

theorem lookupMember_mem (key : String) (members : List (String × Json)) (v : Json)
    (h : lookupMember key members = some v) : (key, v) ∈ members := by
  induction members with
  | nil => simp [lookupMember] at h
  | cons m rest ih =>
    obtain ⟨k, w⟩ := m
    unfold lookupMember at h
    by_cases hk : k = key
    · rw [if_pos hk] at h
      simp only [Option.some.injEq] at h
      subst hk; subst h
      exact List.mem_cons_self _ _
    · rw [if_neg hk] at h
      exact List.mem_cons_of_mem _ (ih h)

theorem lookupMember_isSome_of_mem (key : String) (members : List (String × Json)) (v : Json)
    (h : (key, v) ∈ members) : lookupMember key members ≠ none := by
  induction members with
  | nil => cases h
  | cons m rest ih =>
    obtain ⟨k, w⟩ := m
    unfold lookupMember
    by_cases hk : k = key
    · rw [if_pos hk]
      exact Option.some_ne_none _
    · rw [if_neg hk]
      apply ih
      rcases List.mem_cons.mp h with h1 | h1
      · exact absurd (Prod.mk.inj h1).1.symm hk
      · exact h1

theorem get_mem_pathStep (j c : Json) (key : String)
    (h : Result.Get (some j) key = some c) : c ∈ pathStep key j := by
  rw [mem_pathStep]
  cases j with
  | obj raw members => exact Or.inl ⟨raw, members, rfl, lookupMember_mem _ _ _ h⟩
  | arr raw elems =>
    simp only [Result.Get] at h
    cases hi : pathIndex key with
    | none => rw [hi] at h; cases h
    | some i =>
      rw [hi] at h
      exact Or.inr ⟨raw, elems, i, rfl, hi, h⟩
  | null => cases h
  | bool b => cases h
  | num r => cases h
  | str r => cases h

theorem nameIsSetting_iff (e : Json) : nameIsSetting e = true ↔ IsSettingElement e := by
  unfold IsSettingElement
  cases e with
  | obj raw members =>
    simp only [nameIsSetting, Result.Get]
    cases hm : lookupMember "Name" members with
    | none =>
      simp only [Bool.false_eq_true, false_iff]
      rintro ⟨raw', members', he, h | ⟨lit, h, _⟩⟩ <;> cases he <;> rw [hm] at h <;> cases h
    | some j =>
      cases j with
      | str s =>
        simp only [decide_eq_true_eq]
        constructor
        · intro h
          exact ⟨raw, members, rfl, Or.inl (by rw [hm, h])⟩
        · rintro ⟨raw', members', he, h | ⟨lit, h, _⟩⟩
          · cases he
            rw [hm] at h
            cases h
            rfl
          · cases he
            rw [hm] at h
            cases h
      | num r =>
        constructor
        · intro h
          exact ⟨raw, members, rfl, Or.inr ⟨r, hm, h⟩⟩
        · rintro ⟨raw', members', he, h | ⟨lit, h, hz⟩⟩
          · cases he
            rw [hm] at h
            cases h
          · cases he
            rw [hm] at h
            cases h
            exact hz
      | null =>
        simp only [Bool.false_eq_true, false_iff]
        rintro ⟨raw', members', he, h | ⟨lit, h, _⟩⟩ <;> cases he <;> rw [hm] at h <;> cases h
      | bool b =>
        simp only [Bool.false_eq_true, false_iff]
        rintro ⟨raw', members', he, h | ⟨lit, h, _⟩⟩ <;> cases he <;> rw [hm] at h <;> cases h
      | arr r l =>
        simp only [Bool.false_eq_true, false_iff]
        rintro ⟨raw', members', he, h | ⟨lit, h, _⟩⟩ <;> cases he <;> rw [hm] at h <;> cases h
      | obj r l =>
        simp only [Bool.false_eq_true, false_iff]
        rintro ⟨raw', members', he, h | ⟨lit, h, _⟩⟩ <;> cases he <;> rw [hm] at h <;> cases h
  | null => simp [nameIsSetting]
  | bool b => simp [nameIsSetting]
  | num r => simp [nameIsSetting]
  | str r => simp [nameIsSetting]
  | arr r l => simp [nameIsSetting]

theorem queryStep_ne_none_iff (sec : Json) : queryStep sec ≠ none ↔ HoldsSetting sec := by
  unfold HoldsSetting
  cases sec with
  | arr raw elems =>
    simp only [queryStep]
    constructor
    · intro h
      cases hf : elems.find? nameIsSetting with
      | none => exact absurd hf h
      | some e =>
        have h1 := List.find?_some hf
        have h2 := List.mem_of_find?_eq_some hf
        exact Or.inl ⟨raw, elems, rfl, e, h2, (nameIsSetting_iff e).mp h1⟩
    · rintro (⟨raw', elems', he, e, hmem, hs⟩ | ⟨raw', members', v, he, _⟩)
      · cases he
        intro hnone
        rw [List.find?_eq_none] at hnone
        exact hnone e hmem ((nameIsSetting_iff e).mpr hs)
      · cases he
  | obj raw members =>
    simp only [queryStep]
    constructor
    · intro h
      cases hl : lookupMember settingQuery members with
      | none => exact absurd hl h
      | some v => exact Or.inr ⟨raw, members, v, rfl, lookupMember_mem _ _ _ hl⟩
    · rintro (⟨raw', elems', he, _⟩ | ⟨raw', members', v, he, hmem⟩)
      · cases he
      · cases he
        exact lookupMember_isSome_of_mem _ _ _ hmem
  | null =>
    simp only [queryStep, ne_eq, not_true_eq_false, false_iff]
    rintro (⟨_, _, he, _⟩ | ⟨_, _, _, he, _⟩) <;> cases he
  | bool b =>
    simp only [queryStep, ne_eq, not_true_eq_false, false_iff]
    rintro (⟨_, _, he, _⟩ | ⟨_, _, _, he, _⟩) <;> cases he
  | num r =>
    simp only [queryStep, ne_eq, not_true_eq_false, false_iff]
    rintro (⟨_, _, he, _⟩ | ⟨_, _, _, he, _⟩) <;> cases he
  | str r =>
    simp only [queryStep, ne_eq, not_true_eq_false, false_iff]
    rintro (⟨_, _, he, _⟩ | ⟨_, _, _, he, _⟩) <;> cases he

theorem getSetting_eq_none_iff (nv : NumberView) (resp : Json) :
    getSetting nv resp = none ↔ ¬ ∃ sec, IsGeneralSection resp sec ∧ HoldsSetting sec := by
  unfold getSetting
  rw [findSome_eq_none]
  simp only [List.mem_flatMap, mem_pathStep]
  constructor
  · rintro h ⟨sec, ⟨a, b, h1, h2, h3⟩, hs⟩
    exact (queryStep_ne_none_iff sec).mpr hs (h sec ⟨b, ⟨a, h1, h2⟩, h3⟩)
  · rintro h sec ⟨b, ⟨a, h1, h2⟩, h3⟩
    by_contra hne
    exact h ⟨sec, ⟨a, b, h1, h2, h3⟩, (queryStep_ne_none_iff sec).mp hne⟩

theorem generalElems_section (resp : Json) (e : Json) (he : e ∈ generalElems resp) :
    ∃ raw elems, IsGeneralSection resp (.arr raw elems) ∧ e ∈ elems := by
  unfold generalElems at he
  cases h1 : Result.Get (some resp) "ct" with
  | none =>
    rw [h1] at he
    cases he
  | some a =>
    cases h2 : Result.Get (some a) "0" with
    | none =>
      rw [h1, h2] at he
      cases he
    | some b =>
      cases h3 : Result.Get (some b) "0MONITORING_DSL_GENERAL" with
      | none =>
        rw [h1, h2, h3] at he
        cases he
      | some sec =>
        rw [h1, h2, h3] at he
        cases sec with
        | arr raw elems =>
          refine ⟨raw, elems, ⟨a, b, ?_, ?_, ?_⟩, he⟩
          · exact (mem_pathStep _ _ _).mp (get_mem_pathStep _ _ _ h1)
          · exact (mem_pathStep _ _ _).mp (get_mem_pathStep _ _ _ h2)
          · exact (mem_pathStep _ _ _).mp (get_mem_pathStep _ _ _ h3)
        | null => cases he
        | bool b => cases he
        | num r => cases he
        | str r => cases he
        | obj r l => cases he

theorem parse_err_iff (nv : NumberView) (resp : Json) :
    (parseDSLStatusGeneralJSON nv resp).2 ≠ none ↔ getSetting nv resp = none := by
  unfold parseDSLStatusGeneralJSON
  cases getSetting nv resp <;> simp [Result.Exists]

theorem parse_of_setting (nv : NumberView) (resp v : Json)
    (h : getSetting nv resp = some v) :
    parseDSLStatusGeneralJSON nv resp = (statusOfSetting nv (some v), none) := by
  simp [parseDSLStatusGeneralJSON, h, Result.Exists]

theorem isSettingElement_of_hasName (e : Json) (h : HasNameSetting e) : IsSettingElement e := by
  obtain ⟨raw, members, rfl, hm⟩ := h
  exact ⟨raw, members, rfl, Or.inl hm⟩

/-! ## Theorems: the parser -/

/-- Counterexample for C5: three responses in which the array
`ct[0].0MONITORING_DSL_GENERAL` has no element with Name equal to `Setting`,
and which parse with a nil error all the same. In the first the only element
has the number 0 as its Name, and the query finds a number equal to `Setting`
when it is zero. In the second `0MONITORING_DSL_GENERAL` is an object with a
member that is named like the query. In the third the key `ct` is repeated
and the settings element is under its second member. -/
theorem C5_counterexample_nil_error_without_setting :
    ((¬ ∃ e ∈ generalElems zeroNameResponse, HasNameSetting e) ∧
      (parseDSLStatusGeneralJSON plainNumbers zeroNameResponse).2 = none) ∧
    ((¬ ∃ e ∈ generalElems queryNameResponse, HasNameSetting e) ∧
      (parseDSLStatusGeneralJSON plainNumbers queryNameResponse).2 = none) ∧
    ((¬ ∃ e ∈ generalElems repeatedKeyResponse, HasNameSetting e) ∧
      (parseDSLStatusGeneralJSON plainNumbers repeatedKeyResponse).2 = none) := by
  refine ⟨⟨?_, by decide⟩, ⟨?_, by decide⟩, ⟨?_, by decide⟩⟩
  · rintro ⟨e, he, raw, members, rfl, hm⟩
    have h1 : generalElems zeroNameResponse = [.obj "" [("Name", .num "0")]] := rfl
    rw [h1, List.mem_singleton] at he
    cases he
    cases hm
  · rintro ⟨e, he, _⟩
    have h1 : generalElems queryNameResponse = [] := rfl
    rw [h1] at he
    cases he
  · rintro ⟨e, he, _⟩
    have h1 : generalElems repeatedKeyResponse = [] := rfl
    rw [h1] at he
    cases he

/-- C5 (amended): `parseDSLStatusGeneralJSON` fails exactly when the path
`ct.0.0MONITORING_DSL_GENERAL`, followed through every member of these names
when a name is repeated, leads to no array with an element that is an object
whose first `Name` member is the string `Setting` or a number equal to zero,
and to no object with a member named like the query; it then returns the zero
Status with `ErrParseFailed`. Otherwise the error is nil, whatever else the
element holds; this is so in particular when the array read through the first
members of these names has an element with Name equal to `Setting`. -/
theorem C5_parse_fails_iff_no_setting (nv : NumberView) (resp : Json) :
    ((parseDSLStatusGeneralJSON nv resp).2 ≠ none ↔
      ¬ ∃ sec, IsGeneralSection resp sec ∧ HoldsSetting sec) ∧
    ((parseDSLStatusGeneralJSON nv resp).2 ≠ none →
      parseDSLStatusGeneralJSON nv resp = ({}, some .ErrParseFailed)) ∧
    ((∃ sec, IsGeneralSection resp sec ∧ HoldsSetting sec) →
      (parseDSLStatusGeneralJSON nv resp).2 = none) ∧
    ((∃ e ∈ generalElems resp, HasNameSetting e) →
      (parseDSLStatusGeneralJSON nv resp).2 = none) := by
  have hiff : (parseDSLStatusGeneralJSON nv resp).2 ≠ none ↔
      ¬ ∃ sec, IsGeneralSection resp sec ∧ HoldsSetting sec := by
    rw [parse_err_iff, getSetting_eq_none_iff]
  have hok : (∃ sec, IsGeneralSection resp sec ∧ HoldsSetting sec) →
      (parseDSLStatusGeneralJSON nv resp).2 = none := by
    intro h
    by_contra hne
    exact hiff.mp hne h
  refine ⟨hiff, ?_, hok, ?_⟩
  · intro h
    rw [parse_err_iff] at h
    simp [parseDSLStatusGeneralJSON, h, Result.Exists]
  · rintro ⟨e, he, hn⟩
    obtain ⟨raw, elems, hsec, hmem⟩ := generalElems_section resp e he
    exact hok ⟨_, hsec, Or.inl ⟨raw, elems, rfl, e, hmem, isSettingElement_of_hasName e hn⟩⟩

/-- Witness for C5: a response whose only element is named `Other` fails, and
one with a `Setting` element whose tables are malformed succeeds. -/
theorem C5_parse_fails_witness :
    (parseDSLStatusGeneralJSON plainNumbers
        (responseDoc [.obj "" [("Name", .str "Other")]])).2 ≠ none ∧
    parseDSLStatusGeneralJSON plainNumbers (responseDoc [.obj "" [("Name", .str "Other")]])
      = ({}, some .ErrParseFailed) ∧
    (parseDSLStatusGeneralJSON plainNumbers
        (responseDoc [.obj "" [("Name", .str "Setting"), ("Stream_Table", .num "7"),
          ("End_Table", .str "x")]])).2 = none := by
  have h1 : (parseDSLStatusGeneralJSON plainNumbers
      (responseDoc [.obj "" [("Name", .str "Other")]])).2 ≠ none := by decide
  refine ⟨h1, (C5_parse_fails_iff_no_setting plainNumbers _).2.1 h1, ?_⟩
  refine (C5_parse_fails_iff_no_setting plainNumbers _).2.2.2
    ⟨.obj "" [("Name", .str "Setting"), ("Stream_Table", .num "7"), ("End_Table", .str "x")],
      ?_, ⟨_, _, rfl, rfl⟩⟩
  have h2 : generalElems (responseDoc [.obj "" [("Name", .str "Setting"),
      ("Stream_Table", .num "7"), ("End_Table", .str "x")]]) =
      [.obj "" [("Name", .str "Setting"), ("Stream_Table", .num "7"),
        ("End_Table", .str "x")]] := rfl
  rw [h2]
  exact List.mem_singleton_self _

/-! ## Lemmas: strings.Fields -/

theorem fieldsFrom_spaces (ws rest : List Char) (h : ∀ c ∈ ws, isSpace c = true) :
    fieldsFrom (ws ++ rest) [] = fieldsFrom rest [] := by
  induction ws with
  | nil => rfl
  | cons c t ih =>
    have hc : isSpace c = true := h c (List.mem_cons_self _ _)
    simp only [List.cons_append, fieldsFrom, hc, if_true]
    exact ih (fun x hx => h x (List.mem_cons_of_mem _ hx))

theorem fieldsFrom_token (tok rest cur : List Char) (h : ∀ c ∈ tok, isSpace c = false) :
    fieldsFrom (tok ++ rest) cur = fieldsFrom rest (cur ++ tok) := by
  induction tok generalizing cur with
  | nil => simp
  | cons c t ih =>
    have hc : isSpace c = false := h c (List.mem_cons_self _ _)
    simp only [List.cons_append, fieldsFrom, hc, Bool.false_eq_true, if_false, List.append_eq]
    rw [ih (cur ++ [c]) (fun x hx => h x (List.mem_cons_of_mem _ hx))]
    simp

theorem fieldsFrom_end_spaces (ws cur : List Char) (h : ∀ c ∈ ws, isSpace c = true)
    (hcur : cur ≠ []) : fieldsFrom ws cur = [cur] := by
  cases ws with
  | nil => simp [fieldsFrom, hcur]
  | cons c t =>
    have hc : isSpace c = true := h c (List.mem_cons_self _ _)
    simp only [fieldsFrom, hc, if_true, hcur, if_false]
    have := fieldsFrom_spaces t [] (fun x hx => h x (List.mem_cons_of_mem _ hx))
    simp only [List.append_nil] at this
    rw [this]
    rfl

theorem Fields_of_two_tokens (s : String) (a b : List Char) (h : IsTwoTokens s a b) :
    Fields s = [String.mk a, String.mk b] := by
  obtain ⟨ws0, ws1, ws2, rfl, h0, h1, h2, hne, ha, hb, hsa, hsb⟩ := h
  unfold Fields
  show List.map String.mk (fieldsFrom (ws0 ++ a ++ ws1 ++ b ++ ws2) []) = _
  cases ws1 with
  | nil => exact absurd rfl hne
  | cons c t =>
    have hc : isSpace c = true := h1 c (List.mem_cons_self _ _)
    have ht : ∀ x ∈ t, isSpace x = true := fun x hx => h1 x (List.mem_cons_of_mem _ hx)
    have e1 : ws0 ++ a ++ c :: t ++ b ++ ws2 = ws0 ++ (a ++ (c :: (t ++ (b ++ ws2)))) := by
      simp
    rw [e1, fieldsFrom_spaces _ _ h0, fieldsFrom_token _ _ _ hsa]
    simp only [List.nil_append, fieldsFrom, hc, if_true, ha, if_false]
    rw [fieldsFrom_spaces _ _ ht, fieldsFrom_token _ _ _ hsb]
    simp only [List.nil_append]
    rw [fieldsFrom_end_spaces _ _ h2 hb]
    rfl

theorem isSpace_of_isDecDigit (c : Char) (h : isDecDigit c = true) : isSpace c = false := by
  simp only [isDecDigit, Bool.and_eq_true, decide_eq_true_eq] at h
  simp only [isSpace, Bool.or_eq_false_iff, Bool.and_eq_false_iff, decide_eq_false_iff_not,
    beq_eq_false_iff_ne]
  omega

/-! ## Lemmas: strconv.Atoi -/

theorem le_digitsValue (cs : List Char) (n : Nat) : n ≤ digitsValue cs n := by
  induction cs generalizing n with
  | nil => exact Nat.le_refl _
  | cons c t ih =>
    have := ih (n * 10 + (c.toNat - 48))
    simp only [digitsValue, List.foldl] at this ⊢
    omega

theorem parseUintFrom_ok (cs : List Char) (n : Nat) (hd : ∀ c ∈ cs, isDecDigit c = true)
    (hv : digitsValue cs n < 2 ^ 64) : parseUintFrom cs n = .ok (digitsValue cs n) := by
  induction cs generalizing n with
  | nil => rfl
  | cons c t ih =>
    have hc : isDecDigit c = true := hd c (List.mem_cons_self _ _)
    have hv' : digitsValue t (n * 10 + (c.toNat - 48)) < 2 ^ 64 := hv
    have hle := le_digitsValue t (n * 10 + (c.toNat - 48))
    have h1 : ¬ (n ≥ (2 ^ 64 - 1) / 10 + 1) := by
      norm_num at hv' ⊢
      omega
    have h2 : ¬ (n * 10 + (c.toNat - 48) ≥ 2 ^ 64) := by omega
    simp only [parseUintFrom, hc, Bool.not_true, Bool.false_eq_true, if_false, h1, h2]
    exact ih _ (fun x hx => hd x (List.mem_cons_of_mem _ hx)) hv'

theorem parseUintFrom_digits (cs : List Char) (n m : Nat)
    (h : parseUintFrom cs n = .ok m) : ∀ c ∈ cs, isDecDigit c = true := by
  induction cs generalizing n with
  | nil => intro c hc; cases hc
  | cons c t ih =>
    simp only [parseUintFrom] at h
    split at h
    · cases h
    · rename_i hc
      split at h
      · cases h
      · split at h
        · cases h
        · intro x hx
          rcases List.mem_cons.mp hx with rfl | hx
          · simpa using hc
          · exact ih _ h x hx

theorem splitSign_spec (cs : List Char) :
    ∃ sign, cs = sign ++ (splitSign cs).2 ∧ (sign = [] ∨ sign = ['+'] ∨ sign = ['-']) := by
  cases cs with
  | nil => exact ⟨[], rfl, Or.inl rfl⟩
  | cons c t =>
    by_cases h1 : c = '+'
    · exact ⟨['+'], by simp [splitSign, h1], Or.inr (Or.inl rfl)⟩
    · by_cases h2 : c = '-'
      · exact ⟨['-'], by simp [splitSign, h2], Or.inr (Or.inr rfl)⟩
      · exact ⟨[], by simp [splitSign, h1, h2], Or.inl rfl⟩

theorem Atoi_ok_isDecimalInteger (tok : String) (x : Int) (h : Atoi tok = .ok x) :
    IsDecimalInteger tok := by
  obtain ⟨sign, hs, hsign⟩ := splitSign_spec tok.toList
  by_cases hne : (splitSign tok.toList).2 = []
  · have h' : Atoi tok = .error .ErrSyntax := by simp only [Atoi, hne, if_true]
    rw [h'] at h
    cases h
  · cases hp : parseUintFrom (splitSign tok.toList).2 0 with
    | error e =>
      simp only [Atoi, hne, if_false, hp] at h
      cases e <;> cases h
    | ok un => exact ⟨sign, _, hs, hsign, hne, parseUintFrom_digits _ _ _ hp⟩

theorem digitChar_isDecDigit (k : Nat) (hk : k < 10) :
    isDecDigit (Nat.digitChar k) = true ∧ (Nat.digitChar k).toNat - 48 = k := by
  interval_cases k <;> decide

theorem toDigitsCore_append (fuel n : Nat) (ds : List Char) :
    Nat.toDigitsCore 10 fuel n ds = Nat.toDigitsCore 10 fuel n [] ++ ds := by
  induction fuel generalizing n ds with
  | zero => simp [Nat.toDigitsCore]
  | succ f ih =>
    simp only [Nat.toDigitsCore]
    split
    · simp
    · rw [ih (n / 10) (Nat.digitChar (n % 10) :: ds), ih (n / 10) [Nat.digitChar (n % 10)]]
      simp

theorem digitsValue_append_single (cs : List Char) (c : Char) (n : Nat) :
    digitsValue (cs ++ [c]) n = digitsValue cs n * 10 + (c.toNat - 48) := by
  simp [digitsValue, List.foldl_append]

theorem toDigitsCore_value (fuel n : Nat) (h : n < fuel) :
    (∀ c ∈ Nat.toDigitsCore 10 fuel n [], isDecDigit c = true) ∧
    digitsValue (Nat.toDigitsCore 10 fuel n []) 0 = n ∧
    Nat.toDigitsCore 10 fuel n [] ≠ [] := by
  induction fuel generalizing n with
  | zero => omega
  | succ f ih =>
    have hd := digitChar_isDecDigit (n % 10) (Nat.mod_lt _ (by decide))
    simp only [Nat.toDigitsCore]
    split
    · rename_i h0
      refine ⟨?_, ?_, by simp⟩
      · intro c hc
        simp only [List.mem_singleton] at hc
        rw [hc]; exact hd.1
      · simp only [digitsValue, List.foldl, Nat.zero_mul, Nat.zero_add]
        rw [hd.2]
        omega
    · rename_i h0
      have hlt : n / 10 < f := by omega
      obtain ⟨i1, i2, _⟩ := ih (n / 10) hlt
      rw [toDigitsCore_append]
      refine ⟨?_, ?_, by simp⟩
      · intro c hc
        rcases List.mem_append.mp hc with hc | hc
        · exact i1 c hc
        · simp only [List.mem_singleton] at hc
          rw [hc]; exact hd.1
      · rw [digitsValue_append_single, i2, hd.2]
        omega

theorem splitSign_of_digits (cs : List Char) (h : ∀ c ∈ cs, isDecDigit c = true) :
    splitSign cs = (false, cs) := by
  cases cs with
  | nil => rfl
  | cons c t =>
    have hc : isDecDigit c = true := h c (List.mem_cons_self _ _)
    have h1 : c ≠ '+' := by rintro rfl; exact absurd hc (by decide)
    have h2 : c ≠ '-' := by rintro rfl; exact absurd hc (by decide)
    simp [splitSign, h1, h2]

theorem Atoi_of_digits (cs : List Char) (hd : ∀ c ∈ cs, isDecDigit c = true) (hne : cs ≠ [])
    (hv : digitsValue cs 0 < 2 ^ 63) : Atoi (String.mk cs) = .ok (digitsValue cs 0 : Int) := by
  have hp := parseUintFrom_ok cs 0 hd (by omega)
  have hv' : ¬ (9223372036854775808 ≤ digitsValue cs 0) := by norm_num at hv; omega
  simp [Atoi, String.toList, splitSign_of_digits cs hd, hne, hp, hv']

theorem Atoi_of_neg_digits (cs : List Char) (hd : ∀ c ∈ cs, isDecDigit c = true)
    (hne : cs ≠ []) (hv : digitsValue cs 0 ≤ 2 ^ 63) :
    Atoi (String.mk ('-' :: cs)) = .ok (-(digitsValue cs 0 : Int)) := by
  have hp := parseUintFrom_ok cs 0 hd (by omega)
  have hv' : ¬ (9223372036854775808 < digitsValue cs 0) := by norm_num at hv; omega
  simp [Atoi, String.toList, splitSign, hne, hp, hv']

/-- The characters of the decimal representation of an integer. -/
theorem toString_int_chars (N : Int) :
    (toString N).toList =
      (if N < 0 then ['-'] else []) ++ Nat.toDigits 10 N.natAbs := by
  cases N with
  | ofNat m =>
    have : ¬ ((Int.ofNat m) < 0) := by simp
    simp only [this, if_false, List.nil_append]
    rfl
  | negSucc m =>
    have : (Int.negSucc m) < 0 := Int.negSucc_lt_zero m
    simp only [this, if_true]
    rfl

theorem Atoi_toString (N : Int) (h1 : -(2 : Int) ^ 63 ≤ N) (h2 : N < 2 ^ 63) :
    Atoi (toString N) = .ok N := by
  obtain ⟨hd, hval, hne⟩ := toDigitsCore_value (N.natAbs + 1) N.natAbs (Nat.lt_succ_self _)
  have hs : toString N = String.mk ((toString N).toList) := rfl
  rw [hs, toString_int_chars]
  by_cases hN : N < 0
  · simp only [hN, if_true, List.singleton_append]
    have := Atoi_of_neg_digits (Nat.toDigits 10 N.natAbs) hd hne (by
      show digitsValue (Nat.toDigitsCore 10 (N.natAbs + 1) N.natAbs []) 0 ≤ 2 ^ 63
      rw [hval]; omega)
    rw [this]
    show Except.ok (-(digitsValue (Nat.toDigitsCore 10 (N.natAbs + 1) N.natAbs []) 0 : Int)) = _
    rw [hval]
    congr 1
    omega
  · simp only [hN, if_false, List.nil_append]
    have := Atoi_of_digits (Nat.toDigits 10 N.natAbs) hd hne (by
      show digitsValue (Nat.toDigitsCore 10 (N.natAbs + 1) N.natAbs []) 0 < 2 ^ 63
      rw [hval]; omega)
    rw [this]
    show Except.ok ((digitsValue (Nat.toDigitsCore 10 (N.natAbs + 1) N.natAbs []) 0 : Nat) : Int) = _
    rw [hval]
    congr 1
    omega

theorem toString_int_nonspace (N : Int) : ∀ c ∈ (toString N).toList, isSpace c = false := by
  obtain ⟨hd, _, _⟩ := toDigitsCore_value (N.natAbs + 1) N.natAbs (Nat.lt_succ_self _)
  rw [toString_int_chars]
  intro c hc
  rcases List.mem_append.mp hc with hc | hc
  · split at hc
    · simp only [List.mem_singleton] at hc
      rw [hc]; decide
    · cases hc
  · exact isSpace_of_isDecDigit c (hd c hc)

theorem toString_int_ne_nil (N : Int) : (toString N).toList ≠ [] := by
  obtain ⟨_, _, hne⟩ := toDigitsCore_value (N.natAbs + 1) N.natAbs (Nat.lt_succ_self _)
  rw [toString_int_chars]
  intro h
  exact hne (List.append_eq_nil.mp h).2

theorem wrapInt64_of_range (z : Int) (h1 : -(2 : Int) ^ 63 ≤ z) (h2 : z < 2 ^ 63) :
    wrapInt64 z = z := by
  unfold wrapInt64
  rw [Int.emod_eq_of_lt (by omega) (by omega)]
  omega

/-! ## Theorems: the unit helpers -/

theorem not_isDecimalInteger_of_head (tok : String) (c : Char) (t : List Char)
    (h : tok.toList = c :: t) (hc : isDecDigit c = false) (h1 : c ≠ '+') (h2 : c ≠ '-') :
    ¬ IsDecimalInteger tok := by
  rintro ⟨sign, digits, heq, hsign, hne, hd⟩
  rw [h] at heq
  rcases hsign with rfl | rfl | rfl
  · cases digits with
    | nil => exact hne rfl
    | cons d ds =>
      simp only [List.nil_append, List.cons.injEq] at heq
      have := hd d (List.mem_cons_self _ _)
      rw [← heq.1, hc] at this
      exact Bool.noConfusion this
  · simp only [List.singleton_append, List.cons.injEq] at heq
    exact h1 heq.1
  · simp only [List.singleton_append, List.cons.injEq] at heq
    exact h2 heq.1

/-- C6: for every string made of exactly two whitespace-separated tokens, the
first being the decimal representation of an integer `N` with `N * 1000` in
the range of `int`, `parseKbps` returns `N * 1000`, whatever the second token
and the amount of whitespace; in particular `12000 Kbps` gives 12000000. -/
theorem C6_parseKbps_scales_by_1000 (s : String) (N : Int) (unit : List Char)
    (htok : IsTwoTokens s (toString N).toList unit)
    (hlo : -(2 : Int) ^ 63 ≤ N * 1000) (hhi : N * 1000 < 2 ^ 63) :
    parseKbps s = N * 1000 ∧ parseKbps "12000 Kbps" = 12000000 := by
  refine ⟨?_, by decide⟩
  have hf := Fields_of_two_tokens s _ _ htok
  have ha : Atoi (String.mk (toString N).toList) = .ok N :=
    Atoi_toString N (by omega) (by omega)
  simp only [parseKbps, hf, List.length_cons, List.length_nil, List.headD_cons, ha]
  simp only [Nat.reduceAdd, ne_eq, not_true_eq_false, if_false]
  exact wrapInt64_of_range _ hlo hhi

/-- Witness for C6: `-42` with tabs and newlines around the tokens. -/
theorem C6_parseKbps_witness :
    parseKbps " \t-42 \n kbit/s\n" = -42 * 1000 :=
  (C6_parseKbps_scales_by_1000 " \t-42 \n kbit/s\n" (-42) "kbit/s".toList
    ⟨[' ', '\t'], [' ', '\n', ' '], ['\n'], by decide, by decide, by decide, by decide,
      by decide, by decide, by decide, by decide, by decide⟩
    (by decide) (by decide)).1

/-- C7: `parseKbps` is total and returns 0 for every string whose number of
whitespace-separated tokens is not two, and for every two-token string whose
first token is not a decimal integer literal. -/
theorem C7_parseKbps_zero_on_malformed (s : String)
    (h : (Fields s).length ≠ 2 ∨ ∃ a b, Fields s = [a, b] ∧ ¬ IsDecimalInteger a) :
    parseKbps s = 0 := by
  rcases h with h | ⟨a, b, hf, hna⟩
  · simp [parseKbps, h]
  · cases ha : Atoi a with
    | error e => simp [parseKbps, hf, ha]
    | ok x => exact absurd (Atoi_ok_isDecimalInteger a x ha) hna

/-- Witness for C7: the empty string, one token, three tokens, and two tokens
whose first is not an integer. -/
theorem C7_parseKbps_zero_witness :
    parseKbps "" = 0 ∧ parseKbps "12000" = 0 ∧ parseKbps "12000 Kbps down" = 0 ∧
    parseKbps "abc Kbps" = 0 ∧ parseKbps "12.5 Kbps" = 0 :=
  ⟨C7_parseKbps_zero_on_malformed "" (Or.inl (by decide)),
   C7_parseKbps_zero_on_malformed "12000" (Or.inl (by decide)),
   C7_parseKbps_zero_on_malformed "12000 Kbps down" (Or.inl (by decide)),
   C7_parseKbps_zero_on_malformed "abc Kbps" (Or.inr ⟨"abc", "Kbps", by decide,
     not_isDecimalInteger_of_head "abc" 'a' ['b', 'c'] rfl (by decide) (by decide)
       (by decide)⟩),
   C7_parseKbps_zero_on_malformed "12.5 Kbps" (Or.inr ⟨"12.5", "Kbps", by decide, by
     rintro ⟨sign, digits, heq, hsign, _, hd⟩
     have hmem : '.' ∈ sign ++ digits := by rw [← heq]; decide
     rcases List.mem_append.mp hmem with hm | hm
     · rcases hsign with rfl | rfl | rfl <;> simp at hm
     · exact absurd (hd _ hm) (by decide)⟩)⟩

/-! ## Lemmas: strconv.ParseFloat on decimal literals -/

theorem isDecDigit_props (c : Char) (h : isDecDigit c = true) :
    c ≠ '+' ∧ c ≠ '-' ∧ c ≠ '_' ∧ c ≠ '.' ∧ asciiLower c = c ∧ c ≠ 'i' ∧ c ≠ 'n' ∧
    c ≠ 'x' ∧ c ≠ 'e' := by
  have hr : 48 ≤ c.toNat ∧ c.toNat ≤ 57 := by
    simpa [isDecDigit] using h
  have key : ∀ d : Char, ¬ (48 ≤ d.toNat ∧ d.toNat ≤ 57) → c ≠ d := by
    rintro d hd rfl
    exact hd hr
  refine ⟨key _ (by decide), key _ (by decide), key _ (by decide), key _ (by decide), ?_,
    key _ (by decide), key _ (by decide), key _ (by decide), key _ (by decide)⟩
  have : ¬ (65 ≤ c.toNat ∧ c.toNat ≤ 90) := by omega
  simp [asciiLower, this]

theorem readMantissa_digits (ds rest : List Char) (m f : Nat) (dot sd u : Bool)
    (h : ∀ c ∈ ds, isDecDigit c = true) :
    readMantissa false (ds ++ rest) ⟨m, f, dot, sd, u⟩ =
      readMantissa false rest
        ⟨digitsValue ds m, if dot then f + ds.length else f, dot, sd || !ds.isEmpty, u⟩ := by
  induction ds generalizing m f sd with
  | nil => simp [digitsValue]
  | cons c t ih =>
    have hc : isDecDigit c = true := h c (List.mem_cons_self _ _)
    obtain ⟨_, _, h3, h4, _⟩ := isDecDigit_props c hc
    simp only [List.cons_append, readMantissa, h3, h4, if_false, mantDigit, hc, if_true,
      Bool.false_eq_true, List.append_eq]
    rw [ih _ _ _ (fun x hx => h x (List.mem_cons_of_mem _ hx))]
    congr 2
    · cases dot
      · simp
      · simp only [if_true, List.length_cons]
        omega
    · simp

theorem mantChar_props (c : Char) (h : isDecDigit c = true ∨ c = '.') :
    c ≠ '+' ∧ c ≠ '-' ∧ asciiLower c ≠ 'x' ∧ asciiLower c ≠ 'i' ∧ asciiLower c ≠ 'n' ∧
    isSpace c = false := by
  rcases h with h | rfl
  · obtain ⟨h1, h2, _, _, h5, h6, h7, h8, _⟩ := isDecDigit_props c h
    rw [h5]
    exact ⟨h1, h2, h8, h6, h7, isSpace_of_isDecDigit c h⟩
  · decide

theorem hasHexPrefix_mantChars (body : List Char)
    (h : ∀ c ∈ body, isDecDigit c = true ∨ c = '.') : hasHexPrefix body = false := by
  match body with
  | [] => rfl
  | [_] => rfl
  | [_, _] => rfl
  | z :: x :: y :: r =>
    have hx := (mantChar_props x (h x (by simp))).2.2.1
    simp [hasHexPrefix, hx]

theorem special_mantChars (sign body : List Char)
    (hsign : sign = [] ∨ sign = ['+'] ∨ sign = ['-'])
    (h : ∀ c ∈ body, isDecDigit c = true ∨ c = '.') (hne : body ≠ []) :
    special (sign ++ body) = none := by
  cases body with
  | nil => exact absurd rfl hne
  | cons c t =>
    obtain ⟨h1, h2, _, h4, h5, _⟩ := mantChar_props c (h c (List.mem_cons_self _ _))
    have hinf : isInfWord (c :: t) = false := by
      simp [isInfWord, h4]
    have hnan : isNanWord (c :: t) = false := by
      simp [isNanWord, h5]
    rcases hsign with rfl | rfl | rfl
    · simp [special, h1, h2, hinf, hnan]
    · simp [special, hinf]
    · simp [special, hinf]

theorem splitSign_mantChars (sign body : List Char)
    (hsign : sign = [] ∨ sign = ['+'] ∨ sign = ['-'])
    (h : ∀ c ∈ body, isDecDigit c = true ∨ c = '.') :
    splitSign (sign ++ body) = (decide (sign = ['-']), body) := by
  rcases hsign with rfl | rfl | rfl
  · cases body with
    | nil => rfl
    | cons c t =>
      obtain ⟨h1, h2, _⟩ := mantChar_props c (h c (List.mem_cons_self _ _))
      simp [splitSign, h1, h2]
  · simp [splitSign]
  · simp [splitSign]

theorem digitsValue_append (a b : List Char) (n : Nat) :
    digitsValue (a ++ b) n = digitsValue b (digitsValue a n) := by
  simp [digitsValue, List.foldl_append]

theorem readMantissa_decimal (ip : List Char) (fd : Option (List Char))
    (hd : ∀ c ∈ decimalDigits ip fd, isDecDigit c = true) (hne : decimalDigits ip fd ≠ []) :
    readMantissa false (ip ++ fractionPart fd) {} =
      (⟨digitsValue (decimalDigits ip fd) 0, (fd.getD []).length, fd.isSome, true, false⟩, []) := by
  cases fd with
  | none =>
    simp only [decimalDigits, Option.getD_none, List.append_nil, fractionPart] at hd hne ⊢
    have := readMantissa_digits ip [] 0 0 false false false hd
    simp only [List.append_nil] at this
    rw [this]
    cases ip with
    | nil => exact absurd rfl hne
    | cons c t => simp [readMantissa]
  | some f =>
    simp only [decimalDigits, Option.getD_some, fractionPart] at hd hne ⊢
    have hip : ∀ c ∈ ip, isDecDigit c = true := fun c hc => hd c (List.mem_append_left _ hc)
    have hf : ∀ c ∈ f, isDecDigit c = true := fun c hc => hd c (List.mem_append_right _ hc)
    rw [readMantissa_digits ip ('.' :: f) 0 0 false false false hip]
    have h2 := readMantissa_digits f [] (digitsValue ip 0) 0 true (false || !ip.isEmpty) false hf
    simp only [List.append_nil] at h2
    have hdot : ('.' : Char) ≠ '_' := by decide
    have hsd : (false || !ip.isEmpty || !f.isEmpty) = true := by
      cases ip with
      | nil =>
        cases f with
        | nil => exact absurd rfl hne
        | cons _ _ => rfl
      | cons _ _ => rfl
    rw [hsd] at h2
    simp only [readMantissa, hdot, if_false, if_true, Bool.false_eq_true, h2,
      digitsValue_append, Nat.zero_add, Option.isSome_some]

theorem decimal_body_chars (ip : List Char) (fd : Option (List Char))
    (hd : ∀ c ∈ decimalDigits ip fd, isDecDigit c = true) :
    ∀ c ∈ ip ++ fractionPart fd, isDecDigit c = true ∨ c = '.' := by
  intro c hc
  cases fd with
  | none =>
    simp only [fractionPart, List.append_nil] at hc
    exact Or.inl (hd c (by simpa [decimalDigits] using hc))
  | some f =>
    simp only [fractionPart, List.mem_append, List.mem_cons] at hc
    rcases hc with hc | rfl | hc
    · exact Or.inl (hd c (by simp [decimalDigits, hc]))
    · exact Or.inr rfl
    · exact Or.inl (hd c (by simp [decimalDigits, hc]))

theorem decimal_body_ne_nil (ip : List Char) (fd : Option (List Char))
    (hne : decimalDigits ip fd ≠ []) : ip ++ fractionPart fd ≠ [] := by
  cases fd with
  | none => simpa [decimalDigits, fractionPart] using hne
  | some f => simp [fractionPart]

theorem readFloat_decimal (sign ip : List Char) (fd : Option (List Char))
    (h : IsDecimalNumber sign ip fd) :
    readFloat (decimalToken sign ip fd) =
      some ⟨decide (sign = ['-']), false, digitsValue (decimalDigits ip fd) 0,
        -((fd.getD []).length : Int)⟩ := by
  obtain ⟨hsign, hd, hne⟩ := h
  have hbody := decimal_body_chars ip fd hd
  have hss := splitSign_mantChars sign _ hsign hbody
  have hhex := hasHexPrefix_mantChars _ hbody
  have hrm := readMantissa_decimal ip fd hd hne
  unfold readFloat decimalToken
  simp only [List.append_assoc, hss, hhex, Bool.false_eq_true, if_false, hrm]
  simp

theorem toFloat64_decimal (neg : Bool) (D k : Nat) :
    FloatLit.toFloat64 ⟨neg, false, D, -(k : Int)⟩ = Float64.round neg D (10 ^ k) := by
  cases k with
  | zero => simp [FloatLit.toFloat64]
  | succ n =>
    have h1 : ¬ (0 : Int) ≤ -((n + 1 : Nat) : Int) := by omega
    have h2 : (-(-((n + 1 : Nat) : Int))).toNat = n + 1 := by omega
    simp only [FloatLit.toFloat64, h1, if_false, h2, Bool.false_eq_true]

theorem ParseFloat_decimal (sign ip : List Char) (fd : Option (List Char))
    (h : IsDecimalNumber sign ip fd) :
    ParseFloat (String.mk (decimalToken sign ip fd)) =
      match decimalNearest sign ip fd with
      | some f => .ok f
      | none => .error .ErrRange := by
  have hrf := readFloat_decimal sign ip fd h
  obtain ⟨hsign, hd, hne⟩ := h
  have hsp : special (decimalToken sign ip fd) = none := by
    unfold decimalToken
    rw [List.append_assoc]
    exact special_mantChars _ _ hsign (decimal_body_chars ip fd hd)
      (decimal_body_ne_nil ip fd hne)
  simp only [ParseFloat, String.toList, hsp, hrf, toFloat64_decimal, decimalNearest]

/-! ## Theorems: parsedB -/

set_option maxRecDepth 8000 in
/-- Counterexample for C8: the decimal number written as 1 followed by 309
zeros is beyond the binary64 range; `ParseFloat` reports a range error and
`parsedB` returns 0, which is not the value of that (positive) number. -/
theorem C8_counterexample_out_of_range :
    IsDecimalNumber [] ('1' :: List.replicate 309 '0') none ∧
    0 < digitsValue (decimalDigits ('1' :: List.replicate 309 '0') none) 0 ∧
    Fields (String.mk ('1' :: List.replicate 309 '0' ++ [' ', 'd', 'B'])) =
      [String.mk ('1' :: List.replicate 309 '0'), "dB"] ∧
    ParseFloat (String.mk ('1' :: List.replicate 309 '0')) = .error .ErrRange ∧
    parsedB (String.mk ('1' :: List.replicate 309 '0' ++ [' ', 'd', 'B'])) = .zero false := by
  refine ⟨⟨by decide, by decide, by decide⟩, by decide, by decide, by rfl, by decide⟩

/-- C8 (amended): `parsedB` returns 0 for every string whose number of
whitespace-separated tokens is not two and for every two-token string whose
first token `ParseFloat` rejects; for every two-token string whose first token
is a decimal number it returns the binary64 nearest to the value of that token
when this is within the binary64 range, and 0 when it is beyond, whatever the
second token. `5.3 dB` and `5.3 xyz` give the binary64 nearest to 5.3, and
`abc dB` gives 0. -/
theorem C8_parsedB_value_or_zero (s : String) :
    ((Fields s).length ≠ 2 → parsedB s = .zero false) ∧
    (∀ a b e, Fields s = [a, b] → ParseFloat a = .error e → parsedB s = .zero false) ∧
    (∀ sign ip fd unit, IsDecimalNumber sign ip fd →
      IsTwoTokens s (decimalToken sign ip fd) unit →
      parsedB s = (decimalNearest sign ip fd).getD (.zero false)) ∧
    parsedB "5.3 dB" = .finite false 5967269506265907 (-50) ∧
    parsedB "5.3 xyz" = .finite false 5967269506265907 (-50) ∧
    Float64.round false 53 10 = some (.finite false 5967269506265907 (-50)) ∧
    parsedB "abc dB" = .zero false := by
  refine ⟨?_, ?_, ?_, by decide, by decide, by decide, by decide⟩
  · intro h
    simp [parsedB, h]
  · intro a b e hf ha
    simp [parsedB, hf, ha]
  · intro sign ip fd unit hdec htok
    have hf := Fields_of_two_tokens s _ _ htok
    have hp := ParseFloat_decimal sign ip fd hdec
    simp only [parsedB, hf, List.length_cons, List.length_nil, List.headD_cons, hp]
    cases decimalNearest sign ip fd <;> simp

/-- Witness for C8: `-17.25` followed by an unusual unit, with tabs around. -/
theorem C8_parsedB_witness :
    parsedB "\t-17.25  dBm\n" = .finite true 4855443348258816 (-48) := by
  have h := (C8_parsedB_value_or_zero "\t-17.25  dBm\n").2.2.1 ['-'] ['1', '7']
    (some ['2', '5']) ['d', 'B', 'm'] ⟨by decide, by decide, by decide⟩
    ⟨['\t'], [' ', ' '], ['\n'], by decide, by decide, by decide, by decide,
      by decide, by decide, by decide, by decide, by decide⟩
  rw [h]
  decide

/-! ## Lemmas: Go strings -/

theorem GoString.text_coe (s : String) : (s : GoString).text = s := rfl

theorem GoString.ne_coe_of_text_ne (g : GoString) (lit : String) (h : ¬ g.text = lit) :
    ¬ g = (lit : GoString) := by
  intro he
  apply h
  rw [he]
  rfl

theorem GoString.foldl_text_mem (c : Char) (ps : List (Nat × String)) (acc : String)
    (h : c ∈ acc.toList) :
    c ∈ (ps.foldl (fun acc p => acc ++ "\uFFFD" ++ p.2) acc).toList := by
  induction ps generalizing acc with
  | nil => exact h
  | cons p rest ih =>
    apply ih
    simp only [String.toList, String.data_append, List.mem_append] at h ⊢
    exact Or.inl (Or.inl h)

/-- A Go string whose text is a given text without U+FFFD is that text: every
byte of it decodes. Comparing a Go string with such a constant is comparing
its text. -/
theorem GoString.eq_coe_of_text_eq (g : GoString) (lit : String)
    (hl : '\uFFFD' ∉ lit.toList) (h : g.text = lit) : g = (lit : GoString) := by
  obtain ⟨head, rest⟩ := g
  cases rest with
  | nil =>
    have : head = lit := h
    subst this
    rfl
  | cons p ps =>
    exfalso
    apply hl
    rw [← h]
    have hmem : '\uFFFD' ∈ (head ++ "\uFFFD" ++ p.2).toList := by
      simp only [String.toList, String.data_append, List.mem_append]
      refine Or.inl (Or.inr ?_)
      decide
    exact GoString.foldl_text_mem _ ps _ hmem

/-! ## Lemmas: the table loops -/

theorem streamStep_unrecognized (nv : NumberView) (st : Status) (row : Json)
    (h : rowText nv row "Name" ∉ streamNames) : streamStep nv st (some row) = st := by
  simp only [rowText, streamNames, List.mem_cons, List.mem_singleton, List.not_mem_nil,
    or_false, not_or] at h
  have g1 := GoString.ne_coe_of_text_ne _ _ h.1
  have g2 := GoString.ne_coe_of_text_ne _ _ h.2.1
  have g3 := GoString.ne_coe_of_text_ne _ _ h.2.2
  simp [streamStep, g1, g2, g3]

theorem endStep_unrecognized (nv : NumberView) (st : Status) (row : Json)
    (h : rowText nv row "Name" ∉ endNames) : endStep nv st (some row) = st := by
  simp only [rowText, endNames, List.mem_cons, List.mem_singleton, List.not_mem_nil,
    or_false, not_or] at h
  obtain ⟨h1, h2, h3, h4, h5, h6, h7, h8, h9, h10, h11⟩ := h
  have g1 := GoString.ne_coe_of_text_ne _ _ h1
  have g2 := GoString.ne_coe_of_text_ne _ _ h2
  have g3 := GoString.ne_coe_of_text_ne _ _ h3
  have g4 := GoString.ne_coe_of_text_ne _ _ h4
  have g5 := GoString.ne_coe_of_text_ne _ _ h5
  have g6 := GoString.ne_coe_of_text_ne _ _ h6
  have g7 := GoString.ne_coe_of_text_ne _ _ h7
  have g8 := GoString.ne_coe_of_text_ne _ _ h8
  have g9 := GoString.ne_coe_of_text_ne _ _ h9
  have g10 := GoString.ne_coe_of_text_ne _ _ h10
  have g11 := GoString.ne_coe_of_text_ne _ _ h11
  simp [endStep, g1, g2, g3, g4, g5, g6, g7, g8, g9, g10, g11]

theorem statusOfSetting_eq (nv : NumberView) (value : Option Json) :
    statusOfSetting nv value =
      (Result.Array (Result.Get value "End_Table")).foldl (endStep nv)
        ((Result.Array (Result.Get value "Stream_Table")).foldl (streamStep nv)
          (infoStatus nv value)) := rfl

theorem infoStatus_congr (nv : NumberView) (v v' : Json) (table : String)
    (ht : table = "Stream_Table" ∨ table = "End_Table")
    (h : ∀ k, k ≠ table → Result.Get (some v') k = Result.Get (some v) k) :
    infoStatus nv (some v') = infoStatus nv (some v) := by
  have hk : ∀ k, k ≠ "Stream_Table" → k ≠ "End_Table" →
      Result.Get (some v') k = Result.Get (some v) k := by
    intro k h1 h2
    apply h
    rcases ht with rfl | rfl
    · exact h1
    · exact h2
  unfold infoStatus
  rw [hk "Status" (by decide) (by decide), hk "Mode" (by decide) (by decide),
    hk "Profile" (by decide) (by decide), hk "Annex" (by decide) (by decide),
    hk "DSL_Version" (by decide) (by decide)]

theorem statusOfSetting_stream (nv : NumberView) (v v' : Json) (rows rows' : List Json)
    (h : TableReplaced v v' "Stream_Table" rows rows') :
    statusOfSetting nv (some v) =
      (Result.Array (Result.Get (some v) "End_Table")).foldl (endStep nv)
        ((rows.map some).foldl (streamStep nv) (infoStatus nv (some v))) ∧
    statusOfSetting nv (some v') =
      (Result.Array (Result.Get (some v) "End_Table")).foldl (endStep nv)
        ((rows'.map some).foldl (streamStep nv) (infoStatus nv (some v))) := by
  obtain ⟨⟨raw, h1⟩, ⟨raw', h2⟩, h3⟩ := h
  constructor
  · rw [statusOfSetting_eq, h1]; rfl
  · rw [statusOfSetting_eq, h2, h3 "End_Table" (by decide),
      infoStatus_congr nv v v' "Stream_Table" (Or.inl rfl) h3]
    rfl

theorem statusOfSetting_end (nv : NumberView) (v v' : Json) (rows rows' : List Json)
    (h : TableReplaced v v' "End_Table" rows rows') :
    statusOfSetting nv (some v) =
      (rows.map some).foldl (endStep nv)
        ((Result.Array (Result.Get (some v) "Stream_Table")).foldl (streamStep nv)
          (infoStatus nv (some v))) ∧
    statusOfSetting nv (some v') =
      (rows'.map some).foldl (endStep nv)
        ((Result.Array (Result.Get (some v) "Stream_Table")).foldl (streamStep nv)
          (infoStatus nv (some v))) := by
  obtain ⟨⟨raw, h1⟩, ⟨raw', h2⟩, h3⟩ := h
  constructor
  · rw [statusOfSetting_eq, h1]; rfl
  · rw [statusOfSetting_eq, h2, h3 "Stream_Table" (by decide),
      infoStatus_congr nv v v' "End_Table" (Or.inr rfl) h3]
    rfl

/-- C9: unrecognized rows affect no field. When the settings element of a
response is changed only by inserting, at any position of `Stream_Table`, a
row whose Name is not one of the three stream names, or at any position of
`End_Table` a row whose Name is not one of the eleven end names (a row without
Name reads as the empty name), `parseDSLStatusGeneralJSON` returns the same
Status and error. -/
theorem C9_unrecognized_row_changes_nothing (nv : NumberView) (resp resp' v v' : Json)
    (table : String) (pre post : List Json) (row : Json)
    (hv : getSetting nv resp = some v) (hv' : getSetting nv resp' = some v')
    (hins : TableReplaced v v' table (pre ++ post) (pre ++ row :: post))
    (hrow : (table = "Stream_Table" ∧ rowText nv row "Name" ∉ streamNames) ∨
      (table = "End_Table" ∧ rowText nv row "Name" ∉ endNames)) :
    parseDSLStatusGeneralJSON nv resp' = parseDSLStatusGeneralJSON nv resp := by
  rw [parse_of_setting nv resp v hv, parse_of_setting nv resp' v' hv']
  congr 1
  rcases hrow with ⟨rfl, hname⟩ | ⟨rfl, hname⟩
  · obtain ⟨e1, e2⟩ := statusOfSetting_stream nv v v' _ _ hins
    rw [e1, e2]
    simp only [List.map_append, List.map_cons, List.foldl_append, List.foldl_cons,
      streamStep_unrecognized nv _ row hname]
  · obtain ⟨e1, e2⟩ := statusOfSetting_end nv v v' _ _ hins
    rw [e1, e2]
    simp only [List.map_append, List.map_cons, List.foldl_append, List.foldl_cons,
      endStep_unrecognized nv _ row hname]

theorem settingDoc_get_stream (s s' e : List Json) (k : String) (hk : k ≠ "Stream_Table") :
    Result.Get (some (settingDoc s' e)) k = Result.Get (some (settingDoc s e)) k := by
  have hk' : ¬ ("Stream_Table" = k) := fun h => hk h.symm
  simp only [settingDoc, Result.Get, lookupMember, hk', if_false]

theorem settingDoc_get_end (s e e' : List Json) (k : String) (hk : k ≠ "End_Table") :
    Result.Get (some (settingDoc s e')) k = Result.Get (some (settingDoc s e)) k := by
  have hk' : ¬ ("End_Table" = k) := fun h => hk h.symm
  simp only [settingDoc, Result.Get, lookupMember, hk', if_false]

/-- Witness for C9: a row named `Interleave Depth` inserted between two rows of
`Stream_Table`. -/
theorem C9_unrecognized_row_witness :
    parseDSLStatusGeneralJSON plainNumbers
        (responseDoc [settingDoc
          [streamRowDoc "Actual Rate" "55000 Kbps" "10000 Kbps",
           streamRowDoc "Interleave Depth" "1" "1",
           streamRowDoc "SNR Margin" "5.3 dB" "6 dB"]
          [endRowDoc "CRC" "12" "7"]]) =
      parseDSLStatusGeneralJSON plainNumbers
        (responseDoc [settingDoc
          [streamRowDoc "Actual Rate" "55000 Kbps" "10000 Kbps",
           streamRowDoc "SNR Margin" "5.3 dB" "6 dB"]
          [endRowDoc "CRC" "12" "7"]]) :=
  C9_unrecognized_row_changes_nothing plainNumbers _ _ _ _ "Stream_Table"
    [streamRowDoc "Actual Rate" "55000 Kbps" "10000 Kbps"]
    [streamRowDoc "SNR Margin" "5.3 dB" "6 dB"]
    (streamRowDoc "Interleave Depth" "1" "1") rfl rfl
    ⟨⟨"", rfl⟩, ⟨"", rfl⟩, fun k hk => settingDoc_get_stream _ _ _ k hk⟩
    (Or.inl ⟨rfl, by decide⟩)

theorem endFold_ActualRate (nv : NumberView) (rows : List (Option Json)) (st : Status)
    (x y : Int) :
    rows.foldl (endStep nv) { st with ActualRateDownstream := x, ActualRateUpstream := y } =
      { rows.foldl (endStep nv) st with ActualRateDownstream := x, ActualRateUpstream := y } := by
  induction rows generalizing st with
  | nil => rfl
  | cons r t ih =>
    simp only [List.foldl_cons]
    rw [← ih]
    congr 1
    unfold endStep
    by_cases h0 : Result.String nv (Result.Get r "Name") = "Attenuation"
    · rw [if_pos h0, if_pos h0]
    · rw [if_neg h0, if_neg h0]
      by_cases h1 : Result.String nv (Result.Get r "Name") = "CRC"
      · rw [if_pos h1, if_pos h1]
      · rw [if_neg h1, if_neg h1]
        by_cases h2 : Result.String nv (Result.Get r "Name") = "ES"
        · rw [if_pos h2, if_pos h2]
        · rw [if_neg h2, if_neg h2]
          by_cases h3 : Result.String nv (Result.Get r "Name") = "SES"
          · rw [if_pos h3, if_pos h3]
          · rw [if_neg h3, if_neg h3]
            by_cases h4 : Result.String nv (Result.Get r "Name") = "UAS"
            · rw [if_pos h4, if_pos h4]
            · rw [if_neg h4, if_neg h4]
              by_cases h5 : Result.String nv (Result.Get r "Name") = "HEC Errors"
              · rw [if_pos h5, if_pos h5]
              · rw [if_neg h5, if_neg h5]
                by_cases h6 : Result.String nv (Result.Get r "Name") = "LOS Failure"
                · rw [if_pos h6, if_pos h6]
                · rw [if_neg h6, if_neg h6]
                  by_cases h7 : Result.String nv (Result.Get r "Name") = "LOF Failure"
                  · rw [if_pos h7, if_pos h7]
                  · rw [if_neg h7, if_neg h7]
                    by_cases h8 : Result.String nv (Result.Get r "Name") = "LPR Failure"
                    · rw [if_pos h8, if_pos h8]
                    · rw [if_neg h8, if_neg h8]
                      by_cases h9 : Result.String nv (Result.Get r "Name") = "LCD Failure"
                      · rw [if_pos h9, if_pos h9]
                      · rw [if_neg h9, if_neg h9]
                        by_cases h10 : Result.String nv (Result.Get r "Name") = "RFEC"
                        · rw [if_pos h10, if_pos h10]
                        · rw [if_neg h10, if_neg h10]

theorem endFold_AttainableRate (nv : NumberView) (rows : List (Option Json)) (st : Status)
    (x y : Int) :
    rows.foldl (endStep nv) { st with AttainableRateDownstream := x, AttainableRateUpstream := y } =
      { rows.foldl (endStep nv) st with AttainableRateDownstream := x, AttainableRateUpstream := y } := by
  induction rows generalizing st with
  | nil => rfl
  | cons r t ih =>
    simp only [List.foldl_cons]
    rw [← ih]
    congr 1
    unfold endStep
    by_cases h0 : Result.String nv (Result.Get r "Name") = "Attenuation"
    · rw [if_pos h0, if_pos h0]
    · rw [if_neg h0, if_neg h0]
      by_cases h1 : Result.String nv (Result.Get r "Name") = "CRC"
      · rw [if_pos h1, if_pos h1]
      · rw [if_neg h1, if_neg h1]
        by_cases h2 : Result.String nv (Result.Get r "Name") = "ES"
        · rw [if_pos h2, if_pos h2]
        · rw [if_neg h2, if_neg h2]
          by_cases h3 : Result.String nv (Result.Get r "Name") = "SES"
          · rw [if_pos h3, if_pos h3]
          · rw [if_neg h3, if_neg h3]
            by_cases h4 : Result.String nv (Result.Get r "Name") = "UAS"
            · rw [if_pos h4, if_pos h4]
            · rw [if_neg h4, if_neg h4]
              by_cases h5 : Result.String nv (Result.Get r "Name") = "HEC Errors"
              · rw [if_pos h5, if_pos h5]
              · rw [if_neg h5, if_neg h5]
                by_cases h6 : Result.String nv (Result.Get r "Name") = "LOS Failure"
                · rw [if_pos h6, if_pos h6]
                · rw [if_neg h6, if_neg h6]
                  by_cases h7 : Result.String nv (Result.Get r "Name") = "LOF Failure"
                  · rw [if_pos h7, if_pos h7]
                  · rw [if_neg h7, if_neg h7]
                    by_cases h8 : Result.String nv (Result.Get r "Name") = "LPR Failure"
                    · rw [if_pos h8, if_pos h8]
                    · rw [if_neg h8, if_neg h8]
                      by_cases h9 : Result.String nv (Result.Get r "Name") = "LCD Failure"
                      · rw [if_pos h9, if_pos h9]
                      · rw [if_neg h9, if_neg h9]
                        by_cases h10 : Result.String nv (Result.Get r "Name") = "RFEC"
                        · rw [if_pos h10, if_pos h10]
                        · rw [if_neg h10, if_neg h10]

theorem endFold_SNRMargin (nv : NumberView) (rows : List (Option Json)) (st : Status)
    (x y : Float64) :
    rows.foldl (endStep nv) { st with SNRMarginDownstream := x, SNRMarginUpstream := y } =
      { rows.foldl (endStep nv) st with SNRMarginDownstream := x, SNRMarginUpstream := y } := by
  induction rows generalizing st with
  | nil => rfl
  | cons r t ih =>
    simp only [List.foldl_cons]
    rw [← ih]
    congr 1
    unfold endStep
    by_cases h0 : Result.String nv (Result.Get r "Name") = "Attenuation"
    · rw [if_pos h0, if_pos h0]
    · rw [if_neg h0, if_neg h0]
      by_cases h1 : Result.String nv (Result.Get r "Name") = "CRC"
      · rw [if_pos h1, if_pos h1]
      · rw [if_neg h1, if_neg h1]
        by_cases h2 : Result.String nv (Result.Get r "Name") = "ES"
        · rw [if_pos h2, if_pos h2]
        · rw [if_neg h2, if_neg h2]
          by_cases h3 : Result.String nv (Result.Get r "Name") = "SES"
          · rw [if_pos h3, if_pos h3]
          · rw [if_neg h3, if_neg h3]
            by_cases h4 : Result.String nv (Result.Get r "Name") = "UAS"
            · rw [if_pos h4, if_pos h4]
            · rw [if_neg h4, if_neg h4]
              by_cases h5 : Result.String nv (Result.Get r "Name") = "HEC Errors"
              · rw [if_pos h5, if_pos h5]
              · rw [if_neg h5, if_neg h5]
                by_cases h6 : Result.String nv (Result.Get r "Name") = "LOS Failure"
                · rw [if_pos h6, if_pos h6]
                · rw [if_neg h6, if_neg h6]
                  by_cases h7 : Result.String nv (Result.Get r "Name") = "LOF Failure"
                  · rw [if_pos h7, if_pos h7]
                  · rw [if_neg h7, if_neg h7]
                    by_cases h8 : Result.String nv (Result.Get r "Name") = "LPR Failure"
                    · rw [if_pos h8, if_pos h8]
                    · rw [if_neg h8, if_neg h8]
                      by_cases h9 : Result.String nv (Result.Get r "Name") = "LCD Failure"
                      · rw [if_pos h9, if_pos h9]
                      · rw [if_neg h9, if_neg h9]
                        by_cases h10 : Result.String nv (Result.Get r "Name") = "RFEC"
                        · rw [if_pos h10, if_pos h10]
                        · rw [if_neg h10, if_neg h10]

/-- C10: every recognized row populates exactly its two designated fields. When
the settings element of a response is changed only by appending a row to the
end of `Stream_Table` or `End_Table`, parsing still succeeds and, if the row
has a recognized Name of that table, the new Status is the old Status with the
two fields of that Name set to the normalized row values: `parseKbps` of
Downstream and Upstream for the two rates, `parsedB` of them for the SNR
margin, `parsedB` of Near_End and Far_End for the attenuation, and the integer
reading of Near_End and Far_End for the nine counters. -/
theorem C10_recognized_row_sets_its_two_fields (nv : NumberView) (resp resp' v v' : Json)
    (table : String) (rows : List Json) (row : Json)
    (hv : getSetting nv resp = some v) (hv' : getSetting nv resp' = some v')
    (hins : TableReplaced v v' table rows (rows ++ [row])) :
    (parseDSLStatusGeneralJSON nv resp').2 = none ∧
    (table = "Stream_Table" → rowText nv row "Name" = "Actual Rate" →
      (parseDSLStatusGeneralJSON nv resp').1 =
        { (parseDSLStatusGeneralJSON nv resp).1 with
          ActualRateDownstream := parseKbps (rowText nv row "Downstream")
          ActualRateUpstream := parseKbps (rowText nv row "Upstream") }) ∧
    (table = "Stream_Table" → rowText nv row "Name" = "Attainable Rate" →
      (parseDSLStatusGeneralJSON nv resp').1 =
        { (parseDSLStatusGeneralJSON nv resp).1 with
          AttainableRateDownstream := parseKbps (rowText nv row "Downstream")
          AttainableRateUpstream := parseKbps (rowText nv row "Upstream") }) ∧
    (table = "Stream_Table" → rowText nv row "Name" = "SNR Margin" →
      (parseDSLStatusGeneralJSON nv resp').1 =
        { (parseDSLStatusGeneralJSON nv resp).1 with
          SNRMarginDownstream := parsedB (rowText nv row "Downstream")
          SNRMarginUpstream := parsedB (rowText nv row "Upstream") }) ∧
    (table = "End_Table" → rowText nv row "Name" = "Attenuation" →
      (parseDSLStatusGeneralJSON nv resp').1 =
        { (parseDSLStatusGeneralJSON nv resp).1 with
          LineAttenuationNearEnd := parsedB (rowText nv row "Near_End")
          LineAttenuationFarEnd := parsedB (rowText nv row "Far_End") }) ∧
    (table = "End_Table" → rowText nv row "Name" = "CRC" →
      (parseDSLStatusGeneralJSON nv resp').1 =
        { (parseDSLStatusGeneralJSON nv resp).1 with
          CRCNearEnd := rowInt nv row "Near_End"
          CRCFarEnd := rowInt nv row "Far_End" }) ∧
    (table = "End_Table" → rowText nv row "Name" = "ES" →
      (parseDSLStatusGeneralJSON nv resp').1 =
        { (parseDSLStatusGeneralJSON nv resp).1 with
          ESNearEnd := rowInt nv row "Near_End"
          ESFarEnd := rowInt nv row "Far_End" }) ∧
    (table = "End_Table" → rowText nv row "Name" = "SES" →
      (parseDSLStatusGeneralJSON nv resp').1 =
        { (parseDSLStatusGeneralJSON nv resp).1 with
          SESNearEnd := rowInt nv row "Near_End"
          SESFarEnd := rowInt nv row "Far_End" }) ∧
    (table = "End_Table" → rowText nv row "Name" = "UAS" →
      (parseDSLStatusGeneralJSON nv resp').1 =
        { (parseDSLStatusGeneralJSON nv resp).1 with
          UASNearEnd := rowInt nv row "Near_End"
          UASFarEnd := rowInt nv row "Far_End" }) ∧
    (table = "End_Table" → rowText nv row "Name" = "HEC Errors" →
      (parseDSLStatusGeneralJSON nv resp').1 =
        { (parseDSLStatusGeneralJSON nv resp).1 with
          HECErrorsNearEnd := rowInt nv row "Near_End"
          HECErrorsFarEnd := rowInt nv row "Far_End" }) ∧
    (table = "End_Table" → rowText nv row "Name" = "LOS Failure" →
      (parseDSLStatusGeneralJSON nv resp').1 =
        { (parseDSLStatusGeneralJSON nv resp).1 with
          LOSFailureNearEnd := rowInt nv row "Near_End"
          LOSFailureFarEnd := rowInt nv row "Far_End" }) ∧
    (table = "End_Table" → rowText nv row "Name" = "LOF Failure" →
      (parseDSLStatusGeneralJSON nv resp').1 =
        { (parseDSLStatusGeneralJSON nv resp).1 with
          LOFFailureNearEnd := rowInt nv row "Near_End"
          LOFFailureFarEnd := rowInt nv row "Far_End" }) ∧
    (table = "End_Table" → rowText nv row "Name" = "LPR Failure" →
      (parseDSLStatusGeneralJSON nv resp').1 =
        { (parseDSLStatusGeneralJSON nv resp).1 with
          LPRFailureNearEnd := rowInt nv row "Near_End"
          LPRFailureFarEnd := rowInt nv row "Far_End" }) ∧
    (table = "End_Table" → rowText nv row "Name" = "LCD Failure" →
      (parseDSLStatusGeneralJSON nv resp').1 =
        { (parseDSLStatusGeneralJSON nv resp).1 with
          LCDFailureNearEnd := rowInt nv row "Near_End"
          LCDFailureFarEnd := rowInt nv row "Far_End" }) ∧
    (table = "End_Table" → rowText nv row "Name" = "RFEC" →
      (parseDSLStatusGeneralJSON nv resp').1 =
        { (parseDSLStatusGeneralJSON nv resp).1 with
          RFECNearEnd := rowInt nv row "Near_End"
          RFECFarEnd := rowInt nv row "Far_End" }) := by
  have p1 := parse_of_setting nv resp v hv
  have p2 := parse_of_setting nv resp' v' hv'
  refine ⟨by rw [p2], ?_, ?_, ?_, ?_, ?_, ?_, ?_, ?_, ?_, ?_, ?_, ?_, ?_, ?_⟩
  · rintro rfl hname
    obtain ⟨e1, e2⟩ := statusOfSetting_stream nv v v' _ _ hins
    rw [p1, p2]
    show statusOfSetting nv (some v') = _
    rw [e1, e2]
    simp only [List.map_append, List.map_cons, List.map_nil, List.foldl_append,
      List.foldl_cons, List.foldl_nil]
    rw [← endFold_ActualRate]
    congr 1
    simp only [rowText] at hname
    have hg := GoString.eq_coe_of_text_eq _ _ (by decide) hname
    simp [streamStep, hg, rowText]
  · rintro rfl hname
    obtain ⟨e1, e2⟩ := statusOfSetting_stream nv v v' _ _ hins
    rw [p1, p2]
    show statusOfSetting nv (some v') = _
    rw [e1, e2]
    simp only [List.map_append, List.map_cons, List.map_nil, List.foldl_append,
      List.foldl_cons, List.foldl_nil]
    rw [← endFold_AttainableRate]
    congr 1
    simp only [rowText] at hname
    have hg := GoString.eq_coe_of_text_eq _ _ (by decide) hname
    simp [streamStep, hg, rowText]
  · rintro rfl hname
    obtain ⟨e1, e2⟩ := statusOfSetting_stream nv v v' _ _ hins
    rw [p1, p2]
    show statusOfSetting nv (some v') = _
    rw [e1, e2]
    simp only [List.map_append, List.map_cons, List.map_nil, List.foldl_append,
      List.foldl_cons, List.foldl_nil]
    rw [← endFold_SNRMargin]
    congr 1
    simp only [rowText] at hname
    have hg := GoString.eq_coe_of_text_eq _ _ (by decide) hname
    simp [streamStep, hg, rowText]
  · rintro rfl hname
    obtain ⟨e1, e2⟩ := statusOfSetting_end nv v v' _ _ hins
    rw [p1, p2]
    show statusOfSetting nv (some v') = _
    rw [e1, e2]
    simp only [List.map_append, List.map_cons, List.map_nil, List.foldl_append,
      List.foldl_cons, List.foldl_nil]
    simp only [rowText] at hname
    have hg := GoString.eq_coe_of_text_eq _ _ (by decide) hname
    simp [endStep, hg, rowText, rowInt]
  · rintro rfl hname
    obtain ⟨e1, e2⟩ := statusOfSetting_end nv v v' _ _ hins
    rw [p1, p2]
    show statusOfSetting nv (some v') = _
    rw [e1, e2]
    simp only [List.map_append, List.map_cons, List.map_nil, List.foldl_append,
      List.foldl_cons, List.foldl_nil]
    simp only [rowText] at hname
    have hg := GoString.eq_coe_of_text_eq _ _ (by decide) hname
    simp [endStep, hg, rowText, rowInt]
  · rintro rfl hname
    obtain ⟨e1, e2⟩ := statusOfSetting_end nv v v' _ _ hins
    rw [p1, p2]
    show statusOfSetting nv (some v') = _
    rw [e1, e2]
    simp only [List.map_append, List.map_cons, List.map_nil, List.foldl_append,
      List.foldl_cons, List.foldl_nil]
    simp only [rowText] at hname
    have hg := GoString.eq_coe_of_text_eq _ _ (by decide) hname
    simp [endStep, hg, rowText, rowInt]
  · rintro rfl hname
    obtain ⟨e1, e2⟩ := statusOfSetting_end nv v v' _ _ hins
    rw [p1, p2]
    show statusOfSetting nv (some v') = _
    rw [e1, e2]
    simp only [List.map_append, List.map_cons, List.map_nil, List.foldl_append,
      List.foldl_cons, List.foldl_nil]
    simp only [rowText] at hname
    have hg := GoString.eq_coe_of_text_eq _ _ (by decide) hname
    simp [endStep, hg, rowText, rowInt]
  · rintro rfl hname
    obtain ⟨e1, e2⟩ := statusOfSetting_end nv v v' _ _ hins
    rw [p1, p2]
    show statusOfSetting nv (some v') = _
    rw [e1, e2]
    simp only [List.map_append, List.map_cons, List.map_nil, List.foldl_append,
      List.foldl_cons, List.foldl_nil]
    simp only [rowText] at hname
    have hg := GoString.eq_coe_of_text_eq _ _ (by decide) hname
    simp [endStep, hg, rowText, rowInt]
  · rintro rfl hname
    obtain ⟨e1, e2⟩ := statusOfSetting_end nv v v' _ _ hins
    rw [p1, p2]
    show statusOfSetting nv (some v') = _
    rw [e1, e2]
    simp only [List.map_append, List.map_cons, List.map_nil, List.foldl_append,
      List.foldl_cons, List.foldl_nil]
    simp only [rowText] at hname
    have hg := GoString.eq_coe_of_text_eq _ _ (by decide) hname
    simp [endStep, hg, rowText, rowInt]
  · rintro rfl hname
    obtain ⟨e1, e2⟩ := statusOfSetting_end nv v v' _ _ hins
    rw [p1, p2]
    show statusOfSetting nv (some v') = _
    rw [e1, e2]
    simp only [List.map_append, List.map_cons, List.map_nil, List.foldl_append,
      List.foldl_cons, List.foldl_nil]
    simp only [rowText] at hname
    have hg := GoString.eq_coe_of_text_eq _ _ (by decide) hname
    simp [endStep, hg, rowText, rowInt]
  · rintro rfl hname
    obtain ⟨e1, e2⟩ := statusOfSetting_end nv v v' _ _ hins
    rw [p1, p2]
    show statusOfSetting nv (some v') = _
    rw [e1, e2]
    simp only [List.map_append, List.map_cons, List.map_nil, List.foldl_append,
      List.foldl_cons, List.foldl_nil]
    simp only [rowText] at hname
    have hg := GoString.eq_coe_of_text_eq _ _ (by decide) hname
    simp [endStep, hg, rowText, rowInt]
  · rintro rfl hname
    obtain ⟨e1, e2⟩ := statusOfSetting_end nv v v' _ _ hins
    rw [p1, p2]
    show statusOfSetting nv (some v') = _
    rw [e1, e2]
    simp only [List.map_append, List.map_cons, List.map_nil, List.foldl_append,
      List.foldl_cons, List.foldl_nil]
    simp only [rowText] at hname
    have hg := GoString.eq_coe_of_text_eq _ _ (by decide) hname
    simp [endStep, hg, rowText, rowInt]
  · rintro rfl hname
    obtain ⟨e1, e2⟩ := statusOfSetting_end nv v v' _ _ hins
    rw [p1, p2]
    show statusOfSetting nv (some v') = _
    rw [e1, e2]
    simp only [List.map_append, List.map_cons, List.map_nil, List.foldl_append,
      List.foldl_cons, List.foldl_nil]
    simp only [rowText] at hname
    have hg := GoString.eq_coe_of_text_eq _ _ (by decide) hname
    simp [endStep, hg, rowText, rowInt]
  · rintro rfl hname
    obtain ⟨e1, e2⟩ := statusOfSetting_end nv v v' _ _ hins
    rw [p1, p2]
    show statusOfSetting nv (some v') = _
    rw [e1, e2]
    simp only [List.map_append, List.map_cons, List.map_nil, List.foldl_append,
      List.foldl_cons, List.foldl_nil]
    simp only [rowText] at hname
    have hg := GoString.eq_coe_of_text_eq _ _ (by decide) hname
    simp [endStep, hg, rowText, rowInt]

/-- Witness for C10: a `CRC` row appended to an `End_Table` that holds an
attenuation row. -/
theorem C10_recognized_row_witness :
    (parseDSLStatusGeneralJSON plainNumbers
        (responseDoc [settingDoc
          [streamRowDoc "Actual Rate" "55000 Kbps" "10000 Kbps"]
          [endRowDoc "Attenuation" "17.5 dB" "18 dB", endRowDoc "CRC" "12" "7"]])).1 =
      { (parseDSLStatusGeneralJSON plainNumbers
          (responseDoc [settingDoc
            [streamRowDoc "Actual Rate" "55000 Kbps" "10000 Kbps"]
            [endRowDoc "Attenuation" "17.5 dB" "18 dB"]])).1 with
        CRCNearEnd := 12
        CRCFarEnd := 7 } :=
  (C10_recognized_row_sets_its_two_fields plainNumbers
    (responseDoc [settingDoc
      [streamRowDoc "Actual Rate" "55000 Kbps" "10000 Kbps"]
      [endRowDoc "Attenuation" "17.5 dB" "18 dB"]])
    (responseDoc [settingDoc
      [streamRowDoc "Actual Rate" "55000 Kbps" "10000 Kbps"]
      [endRowDoc "Attenuation" "17.5 dB" "18 dB", endRowDoc "CRC" "12" "7"]])
    _ _ "End_Table" [endRowDoc "Attenuation" "17.5 dB" "18 dB"] (endRowDoc "CRC" "12" "7")
    rfl rfl
    ⟨⟨"", rfl⟩, ⟨"", rfl⟩, fun k hk => settingDoc_get_end _ _ _ k hk⟩).2.2.2.2.2.1
    rfl (by decide)

/-! ## Lemmas: the last row wins -/

theorem foldl_lastWith {α β γ : Type} (step : β → α → β) (proj : β → γ) (hits : α → Bool)
    (val : α → γ) (h : ∀ st r, proj (step st r) = if hits r then val r else proj st)
    (rows : List α) (st : β) :
    proj (rows.foldl step st) = ((lastWith hits rows).map val).getD (proj st) := by
  induction rows generalizing st with
  | nil => rfl
  | cons r rest ih =>
    simp only [List.foldl_cons, lastWith]
    rw [ih]
    cases lastWith hits rest with
    | some x => rfl
    | none =>
      simp only [h]
      cases hits r <;> rfl

theorem foldl_preserves {α β γ : Type} (step : β → α → β) (proj : β → γ)
    (h : ∀ st r, proj (step st r) = proj st) (rows : List α) (st : β) :
    proj (rows.foldl step st) = proj st := by
  induction rows generalizing st with
  | nil => rfl
  | cons r rest ih => rw [List.foldl_cons, ih, h]

theorem streamStep_value (nv : NumberView) (f : NumField) (st : Status) (v : Option Json)
    (hf : f.table = "Stream_Table") :
    f.value (streamStep nv st v) =
      if f.isRow nv v then f.read nv v else f.value st := by
  unfold streamStep NumField.isRow nameOf
  by_cases h0 : Result.String nv (Result.Get v "Name") = "Actual Rate"
  · rw [if_pos h0, h0]
    cases f <;> rfl
  · rw [if_neg h0]
    by_cases h1 : Result.String nv (Result.Get v "Name") = "Attainable Rate"
    · rw [if_pos h1, h1]
      cases f <;> rfl
    · rw [if_neg h1]
      by_cases h2 : Result.String nv (Result.Get v "Name") = "SNR Margin"
      · rw [if_pos h2, h2]
        cases f <;> rfl
      · rw [if_neg h2]
        have t0 : ¬ (Result.String nv (Result.Get v "Name")).text = "Actual Rate" :=
          fun h => h0 (GoString.eq_coe_of_text_eq _ "Actual Rate" (by decide) h)
        have t1 : ¬ (Result.String nv (Result.Get v "Name")).text = "Attainable Rate" :=
          fun h => h1 (GoString.eq_coe_of_text_eq _ "Attainable Rate" (by decide) h)
        have t2 : ¬ (Result.String nv (Result.Get v "Name")).text = "SNR Margin" :=
          fun h => h2 (GoString.eq_coe_of_text_eq _ "SNR Margin" (by decide) h)
        cases f <;> first
          | exact absurd hf (by decide)
          | (simp only [NumField.name, t0, t1, t2, decide_False, Bool.false_eq_true, if_false])

theorem endStep_value (nv : NumberView) (f : NumField) (st : Status) (v : Option Json)
    (hf : f.table = "End_Table") :
    f.value (endStep nv st v) =
      if f.isRow nv v then f.read nv v else f.value st := by
  unfold endStep NumField.isRow nameOf
  by_cases h0 : Result.String nv (Result.Get v "Name") = "Attenuation"
  · rw [if_pos h0, h0]
    cases f <;> rfl
  · rw [if_neg h0]
    by_cases h1 : Result.String nv (Result.Get v "Name") = "CRC"
    · rw [if_pos h1, h1]
      cases f <;> rfl
    · rw [if_neg h1]
      by_cases h2 : Result.String nv (Result.Get v "Name") = "ES"
      · rw [if_pos h2, h2]
        cases f <;> rfl
      · rw [if_neg h2]
        by_cases h3 : Result.String nv (Result.Get v "Name") = "SES"
        · rw [if_pos h3, h3]
          cases f <;> rfl
        · rw [if_neg h3]
          by_cases h4 : Result.String nv (Result.Get v "Name") = "UAS"
          · rw [if_pos h4, h4]
            cases f <;> rfl
          · rw [if_neg h4]
            by_cases h5 : Result.String nv (Result.Get v "Name") = "HEC Errors"
            · rw [if_pos h5, h5]
              cases f <;> rfl
            · rw [if_neg h5]
              by_cases h6 : Result.String nv (Result.Get v "Name") = "LOS Failure"
              · rw [if_pos h6, h6]
                cases f <;> rfl
              · rw [if_neg h6]
                by_cases h7 : Result.String nv (Result.Get v "Name") = "LOF Failure"
                · rw [if_pos h7, h7]
                  cases f <;> rfl
                · rw [if_neg h7]
                  by_cases h8 : Result.String nv (Result.Get v "Name") = "LPR Failure"
                  · rw [if_pos h8, h8]
                    cases f <;> rfl
                  · rw [if_neg h8]
                    by_cases h9 : Result.String nv (Result.Get v "Name") = "LCD Failure"
                    · rw [if_pos h9, h9]
                      cases f <;> rfl
                    · rw [if_neg h9]
                      by_cases h10 : Result.String nv (Result.Get v "Name") = "RFEC"
                      · rw [if_pos h10, h10]
                        cases f <;> rfl
                      · rw [if_neg h10]
                        have t0 : ¬ (Result.String nv (Result.Get v "Name")).text = "Attenuation" :=
                          fun h => h0 (GoString.eq_coe_of_text_eq _ "Attenuation" (by decide) h)
                        have t1 : ¬ (Result.String nv (Result.Get v "Name")).text = "CRC" :=
                          fun h => h1 (GoString.eq_coe_of_text_eq _ "CRC" (by decide) h)
                        have t2 : ¬ (Result.String nv (Result.Get v "Name")).text = "ES" :=
                          fun h => h2 (GoString.eq_coe_of_text_eq _ "ES" (by decide) h)
                        have t3 : ¬ (Result.String nv (Result.Get v "Name")).text = "SES" :=
                          fun h => h3 (GoString.eq_coe_of_text_eq _ "SES" (by decide) h)
                        have t4 : ¬ (Result.String nv (Result.Get v "Name")).text = "UAS" :=
                          fun h => h4 (GoString.eq_coe_of_text_eq _ "UAS" (by decide) h)
                        have t5 : ¬ (Result.String nv (Result.Get v "Name")).text = "HEC Errors" :=
                          fun h => h5 (GoString.eq_coe_of_text_eq _ "HEC Errors" (by decide) h)
                        have t6 : ¬ (Result.String nv (Result.Get v "Name")).text = "LOS Failure" :=
                          fun h => h6 (GoString.eq_coe_of_text_eq _ "LOS Failure" (by decide) h)
                        have t7 : ¬ (Result.String nv (Result.Get v "Name")).text = "LOF Failure" :=
                          fun h => h7 (GoString.eq_coe_of_text_eq _ "LOF Failure" (by decide) h)
                        have t8 : ¬ (Result.String nv (Result.Get v "Name")).text = "LPR Failure" :=
                          fun h => h8 (GoString.eq_coe_of_text_eq _ "LPR Failure" (by decide) h)
                        have t9 : ¬ (Result.String nv (Result.Get v "Name")).text = "LCD Failure" :=
                          fun h => h9 (GoString.eq_coe_of_text_eq _ "LCD Failure" (by decide) h)
                        have t10 : ¬ (Result.String nv (Result.Get v "Name")).text = "RFEC" :=
                          fun h => h10 (GoString.eq_coe_of_text_eq _ "RFEC" (by decide) h)
                        cases f <;> first
                          | exact absurd hf (by decide)
                          | (simp only [NumField.name, t0, t1, t2, t3, t4, t5, t6, t7, t8, t9, t10, decide_False, Bool.false_eq_true, if_false])

theorem streamStep_preserves (nv : NumberView) (f : NumField) (st : Status) (v : Option Json)
    (hf : f.table = "End_Table") : f.value (streamStep nv st v) = f.value st := by
  unfold streamStep
  by_cases h0 : Result.String nv (Result.Get v "Name") = "Actual Rate"
  · rw [if_pos h0]
    cases f <;> first | rfl | exact absurd hf (by decide)
  · rw [if_neg h0]
    by_cases h1 : Result.String nv (Result.Get v "Name") = "Attainable Rate"
    · rw [if_pos h1]
      cases f <;> first | rfl | exact absurd hf (by decide)
    · rw [if_neg h1]
      by_cases h2 : Result.String nv (Result.Get v "Name") = "SNR Margin"
      · rw [if_pos h2]
        cases f <;> first | rfl | exact absurd hf (by decide)
      · rw [if_neg h2]

theorem endStep_preserves (nv : NumberView) (f : NumField) (st : Status) (v : Option Json)
    (hf : f.table = "Stream_Table") : f.value (endStep nv st v) = f.value st := by
  unfold endStep
  by_cases h0 : Result.String nv (Result.Get v "Name") = "Attenuation"
  · rw [if_pos h0]
    cases f <;> first | rfl | exact absurd hf (by decide)
  · rw [if_neg h0]
    by_cases h1 : Result.String nv (Result.Get v "Name") = "CRC"
    · rw [if_pos h1]
      cases f <;> first | rfl | exact absurd hf (by decide)
    · rw [if_neg h1]
      by_cases h2 : Result.String nv (Result.Get v "Name") = "ES"
      · rw [if_pos h2]
        cases f <;> first | rfl | exact absurd hf (by decide)
      · rw [if_neg h2]
        by_cases h3 : Result.String nv (Result.Get v "Name") = "SES"
        · rw [if_pos h3]
          cases f <;> first | rfl | exact absurd hf (by decide)
        · rw [if_neg h3]
          by_cases h4 : Result.String nv (Result.Get v "Name") = "UAS"
          · rw [if_pos h4]
            cases f <;> first | rfl | exact absurd hf (by decide)
          · rw [if_neg h4]
            by_cases h5 : Result.String nv (Result.Get v "Name") = "HEC Errors"
            · rw [if_pos h5]
              cases f <;> first | rfl | exact absurd hf (by decide)
            · rw [if_neg h5]
              by_cases h6 : Result.String nv (Result.Get v "Name") = "LOS Failure"
              · rw [if_pos h6]
                cases f <;> first | rfl | exact absurd hf (by decide)
              · rw [if_neg h6]
                by_cases h7 : Result.String nv (Result.Get v "Name") = "LOF Failure"
                · rw [if_pos h7]
                  cases f <;> first | rfl | exact absurd hf (by decide)
                · rw [if_neg h7]
                  by_cases h8 : Result.String nv (Result.Get v "Name") = "LPR Failure"
                  · rw [if_pos h8]
                    cases f <;> first | rfl | exact absurd hf (by decide)
                  · rw [if_neg h8]
                    by_cases h9 : Result.String nv (Result.Get v "Name") = "LCD Failure"
                    · rw [if_pos h9]
                      cases f <;> first | rfl | exact absurd hf (by decide)
                    · rw [if_neg h9]
                      by_cases h10 : Result.String nv (Result.Get v "Name") = "RFEC"
                      · rw [if_pos h10]
                        cases f <;> first | rfl | exact absurd hf (by decide)
                      · rw [if_neg h10]

theorem NumField.table_cases (f : NumField) :
    f.table = "Stream_Table" ∨ f.table = "End_Table" := by
  cases f <;> first | exact Or.inl rfl | exact Or.inr rfl

theorem infoStatus_value (nv : NumberView) (f : NumField) (v : Option Json) :
    f.value (infoStatus nv v) = f.zero := by
  cases f <;> rfl

/-- The table loops, field by field: a numeric field of the parsed Status is
the normalized reading of the last row of its table that bears its Name, and
its zero value when there is no such row. -/
theorem statusOfSetting_value (nv : NumberView) (f : NumField) (v : Option Json) :
    f.value (statusOfSetting nv v) =
      ((lastWith (f.isRow nv) (Result.Array (Result.Get v f.table))).map (f.read nv)).getD
        f.zero := by
  rw [statusOfSetting_eq]
  rcases f.table_cases with hf | hf
  · rw [foldl_preserves (endStep nv) f.value (fun st r => endStep_preserves nv f st r hf),
      foldl_lastWith (streamStep nv) f.value _ (f.read nv)
        (fun st r => streamStep_value nv f st r hf),
      infoStatus_value, hf]
  · rw [foldl_lastWith (endStep nv) f.value _ (f.read nv)
        (fun st r => endStep_value nv f st r hf),
      foldl_preserves (streamStep nv) f.value (fun st r => streamStep_preserves nv f st r hf),
      infoStatus_value, hf]

theorem lastWith_eq_none {α : Type} (p : α → Bool) (rows : List α)
    (h : ∀ r ∈ rows, p r = false) : lastWith p rows = none := by
  induction rows with
  | nil => rfl
  | cons r rest ih =>
    simp only [lastWith, ih (fun x hx => h x (List.mem_cons_of_mem _ hx)),
      h r (List.mem_cons_self _ _), Bool.false_eq_true, if_false]

theorem lastWith_some {α : Type} (p : α → Bool) (rows : List α) (r : α)
    (h : lastWith p rows = some r) : r ∈ rows ∧ p r = true := by
  induction rows with
  | nil => cases h
  | cons x rest ih =>
    simp only [lastWith] at h
    cases hl : lastWith p rest with
    | some y =>
      rw [hl] at h
      simp only [Option.some.injEq] at h
      subst h
      exact ⟨List.mem_cons_of_mem _ (ih hl).1, (ih hl).2⟩
    | none =>
      rw [hl] at h
      by_cases hp : p x = true
      · simp only [hp, if_true, Option.some.injEq] at h
        subst h
        exact ⟨List.mem_cons_self _ _, hp⟩
      · simp [hp] at h

theorem NumField.read_absent (nv : NumberView) (f : NumField) (r : Option Json)
    (h : Result.Get r f.key = none) : f.read nv r = f.zero := by
  unfold NumField.read NumField.zero
  rw [h]
  cases f.normalizer <;> rfl

/-! ## Theorems: absent entries -/

/-- C11: absent entries default to zero. For every response that has a
`Setting` element the parser returns a nil error, and each of the 28 numeric
fields is zero when its table holds no row with its Name, when its table is
missing altogether, and when the row it is read from (the last one with its
Name) lacks the key it is read from; a `Setting` element with neither table
yields the Status that holds the info fields and zero everywhere else. -/
theorem C11_absent_entries_are_zero (nv : NumberView) (resp v : Json)
    (hv : getSetting nv resp = some v) :
    (parseDSLStatusGeneralJSON nv resp).2 = none ∧
    (∀ f : NumField,
      (∀ r ∈ Result.Array (Result.Get (some v) f.table), nameOf nv r ≠ f.name) →
      f.value (parseDSLStatusGeneralJSON nv resp).1 = f.zero) ∧
    (∀ f : NumField, Result.Get (some v) f.table = none →
      f.value (parseDSLStatusGeneralJSON nv resp).1 = f.zero) ∧
    (∀ (f : NumField) (r : Option Json),
      lastWith (f.isRow nv) (Result.Array (Result.Get (some v) f.table)) = some r →
      Result.Get r f.key = none →
      f.value (parseDSLStatusGeneralJSON nv resp).1 = f.zero) ∧
    (Result.Get (some v) "Stream_Table" = none → Result.Get (some v) "End_Table" = none →
      (∀ f : NumField, f.value (parseDSLStatusGeneralJSON nv resp).1 = f.zero) ∧
      (parseDSLStatusGeneralJSON nv resp).1 =
        { Status := Result.String nv (Result.Get (some v) "Status")
          Mode := Result.String nv (Result.Get (some v) "Mode")
          Profile := Result.String nv (Result.Get (some v) "Profile")
          Annex := Result.String nv (Result.Get (some v) "Annex")
          DSLVersion := Result.String nv (Result.Get (some v) "DSL_Version") }) := by
  have hp := parse_of_setting nv resp v hv
  have hnone : ∀ f : NumField,
      (∀ r ∈ Result.Array (Result.Get (some v) f.table), nameOf nv r ≠ f.name) →
      f.value (parseDSLStatusGeneralJSON nv resp).1 = f.zero := by
    intro f h
    rw [hp]
    show f.value (statusOfSetting nv (some v)) = f.zero
    rw [statusOfSetting_value, lastWith_eq_none]
    · rfl
    · intro r hr
      simp [NumField.isRow, h r hr]
  have hmissing : ∀ f : NumField, Result.Get (some v) f.table = none →
      f.value (parseDSLStatusGeneralJSON nv resp).1 = f.zero := by
    intro f h
    apply hnone
    rw [h]
    intro r hr
    cases hr
  refine ⟨by rw [hp], hnone, hmissing, ?_, ?_⟩
  · intro f r hl hk
    rw [hp]
    show f.value (statusOfSetting nv (some v)) = f.zero
    rw [statusOfSetting_value, hl]
    exact f.read_absent nv r hk
  · intro hs he
    refine ⟨?_, ?_⟩
    · intro f
      apply hmissing
      rcases f.table_cases with hf | hf
      · rw [hf]; exact hs
      · rw [hf]; exact he
    · rw [hp]
      show statusOfSetting nv (some v) = _
      rw [statusOfSetting_eq, hs, he]
      rfl

/-- Witness for C11: a `Setting` element that has neither table. -/
theorem C11_absent_entries_witness :
    (parseDSLStatusGeneralJSON plainNumbers
      (responseDoc [.obj "" [("Name", .str "Setting"), ("Status", .str "READY")]])).2 = none ∧
    ∀ f : NumField, f.value (parseDSLStatusGeneralJSON plainNumbers
      (responseDoc [.obj "" [("Name", .str "Setting"), ("Status", .str "READY")]])).1
        = f.zero :=
  have h := C11_absent_entries_are_zero plainNumbers
    (responseDoc [.obj "" [("Name", .str "Setting"), ("Status", .str "READY")]])
    (.obj "" [("Name", .str "Setting"), ("Status", .str "READY")]) rfl
  ⟨h.1, (h.2.2.2.2 rfl rfl).1⟩

/-! ## Theorems: FetchStatus, Describe and determinism -/

/-- C12: `FetchStatus` propagates a request failure verbatim, with the zero
Status (empty strings and zero numbers), and is otherwise exactly
`parseDSLStatusGeneralJSON` on the response body. -/
theorem C12_fetchStatus_propagates_or_parses (nv : NumberView) :
    (∀ e : Error, FetchStatus nv (.error e) = (({} : Status), some e)) ∧
    (∀ r : Json, FetchStatus nv (.ok r) = parseDSLStatusGeneralJSON nv r) ∧
    (∀ f : NumField, f.value ({} : Status) = f.zero) ∧
    (({} : Status).Status = "" ∧ ({} : Status).Mode = "" ∧ ({} : Status).Profile = "" ∧
      ({} : Status).Annex = "" ∧ ({} : Status).DSLVersion = "") := by
  refine ⟨fun _ => rfl, fun _ => rfl, ?_, rfl, rfl, rfl, rfl, rfl⟩
  intro f
  cases f <;> rfl

/-- C13: `Describe` performs 32 sends, in a fixed order, of the 30 catalog
descriptors: the catalog up to the LCD failure pair, that pair once more, then
the RFEC pair. The near-end and far-end LCD failure descriptors are sent
twice, every other catalog descriptor once, and nothing else is sent. -/
theorem C13_describe_sends_catalog_with_lcd_twice :
    Describe.length = 32 ∧ catalog.length = 30 ∧ catalog.Nodup ∧
    Describe = catalog.take 28 ++ [LCDFailureNearEnd, LCDFailureFarEnd] ++ catalog.drop 28 ∧
    (∀ d ∈ Describe, d ∈ catalog) ∧ (∀ d ∈ catalog, d ∈ Describe) ∧
    Describe.count LCDFailureNearEnd = 2 ∧ Describe.count LCDFailureFarEnd = 2 ∧
    (∀ d ∈ catalog, d ≠ LCDFailureNearEnd → d ≠ LCDFailureFarEnd → Describe.count d = 1) := by
  refine ⟨rfl, rfl, ?_, rfl, ?_, ?_, ?_, ?_, ?_⟩ <;> decide

/-- C14: `Collect` is deterministic in the router response. For any two
invocations, in whatever states of the outside world and through whatever
request step, in which the authenticated request returns the same result,
that is the same body or an error on both sides (the two errors may differ),
`Collect` emits the same samples in the same order, and panics in the one
invocation when it does in the other; `Describe` sends the same descriptors
in every state and changes nothing. -/
theorem C14_collect_depends_only_on_response {σ : Type} (nv : NumberView)
    (post₁ post₂ : σ → Except Error Json × σ) (w₁ w₂ : σ)
    (h : SameResult (post₁ w₁).1 (post₂ w₂).1) :
    (Exporter.Collect nv post₁ w₁).1 = (Exporter.Collect nv post₂ w₂).1 ∧
    Collect.sent (FetchStatus nv (post₁ w₁).1) = Collect.sent (FetchStatus nv (post₂ w₂).1) ∧
    (Exporter.Describe w₁).1 = (Exporter.Describe w₂).1 ∧
    (Exporter.Describe w₁).2 = w₁ ∧ (Exporter.Describe w₂).2 = w₂ := by
  refine ⟨?_, ?_, rfl, rfl, rfl⟩
  · rcases h with ⟨body, h1, h2⟩ | ⟨⟨e1, h1⟩, ⟨e2, h2⟩⟩
    · simp only [Exporter.Collect, h1, h2]
    · simp only [Exporter.Collect, h1, h2]
      rw [(Collect_failed (FetchStatus nv (.error e1)) (Option.some_ne_none e1)).1,
        (Collect_failed (FetchStatus nv (.error e2)) (Option.some_ne_none e2)).1]
  · rcases h with ⟨body, h1, h2⟩ | ⟨⟨e1, h1⟩, ⟨e2, h2⟩⟩
    · rw [h1, h2]
    · rw [h1, h2, (Collect_failed (FetchStatus nv (.error e1)) (Option.some_ne_none e1)).2,
        (Collect_failed (FetchStatus nv (.error e2)) (Option.some_ne_none e2)).2]

/-- Witness for C14: the outside world is a request counter. A request that
fails updating and a request that times out give the same samples, which are
`draytek_up` with value 0 alone. -/
theorem C14_collect_deterministic_witness :
    (Exporter.Collect plainNumbers
        (fun n : Nat => (Except.error Error.ErrUpdateFailed, n + 1)) 0).1 =
      (Exporter.Collect plainNumbers
        (fun n : Nat => (Except.error (Error.request "timeout"), n + 1)) 5).1 ∧
    (Exporter.Collect plainNumbers
        (fun n : Nat => (Except.error Error.ErrUpdateFailed, n + 1)) 0).1 =
      some [upSample (.zero false)] :=
  ⟨(C14_collect_depends_only_on_response plainNumbers
      (fun n : Nat => (Except.error Error.ErrUpdateFailed, n + 1))
      (fun n : Nat => (Except.error (Error.request "timeout"), n + 1)) 0 5
      (Or.inr ⟨⟨_, rfl⟩, ⟨_, rfl⟩⟩)).1,
    by decide⟩

/-- Counterexample for C15: after a successful fetch of a response whose
`Status` string is not valid UTF-8, `Collect` sends `draytek_up` and panics:
the descriptors of its samples are not those `Describe` sends. -/
theorem C15_counterexample_only_up_described :
    (FetchStatus plainNumbers (.ok brokenResponse)).2 = none ∧
    Collect (FetchStatus plainNumbers (.ok brokenResponse)) = none ∧
    (Collect.sent (FetchStatus plainNumbers (.ok brokenResponse))).map (fun m => m.desc) =
      [draytekUpDesc] ∧
    draytekInfoDesc ∈ Describe ∧
    draytekInfoDesc ∉
      (Collect.sent (FetchStatus plainNumbers (.ok brokenResponse))).map (fun m => m.desc) := by
  have h := Collect_invalid _ brokenResponse_fetch.1 brokenResponse_fetch.2.2.2
  refine ⟨brokenResponse_fetch.1, h.1, ?_, by decide, ?_⟩
  · rw [h.2]
    rfl
  · rw [h.2]
    decide

/-- C15 (amended): `Describe` and `Collect` agree on the catalog. Whatever
`Collect` sends has a descriptor that `Describe` sends. After a successful
fetch of a Status whose five info strings are valid UTF-8 the descriptors of
the samples are exactly those `Describe` sends; after a failed fetch the only
descriptor is `draytek_up`, which `Describe` sends; and after a successful
fetch of a Status with an info string that is not valid UTF-8 `Collect`
panics, having sent `draytek_up` only. -/
theorem C15_collect_emits_described_descriptors (fetched : Status × Option Error) :
    (∀ m ∈ Collect.sent fetched, m.desc ∈ Describe) ∧
    (fetched.2 = none → infoValid fetched.1 = true →
      ∃ ms, Collect fetched = some ms ∧ Collect.sent fetched = ms ∧
        ∀ d, d ∈ Describe ↔ d ∈ ms.map (fun m => m.desc)) ∧
    (fetched.2 ≠ none →
      ∃ ms, Collect fetched = some ms ∧ Collect.sent fetched = ms ∧
        ms.map (fun m => m.desc) = [draytekUpDesc]) ∧
    (fetched.2 = none → infoValid fetched.1 = false →
      Collect fetched = none ∧
      (Collect.sent fetched).map (fun m => m.desc) = [draytekUpDesc]) ∧
    draytekUpDesc ∈ Describe := by
  have hsub : ∀ d ∈ catalog, d ∈ Describe := by decide
  have hsup : ∀ d ∈ Describe, d ∈ catalog := by decide
  have hup : draytekUpDesc ∈ Describe := by decide
  refine ⟨?_, ?_, ?_, ?_, hup⟩
  · intro m hm
    cases h2 : fetched.2 with
    | some e =>
      rw [(Collect_failed fetched (by rw [h2]; exact Option.some_ne_none e)).2] at hm
      simp only [List.mem_singleton] at hm
      rw [hm]
      exact hup
    | none =>
      cases hv : infoValid fetched.1 with
      | true =>
        rw [(Collect_ok fetched h2 hv).2] at hm
        apply hsub
        rw [← successSamples_descs fetched.1]
        exact List.mem_map_of_mem _ hm
      | false =>
        rw [(Collect_invalid fetched h2 hv).2] at hm
        simp only [List.mem_singleton] at hm
        rw [hm]
        exact hup
  · intro hok hv
    refine ⟨successSamples fetched.1, (Collect_ok fetched hok hv).1,
      (Collect_ok fetched hok hv).2, ?_⟩
    intro d
    rw [successSamples_descs]
    exact ⟨hsup d, hsub d⟩
  · intro hfail
    exact ⟨_, (Collect_failed fetched hfail).1, (Collect_failed fetched hfail).2, rfl⟩
  · intro hok hv
    refine ⟨(Collect_invalid fetched hok hv).1, ?_⟩
    rw [(Collect_invalid fetched hok hv).2]
    rfl

/-- Witness for C15: the sample response. -/
theorem C15_collect_described_witness :
    (FetchStatus plainNumbers (.ok sampleResponse)).2 = none ∧
    infoValid (FetchStatus plainNumbers (.ok sampleResponse)).1 = true ∧
    ∃ ms, Collect (FetchStatus plainNumbers (.ok sampleResponse)) = some ms ∧
      ∀ d, d ∈ Describe ↔ d ∈ ms.map (fun m => m.desc) := by
  refine ⟨by decide, by decide, ?_⟩
  obtain ⟨ms, h1, _, h3⟩ :=
    (C15_collect_emits_described_descriptors
      (FetchStatus plainNumbers (.ok sampleResponse))).2.1 (by decide) (by decide)
  exact ⟨ms, h1, h3⟩

/-! ## Lemmas: duplicate rows -/

theorem Status_eq_of_fields (a b : Status) (hinfo : infoOf a = infoOf b)
    (hnum : ∀ f : NumField, f.value a = f.value b) : a = b := by
  have h0 := hnum .ActualRateDownstream
  have h1 := hnum .ActualRateUpstream
  have h2 := hnum .AttainableRateDownstream
  have h3 := hnum .AttainableRateUpstream
  have h4 := hnum .SNRMarginDownstream
  have h5 := hnum .SNRMarginUpstream
  have h6 := hnum .LineAttenuationNearEnd
  have h7 := hnum .LineAttenuationFarEnd
  have h8 := hnum .CRCNearEnd
  have h9 := hnum .CRCFarEnd
  have h10 := hnum .UASNearEnd
  have h11 := hnum .UASFarEnd
  have h12 := hnum .HECErrorsNearEnd
  have h13 := hnum .HECErrorsFarEnd
  have h14 := hnum .ESNearEnd
  have h15 := hnum .ESFarEnd
  have h16 := hnum .SESNearEnd
  have h17 := hnum .SESFarEnd
  have h18 := hnum .LOSFailureNearEnd
  have h19 := hnum .LOSFailureFarEnd
  have h20 := hnum .LOFFailureNearEnd
  have h21 := hnum .LOFFailureFarEnd
  have h22 := hnum .LPRFailureNearEnd
  have h23 := hnum .LPRFailureFarEnd
  have h24 := hnum .LCDFailureNearEnd
  have h25 := hnum .LCDFailureFarEnd
  have h26 := hnum .RFECNearEnd
  have h27 := hnum .RFECFarEnd
  cases a
  cases b
  simp only [infoOf, Prod.mk.injEq] at hinfo
  simp only [NumField.value, NumVal.int.injEq, NumVal.float.injEq] at h0 h1 h2 h3 h4 h5 h6 h7 h8 h9 h10 h11 h12 h13 h14 h15 h16 h17 h18 h19 h20 h21 h22 h23 h24 h25 h26 h27
  obtain ⟨i1, i2, i3, i4, i5⟩ := hinfo
  subst_vars
  rfl

theorem streamStep_info (nv : NumberView) (st : Status) (v : Option Json) :
    infoOf (streamStep nv st v) = infoOf st := by
  unfold streamStep
  by_cases h0 : Result.String nv (Result.Get v "Name") = "Actual Rate"
  · rw [if_pos h0] <;> rfl
  · rw [if_neg h0]
    by_cases h1 : Result.String nv (Result.Get v "Name") = "Attainable Rate"
    · rw [if_pos h1] <;> rfl
    · rw [if_neg h1]
      by_cases h2 : Result.String nv (Result.Get v "Name") = "SNR Margin"
      · rw [if_pos h2] <;> rfl
      · rw [if_neg h2]

theorem endStep_info (nv : NumberView) (st : Status) (v : Option Json) :
    infoOf (endStep nv st v) = infoOf st := by
  unfold endStep
  by_cases h0 : Result.String nv (Result.Get v "Name") = "Attenuation"
  · rw [if_pos h0] <;> rfl
  · rw [if_neg h0]
    by_cases h1 : Result.String nv (Result.Get v "Name") = "CRC"
    · rw [if_pos h1] <;> rfl
    · rw [if_neg h1]
      by_cases h2 : Result.String nv (Result.Get v "Name") = "ES"
      · rw [if_pos h2] <;> rfl
      · rw [if_neg h2]
        by_cases h3 : Result.String nv (Result.Get v "Name") = "SES"
        · rw [if_pos h3] <;> rfl
        · rw [if_neg h3]
          by_cases h4 : Result.String nv (Result.Get v "Name") = "UAS"
          · rw [if_pos h4] <;> rfl
          · rw [if_neg h4]
            by_cases h5 : Result.String nv (Result.Get v "Name") = "HEC Errors"
            · rw [if_pos h5] <;> rfl
            · rw [if_neg h5]
              by_cases h6 : Result.String nv (Result.Get v "Name") = "LOS Failure"
              · rw [if_pos h6] <;> rfl
              · rw [if_neg h6]
                by_cases h7 : Result.String nv (Result.Get v "Name") = "LOF Failure"
                · rw [if_pos h7] <;> rfl
                · rw [if_neg h7]
                  by_cases h8 : Result.String nv (Result.Get v "Name") = "LPR Failure"
                  · rw [if_pos h8] <;> rfl
                  · rw [if_neg h8]
                    by_cases h9 : Result.String nv (Result.Get v "Name") = "LCD Failure"
                    · rw [if_pos h9] <;> rfl
                    · rw [if_neg h9]
                      by_cases h10 : Result.String nv (Result.Get v "Name") = "RFEC"
                      · rw [if_pos h10] <;> rfl
                      · rw [if_neg h10]

theorem statusOfSetting_info (nv : NumberView) (v : Option Json) :
    infoOf (statusOfSetting nv v) = infoOf (infoStatus nv v) := by
  rw [statusOfSetting_eq, foldl_preserves (endStep nv) infoOf (endStep_info nv),
    foldl_preserves (streamStep nv) infoOf (streamStep_info nv)]

theorem lastWith_none_forall {α : Type} (p : α → Bool) (rows : List α)
    (h : lastWith p rows = none) : ∀ r ∈ rows, p r = false := by
  induction rows with
  | nil => intro r hr; cases hr
  | cons x rest ih =>
    simp only [lastWith] at h
    cases hl : lastWith p rest with
    | some y => rw [hl] at h; cases h
    | none =>
      rw [hl] at h
      intro r hr
      rcases List.mem_cons.mp hr with rfl | hr
      · cases hp : p r with
        | false => rfl
        | true => simp [hp] at h
      · exact ih hl r hr

theorem lastWith_keepLast (nv : NumberView) (names : List String) (f : NumField)
    (rows : List (Option Json)) :
    lastWith (f.isRow nv) (keepLast nv names rows) = lastWith (f.isRow nv) rows := by
  induction rows with
  | nil => rfl
  | cons r rest ih =>
    unfold keepLast
    by_cases hc : nameOf nv r ∈ names ∧
        rest.any (fun x => decide (nameOf nv x = nameOf nv r)) = true
    · rw [if_pos hc, ih]
      simp only [lastWith]
      cases hl : lastWith (f.isRow nv) rest with
      | some y => rfl
      | none =>
        have hall := lastWith_none_forall _ _ hl
        obtain ⟨x, hx, hxr⟩ := List.any_eq_true.mp hc.2
        have hxr' : nameOf nv x = nameOf nv r := by simpa using hxr
        have hfx := hall x hx
        have hfr : f.isRow nv r = false := by
          simp only [NumField.isRow] at hfx ⊢
          rw [← hxr']
          exact hfx
        simp [hfr]
    · rw [if_neg hc]
      simp only [lastWith, ih]

/-! ## Theorems: duplicate rows -/

/-- C16: the last row of a Name wins. When the settings element of a response
is changed only by removing from `Stream_Table` and from `End_Table`, for each
recognized Name of the table, every row of that Name except the last, the
parser returns the same Status and error. -/
theorem C16_last_duplicate_row_wins (nv : NumberView) (resp resp' v v' : Json)
    (hv : getSetting nv resp = some v) (hv' : getSetting nv resp' = some v')
    (hother : ∀ k, k ≠ "Stream_Table" → k ≠ "End_Table" →
      Result.Get (some v') k = Result.Get (some v) k)
    (hstream : Result.Array (Result.Get (some v') "Stream_Table") =
      keepLast nv streamNames (Result.Array (Result.Get (some v) "Stream_Table")))
    (hend : Result.Array (Result.Get (some v') "End_Table") =
      keepLast nv endNames (Result.Array (Result.Get (some v) "End_Table"))) :
    parseDSLStatusGeneralJSON nv resp' = parseDSLStatusGeneralJSON nv resp := by
  rw [parse_of_setting nv resp v hv, parse_of_setting nv resp' v' hv']
  congr 1
  apply Status_eq_of_fields
  · rw [statusOfSetting_info, statusOfSetting_info]
    unfold infoStatus
    rw [hother "Status" (by decide) (by decide), hother "Mode" (by decide) (by decide),
      hother "Profile" (by decide) (by decide), hother "Annex" (by decide) (by decide),
      hother "DSL_Version" (by decide) (by decide)]
  · intro f
    rw [statusOfSetting_value, statusOfSetting_value]
    rcases f.table_cases with hf | hf
    · rw [hf, hstream, lastWith_keepLast]
    · rw [hf, hend, lastWith_keepLast]

/-- Witness for C16: two `Actual Rate` rows, the later one malformed; the
earlier valid value is overwritten with 0. -/
theorem C16_last_duplicate_row_witness :
    parseDSLStatusGeneralJSON plainNumbers
        (responseDoc [settingDoc
          [streamRowDoc "Actual Rate" "garbage" "10000 Kbps"]
          [endRowDoc "CRC" "12" "7"]]) =
      parseDSLStatusGeneralJSON plainNumbers
        (responseDoc [settingDoc
          [streamRowDoc "Actual Rate" "55000 Kbps" "9000 Kbps",
           streamRowDoc "Actual Rate" "garbage" "10000 Kbps"]
          [endRowDoc "CRC" "12" "7"]]) ∧
    (parseDSLStatusGeneralJSON plainNumbers
        (responseDoc [settingDoc
          [streamRowDoc "Actual Rate" "55000 Kbps" "9000 Kbps",
           streamRowDoc "Actual Rate" "garbage" "10000 Kbps"]
          [endRowDoc "CRC" "12" "7"]])).1.ActualRateDownstream = 0 :=
  ⟨C16_last_duplicate_row_wins plainNumbers _ _ _ _ rfl rfl
    (fun k h1 _ => settingDoc_get_stream _ _ _ k h1) rfl rfl, by decide⟩

/-! ## Lemmas: finiteness -/

theorem Float64.round_isFinite (neg : Bool) (p q : Nat) (x : Float64)
    (h : Float64.round neg p q = some x) : x.isFinite = true := by
  unfold Float64.round at h
  simp only at h
  split at h
  · cases h; rfl
  · split at h
    · cases h; rfl
    · split at h
      · split at h
        · cases h
        · cases h; rfl
      · split at h
        · cases h
        · cases h; rfl

theorem special_spec (cs : List Char) (x : Float64) (h : special cs = some x) :
    (x = .nan ∧ isNanWord cs = true) ∨
    (x = .inf (splitSign cs).1 ∧ isInfWord (splitSign cs).2 = true) := by
  cases cs with
  | nil => cases h
  | cons c r =>
    simp only [special] at h
    by_cases h1 : c = '+'
    · simp only [h1, if_true] at h
      by_cases hi : isInfWord r = true
      · simp only [hi, if_true, Option.some.injEq] at h
        exact Or.inr ⟨by simp [splitSign, h1, h], by simp [splitSign, h1, hi]⟩
      · simp [hi] at h
    · by_cases h2 : c = '-'
      · simp only [h2, if_true] at h
        have h21 : ¬ ('-' : Char) = '+' := by decide
        simp only [h21, if_false] at h
        by_cases hi : isInfWord r = true
        · simp only [hi, if_true, Option.some.injEq] at h
          exact Or.inr ⟨by simp [splitSign, h2, h], by simp [splitSign, h2, hi]⟩
        · simp [hi] at h
      · simp only [h1, h2, if_false] at h
        by_cases hi : isInfWord (c :: r) = true
        · simp only [hi, if_true, Option.some.injEq] at h
          exact Or.inr ⟨by simp [splitSign, h1, h2, h], by simp [splitSign, h1, h2, hi]⟩
        · simp only [hi, Bool.false_eq_true, if_false] at h
          by_cases hn : isNanWord (c :: r) = true
          · simp only [hn, if_true, Option.some.injEq] at h
            exact Or.inl ⟨h.symm, hn⟩
          · simp [hn] at h

theorem asciiLower_sign (c : Char) (h : c = '+' ∨ c = '-') : asciiLower c = c := by
  rcases h with rfl | rfl <;> decide

theorem special_of_nan (cs : List Char) (h : isNanWord cs = true) : special cs = some .nan := by
  cases cs with
  | nil => simp [isNanWord] at h
  | cons c r =>
    have hm : (c :: r).map asciiLower = ['n', 'a', 'n'] := by simpa [isNanWord] using h
    have hc : asciiLower c = 'n' := by
      simp only [List.map_cons, List.cons.injEq] at hm
      exact hm.1
    have h1 : ¬ c = '+' := by
      intro he
      rw [asciiLower_sign c (Or.inl he), he] at hc
      exact absurd hc (by decide)
    have h2 : ¬ c = '-' := by
      intro he
      rw [asciiLower_sign c (Or.inr he), he] at hc
      exact absurd hc (by decide)
    have hi : isInfWord (c :: r) = false := by
      simp only [isInfWord, hm, decide_eq_false_iff_not]
      decide
    simp only [special, h1, h2, if_false, hi, Bool.false_eq_true, h, if_true]

theorem special_of_inf (cs : List Char) (h : isInfWord (splitSign cs).2 = true) :
    special cs = some (.inf (splitSign cs).1) := by
  cases cs with
  | nil => simp [splitSign, isInfWord] at h
  | cons c r =>
    by_cases h1 : c = '+'
    · subst h1
      have hs : splitSign ('+' :: r) = (false, r) := by simp [splitSign]
      rw [hs] at h ⊢
      simp only [special, if_true, h]
    · by_cases h2 : c = '-'
      · subst h2
        have hs : splitSign ('-' :: r) = (true, r) := by simp [splitSign]
        rw [hs] at h ⊢
        have h21 : ¬ ('-' : Char) = '+' := by decide
        simp only [special, h21, if_false, if_true, h]
      · have hs : splitSign (c :: r) = (false, c :: r) := by simp [splitSign, h1, h2]
        rw [hs] at h ⊢
        simp only [special, h1, h2, if_false, h, if_true]

theorem ParseFloat_ok (s : String) (x : Float64) (h : ParseFloat s = .ok x) :
    x.isFinite = true ∨ special s.toList = some x := by
  unfold ParseFloat at h
  cases hs : special s.toList with
  | some f =>
    rw [hs] at h
    simp only [Except.ok.injEq] at h
    exact Or.inr (by rw [h])
  | none =>
    rw [hs] at h
    simp only at h
    cases hr : readFloat s.toList with
    | none => rw [hr] at h; cases h
    | some l =>
      rw [hr] at h
      simp only at h
      cases ht : l.toFloat64 with
      | none => rw [ht] at h; cases h
      | some f =>
        rw [ht] at h
        simp only [Except.ok.injEq] at h
        subst h
        left
        unfold FloatLit.toFloat64 at ht
        simp only at ht
        split at ht
        · exact Float64.round_isFinite _ _ _ _ ht
        · exact Float64.round_isFinite _ _ _ _ ht

theorem parsedB_finite_or_special (s : String) :
    (parsedB s).isFinite = true ∨
    ∃ a b, Fields s = [a, b] ∧ special a.toList = some (parsedB s) := by
  by_cases hlen : (Fields s).length = 2
  · match hf : Fields s, hlen with
    | [a, b], _ =>
      cases hp : ParseFloat a with
      | error e =>
        left
        simp [parsedB, hf, hp, Float64.isFinite]
      | ok x =>
        have hx : parsedB s = x := by simp [parsedB, hf, hp]
        rw [hx]
        rcases ParseFloat_ok a x hp with h | h
        · exact Or.inl h
        · exact Or.inr ⟨a, b, rfl, h⟩
  · left
    simp [parsedB, hlen, Float64.isFinite]

theorem parsedB_of_special (s a b : String) (x : Float64) (hf : Fields s = [a, b])
    (hs : special a.toList = some x) : parsedB s = x := by
  have hp : ParseFloat a = .ok x := by simp only [ParseFloat, hs]
  simp [parsedB, hf, hp]

theorem parsedB_special_word (s : String) :
    (parsedB s).isFinite = true ∨
    ∃ a b, Fields s = [a, b] ∧
      ((isNanWord a.toList = true ∧ parsedB s = .nan) ∨
       (isInfWord (splitSign a.toList).2 = true ∧
         parsedB s = .inf (splitSign a.toList).1)) := by
  rcases parsedB_finite_or_special s with h | ⟨a, b, hf, hs⟩
  · exact Or.inl h
  · right
    refine ⟨a, b, hf, ?_⟩
    rcases special_spec _ _ hs with ⟨h1, h2⟩ | ⟨h1, h2⟩
    · exact Or.inl ⟨h2, h1⟩
    · exact Or.inr ⟨h2, h1⟩

theorem successSamples_floats (s : Status) :
    (((successSamples s).drop 6).take 4).map (fun m => (m.desc, m.value)) =
      [ (snrMarginDownDesc, s.SNRMarginDownstream),
        (snrMarginUpDesc, s.SNRMarginUpstream),
        (lineAttenuationNearEndDesc, s.LineAttenuationNearEnd),
        (lineAttenuationFarEndDesc, s.LineAttenuationFarEnd) ] := rfl

/-! ## Theorems: finiteness and overflow -/

/-- Counterexample for C17: `parsedB` returns NaN and the infinities for the
words `NaN`, `Inf` and `Infinity`; a response whose SNR margin row reads
`NaN dB` parses to a Status whose downstream SNR margin is NaN, and `Collect`
emits that NaN. -/
theorem C17_counterexample_nan_and_inf :
    parsedB "NaN dB" = .nan ∧ (parsedB "NaN dB").isFinite = false ∧
    parsedB "Inf dB" = .inf false ∧ parsedB "-infinity dB" = .inf true ∧
    (parseDSLStatusGeneralJSON plainNumbers
      (responseDoc [settingDoc [streamRowDoc "SNR Margin" "NaN dB" "6 dB"] []])).2 = none ∧
    (parseDSLStatusGeneralJSON plainNumbers
      (responseDoc [settingDoc [streamRowDoc "SNR Margin" "NaN dB" "6 dB"] []])).1.SNRMarginDownstream
        = .nan ∧
    (Collect (FetchStatus plainNumbers
      (.ok (responseDoc [settingDoc [streamRowDoc "SNR Margin" "NaN dB" "6 dB"] []])))).map
        (fun ms => (ms.get? 6).map (fun m => (m.desc.fqName, m.value))) =
      some (some ("draytek_downstream_snr_margin_db", .nan)) := by
  refine ⟨by decide, by decide, by decide, by decide, by decide, by decide, by decide⟩

/-- C17 (amended): `parsedB` returns a finite number unless the string has
exactly two tokens and the first is one of the words `nan`, `inf`, `infinity`
in any letter case (the last two optionally signed), and in that case it
returns NaN for `nan` and the infinity for `inf` and `infinity`, negative
when the word has the sign `-` and positive when it has `+` or no sign. So
every SNR-margin and line-attenuation field of a parsed Status is finite
unless the row value it is read from starts with such a word, and `Collect`
emits those four fields unchanged when the info strings are valid UTF-8, and
none of them when they are not. -/
theorem C17_parsedB_finite_unless_special_word :
    (∀ s : String, (parsedB s).isFinite = false ↔
      ∃ a b, Fields s = [a, b] ∧
        (isNanWord a.toList = true ∨ isInfWord (splitSign a.toList).2 = true)) ∧
    (∀ s a b : String, Fields s = [a, b] → isNanWord a.toList = true → parsedB s = .nan) ∧
    (∀ s a b : String, Fields s = [a, b] → isInfWord (splitSign a.toList).2 = true →
      parsedB s = .inf (splitSign a.toList).1) ∧
    (∀ word : List Char, isInfWord word = true →
      splitSign ('-' :: word) = (true, word) ∧ splitSign ('+' :: word) = (false, word) ∧
      splitSign word = (false, word)) ∧
    (∀ word : List Char,
      (isNanWord word = true ↔ word.map asciiLower = "nan".toList) ∧
      (isInfWord word = true ↔
        word.map asciiLower = "inf".toList ∨ word.map asciiLower = "infinity".toList)) ∧
    (∀ (nv : NumberView) (resp : Json) (f : NumField) (x : Float64),
      f.value (parseDSLStatusGeneralJSON nv resp).1 = .float x →
      x.isFinite = true ∨
      ∃ v r a b, getSetting nv resp = some v ∧
        r ∈ Result.Array (Result.Get (some v) f.table) ∧ nameOf nv r = f.name ∧
        x = parsedB (Result.String nv (Result.Get r f.key)).text ∧
        Fields (Result.String nv (Result.Get r f.key)).text = [a, b] ∧
        ((isNanWord a.toList = true ∧ x = .nan) ∨
         (isInfWord (splitSign a.toList).2 = true ∧ x = .inf (splitSign a.toList).1))) ∧
    (∀ fetched : Status × Option Error, fetched.2 = none → infoValid fetched.1 = true →
      (Collect fetched).map
          (fun ms => ((ms.drop 6).take 4).map (fun m => (m.desc, m.value))) =
        some [ (snrMarginDownDesc, fetched.1.SNRMarginDownstream),
               (snrMarginUpDesc, fetched.1.SNRMarginUpstream),
               (lineAttenuationNearEndDesc, fetched.1.LineAttenuationNearEnd),
               (lineAttenuationFarEndDesc, fetched.1.LineAttenuationFarEnd) ]) ∧
    (∀ fetched : Status × Option Error, fetched.2 = none → infoValid fetched.1 = false →
      Collect.sent fetched = [upSample Float64.one]) := by
  have hnan : ∀ s a b : String, Fields s = [a, b] → isNanWord a.toList = true →
      parsedB s = .nan :=
    fun s a b hf h => parsedB_of_special s a b _ hf (special_of_nan _ h)
  have hinf : ∀ s a b : String, Fields s = [a, b] →
      isInfWord (splitSign a.toList).2 = true → parsedB s = .inf (splitSign a.toList).1 :=
    fun s a b hf h => parsedB_of_special s a b _ hf (special_of_inf _ h)
  refine ⟨?_, hnan, hinf, ?_, ?_, ?_, ?_,
    fun fetched hok hv => (Collect_invalid fetched hok hv).2⟩
  · intro s
    constructor
    · intro h
      rcases parsedB_special_word s with h1 | ⟨a, b, hf, h2⟩
      · rw [h] at h1
        exact Bool.noConfusion h1
      · exact ⟨a, b, hf, h2.imp And.left And.left⟩
    · rintro ⟨a, b, hf, h | h⟩
      · rw [hnan s a b hf h]
        rfl
      · rw [hinf s a b hf h]
        rfl
  · intro word hw
    cases word with
    | nil => simp [isInfWord] at hw
    | cons c r =>
      have hm : asciiLower c = 'i' := by
        simp only [isInfWord, List.map_cons, decide_eq_true_eq] at hw
        rcases hw with hw | hw
        · exact (List.cons.inj hw).1
        · exact (List.cons.inj hw).1
      have h1 : ¬ c = '+' := by
        intro he
        rw [asciiLower_sign c (Or.inl he), he] at hm
        exact absurd hm (by decide)
      have h2 : ¬ c = '-' := by
        intro he
        rw [asciiLower_sign c (Or.inr he), he] at hm
        exact absurd hm (by decide)
      refine ⟨by simp [splitSign], by simp [splitSign], by simp [splitSign, h1, h2]⟩
  · intro word
    constructor
    · simp only [isNanWord, decide_eq_true_eq]
      exact Iff.rfl
    · simp only [isInfWord, decide_eq_true_eq]
      exact Iff.rfl
  · intro nv resp f x hx
    cases hs : getSetting nv resp with
    | none =>
      left
      have hp : parseDSLStatusGeneralJSON nv resp = ({}, some .ErrParseFailed) := by
        simp [parseDSLStatusGeneralJSON, hs, Result.Exists]
      rw [hp] at hx
      cases f <;> cases hx <;> rfl
    | some v =>
      rw [parse_of_setting nv resp v hs] at hx
      change f.value (statusOfSetting nv (some v)) = .float x at hx
      rw [statusOfSetting_value] at hx
      cases hl : lastWith (f.isRow nv) (Result.Array (Result.Get (some v) f.table)) with
      | none =>
        left
        rw [hl] at hx
        simp only [Option.map, Option.getD] at hx
        cases f <;> cases hx <;> rfl
      | some r =>
        rw [hl] at hx
        simp only [Option.map, Option.getD] at hx
        obtain ⟨hmem, hrow⟩ := lastWith_some _ _ _ hl
        have hname : nameOf nv r = f.name := by simpa [NumField.isRow] using hrow
        have hread : x = parsedB (Result.String nv (Result.Get r f.key)).text := by
          cases f <;> cases hx <;> rfl
        rcases parsedB_special_word (Result.String nv (Result.Get r f.key)).text with
          h | ⟨a, b, h1, h2⟩
        · left; rw [hread]; exact h
        · right
          refine ⟨v, r, a, b, rfl, hmem, hname, hread, h1, ?_⟩
          rw [hread]
          exact h2
  · intro fetched hok hv
    rw [(Collect_ok fetched hok hv).1]
    simp only [Option.map, successSamples_floats]

/-- Witness for C17: `nAn` gives NaN, `-InFiNiTy` the negative and `+INF` the
positive infinity, whatever the unit and the spacing; `5.3 dB` is finite. -/
theorem C17_parsedB_finite_witness :
    parsedB " nAn  dB" = .nan ∧
    parsedB "-InFiNiTy dBm" = .inf true ∧
    parsedB "+INF\tx" = .inf false ∧
    ((parsedB "5.3 dB").isFinite = false ↔
      ∃ a b, Fields "5.3 dB" = [a, b] ∧
        (isNanWord a.toList = true ∨ isInfWord (splitSign a.toList).2 = true)) ∧
    (parsedB "5.3 dB").isFinite = true :=
  ⟨C17_parsedB_finite_unless_special_word.2.1 " nAn  dB" "nAn" "dB" (by decide) (by decide),
   C17_parsedB_finite_unless_special_word.2.2.1 "-InFiNiTy dBm" "-InFiNiTy" "dBm"
     (by decide) (by decide),
   C17_parsedB_finite_unless_special_word.2.2.1 "+INF\tx" "+INF" "x" (by decide) (by decide),
   C17_parsedB_finite_unless_special_word.1 "5.3 dB",
   by decide⟩

theorem Atoi_of_plus_digits (cs : List Char) (hd : ∀ c ∈ cs, isDecDigit c = true)
    (hne : cs ≠ []) (hv : digitsValue cs 0 < 2 ^ 63) :
    Atoi (String.mk ('+' :: cs)) = .ok (digitsValue cs 0 : Int) := by
  have hp := parseUintFrom_ok cs 0 hd (by omega)
  have hv' : ¬ (9223372036854775808 ≤ digitsValue cs 0) := by norm_num at hv; omega
  simp [Atoi, String.toList, splitSign, hne, hp, hv']

theorem Atoi_signed (sign digits : List Char)
    (hsign : sign = [] ∨ sign = ['+'] ∨ sign = ['-'])
    (hd : ∀ c ∈ digits, isDecDigit c = true) (hne : digits ≠ [])
    (hlo : -(2 : Int) ^ 63 ≤
      (if sign = ['-'] then -(digitsValue digits 0 : Int) else (digitsValue digits 0 : Int)))
    (hhi : (if sign = ['-'] then -(digitsValue digits 0 : Int)
      else (digitsValue digits 0 : Int)) < 2 ^ 63) :
    Atoi (String.mk (sign ++ digits)) =
      .ok (if sign = ['-'] then -(digitsValue digits 0 : Int)
        else (digitsValue digits 0 : Int)) := by
  rcases hsign with rfl | rfl | rfl
  · have h1 : ¬ (([] : List Char) = ['-']) := by decide
    simp only [h1, if_false] at hlo hhi ⊢
    exact Atoi_of_digits digits hd hne (by omega)
  · have h1 : ¬ ((['+'] : List Char) = ['-']) := by decide
    simp only [h1, if_false] at hlo hhi ⊢
    exact Atoi_of_plus_digits digits hd hne (by omega)
  · simp only [if_true] at hlo hhi ⊢
    exact Atoi_of_neg_digits digits hd hne (by omega)

theorem wrapInt64_range (z : Int) : -(2 : Int) ^ 63 ≤ wrapInt64 z ∧ wrapInt64 z < 2 ^ 63 := by
  unfold wrapInt64
  have h1 := Int.emod_nonneg (z + 2 ^ 63) (show (2 : Int) ^ 64 ≠ 0 by norm_num)
  have h2 := Int.emod_lt_of_pos (z + 2 ^ 63) (show (0 : Int) < 2 ^ 64 by norm_num)
  constructor <;> omega

/-- Counterexample for C18: the integer parser accepts 9223372036854775807,
which fits in a 64-bit signed int, and the multiplication by 1000 wraps
around: `parseKbps` returns -1000. -/
theorem C18_counterexample_product_wraps :
    Atoi "9223372036854775807" = .ok 9223372036854775807 ∧
    Fields "9223372036854775807 Kbps" = ["9223372036854775807", "Kbps"] ∧
    parseKbps "9223372036854775807 Kbps" = -1000 ∧
    parseKbps "9223372036854775807 Kbps" ≠ 9223372036854775807 * 1000 := by
  refine ⟨by rfl, by decide, by decide, by decide⟩

/-- C18 (amended): for every two-token string whose first token is an optional
sign followed by decimal digits denoting an integer `N` that fits in a 64-bit
signed int, `parseKbps` returns `N * 1000` reduced to the 64-bit signed range
by wrap-around; this is exactly `N * 1000` if and only if `N * 1000` itself
fits in that range. A leading `+` gives the positive and a leading `-` the
negative product. -/
theorem C18_parseKbps_product_modulo_2_64 (s : String) (sign digits unit : List Char)
    (hsign : sign = [] ∨ sign = ['+'] ∨ sign = ['-'])
    (hd : ∀ c ∈ digits, isDecDigit c = true) (hne : digits ≠ [])
    (hlo : -(2 : Int) ^ 63 ≤
      (if sign = ['-'] then -(digitsValue digits 0 : Int) else (digitsValue digits 0 : Int)))
    (hhi : (if sign = ['-'] then -(digitsValue digits 0 : Int)
      else (digitsValue digits 0 : Int)) < 2 ^ 63)
    (htok : IsTwoTokens s (sign ++ digits) unit) :
    parseKbps s =
      wrapInt64 ((if sign = ['-'] then -(digitsValue digits 0 : Int)
        else (digitsValue digits 0 : Int)) * 1000) ∧
    (parseKbps s =
        (if sign = ['-'] then -(digitsValue digits 0 : Int)
          else (digitsValue digits 0 : Int)) * 1000 ↔
      (-(2 : Int) ^ 63 ≤
          (if sign = ['-'] then -(digitsValue digits 0 : Int)
            else (digitsValue digits 0 : Int)) * 1000 ∧
        (if sign = ['-'] then -(digitsValue digits 0 : Int)
          else (digitsValue digits 0 : Int)) * 1000 < 2 ^ 63)) := by
  have hf := Fields_of_two_tokens s _ _ htok
  have ha := Atoi_signed sign digits hsign hd hne hlo hhi
  have hk : parseKbps s =
      wrapInt64 ((if sign = ['-'] then -(digitsValue digits 0 : Int)
        else (digitsValue digits 0 : Int)) * 1000) := by
    simp only [parseKbps, hf, List.length_cons, List.length_nil, List.headD_cons, ha]
    simp only [Nat.reduceAdd, ne_eq, not_true_eq_false, if_false]
  refine ⟨hk, ?_⟩
  constructor
  · intro h
    rw [← h, hk]
    exact wrapInt64_range _
  · rintro ⟨h1, h2⟩
    rw [hk]
    exact wrapInt64_of_range _ h1 h2

/-- Witness for C18: a token with a plus sign and one with a minus sign. -/
theorem C18_parseKbps_signed_witness :
    parseKbps "+5 Kbps" = 5 * 1000 ∧ parseKbps "-5 Kbps" = -5 * 1000 :=
  ⟨((C18_parseKbps_product_modulo_2_64 "+5 Kbps" ['+'] ['5'] ['K', 'b', 'p', 's']
      (by decide) (by decide) (by decide) (by decide) (by decide)
      ⟨[], [' '], [], by decide, by decide, by decide, by decide, by decide, by decide,
        by decide, by decide, by decide⟩).2).2 (by decide),
   ((C18_parseKbps_product_modulo_2_64 "-5 Kbps" ['-'] ['5'] ['K', 'b', 'p', 's']
      (by decide) (by decide) (by decide) (by decide) (by decide)
      ⟨[], [' '], [], by decide, by decide, by decide, by decide, by decide, by decide,
        by decide, by decide, by decide⟩).2).2 (by decide)⟩

end Draytek
